import Mathlib

/-!
Verification development for the VMD_CommonSupplier repository.

The repository has two entry points sharing most of their logic:
`commonsupplier.py` (explicit parent/child pairs mode, `process_excel(input_bytes, pairs)`)
and `main.py` (legacy positional mode, `process_excel(input_file, output_file)`).

Shallow embedding conventions:
* a pandas DataFrame read with `dtype=str` is a `Table`: a list of column
  names and a list of rows, each row a positional list of cells;
* a cell is `Option String`: `none` models a NaN cell (a cell that was
  empty in the workbook), `some s` a string cell; `str(cell)` is `cellStr`,
  which renders NaN as "nan" exactly as Python does;
* Python `str.strip()` / `.lower()` / `.upper()` are `pyStrip` / `pyLower` /
  `pyUpper` (character-list based so that the kernel can evaluate them);
* the `modified_cells` set is a duplicate-free list of
  (sheet name, row index, column name) triples;
* the I/O, styling and highlighting phases are out of scope; the pipeline
  is modelled up to the mutated tables plus the mutation ledger, and a
  fatal error is an `Except.error` (so no output exists on a fatal error).
-/

/-- Cells of a `dtype=str` DataFrame: `none` is NaN, `some s` a string. -/
abbrev Cell := Option String

/-- Whitespace for Python `str.strip()` (the characters relevant here,
including the non-breaking space, which Python treats as whitespace). -/
def isPyWS (c : Char) : Bool :=
  c = ' ' || c = '\t' || c = '\n' || c = '\r' || c = '\x0b' || c = '\x0c' || c = ' '

/-- Python `str.strip()`. -/
def pyStrip (s : String) : String :=
  String.mk (((s.toList.dropWhile isPyWS).reverse.dropWhile isPyWS).reverse)

/-- Python `str.lower()` (ASCII case fold, enough for the data involved). -/
def pyLower (s : String) : String :=
  String.mk (s.toList.map Char.toLower)

/-- Python `str.upper()` (ASCII case fold). -/
def pyUpper (s : String) : String :=
  String.mk (s.toList.map Char.toUpper)

/-- Python `str(cell)` for a `dtype=str` cell: NaN prints as "nan". -/
def cellStr : Cell → String
  | none => "nan"
  | some s => s

/-- A DataFrame: header names plus rows of positional cells. -/
structure Table where
  cols : List String
  rows : List (List Cell)
deriving DecidableEq, Inhabited

/-- Index of the first column having exactly the given name
(`df.columns` lookup / `df.at[idx, col]` addressing). -/
def colIdx : List String → String → Option Nat
  | [], _ => none
  | c :: cs, t => if c = t then some 0 else (colIdx cs t).map (· + 1)

/-- Cell of a row at a column position (missing position is NaN). -/
def rowGet (r : List Cell) (j : Nat) : Cell :=
  match r[j]? with
  | some c => c
  | none => none

/-- `df.at[i, c]` as a read. -/
def getCell (t : Table) (i : Nat) (c : String) : Cell :=
  match colIdx t.cols c with
  | none => none
  | some j =>
    match t.rows[i]? with
    | some r => rowGet r j
    | none => none

/-- Replace position `j` of a row. -/
def setEntry : List Cell → Nat → Cell → List Cell
  | [], _, _ => []
  | _ :: r, 0, v => v :: r
  | x :: r, j + 1, v => x :: setEntry r j v

/-- Replace position `j` of row `i`. -/
def setRowAt : List (List Cell) → Nat → Nat → Cell → List (List Cell)
  | [], _, _, _ => []
  | r :: rs, 0, j, v => setEntry r j v :: rs
  | r :: rs, i + 1, j, v => r :: setRowAt rs i j v

/-- `df.at[i, c] = v` as a write. -/
def setCell (t : Table) (i : Nat) (c : String) (v : String) : Table :=
  match colIdx t.cols c with
  | none => t
  | some j => ⟨t.cols, setRowAt t.rows i j (some v)⟩

/-- A mutation-ledger entry: (sheet name, row index, column name). -/
abbrev Entry := String × Nat × String

/-- The `modified_cells` set, as a duplicate-free list. -/
abbrev Ledger := List Entry

/-- `modified_cells.add e` (set semantics). -/
def ledInsert (led : Ledger) (e : Entry) : Ledger :=
  if e ∈ led then led else e :: led

/-- `commonsupplier.update_cell`: write the cell if the stripped stringified
values differ, and record the mutation unless the old cell was NaN and the
new value is the empty string. -/
def update_cell (t : Table) (idx : Nat) (col : String) (newVal : String)
    (led : Ledger) (sheet : String) : Table × Ledger :=
  if col ∈ t.cols then
    let old := getCell t idx col
    if pyStrip (cellStr old) ≠ pyStrip newVal then
      let t2 := setCell t idx col newVal
      if old = none ∧ newVal = "" then (t2, led)
      else (t2, ledInsert led (sheet, idx, col))
    else (t, led)
  else (t, led)

/-- `ensure_column`: create the column, default empty string, if missing. -/
def ensure_column (t : Table) (c : String) : Table :=
  if c ∈ t.cols then t
  else ⟨t.cols ++ [c], t.rows.map (fun r => r ++ [some ""])⟩

/-- One header under `clean_headers`: `str.strip()` then replace
non-breaking spaces by plain spaces. -/
def cleanName (c : String) : String :=
  String.mk ((pyStrip c).toList.map (fun ch => if ch = ' ' then ' ' else ch))

/-- `clean_headers`: normalize all header names, data untouched. -/
def clean_headers (t : Table) : Table :=
  ⟨t.cols.map cleanName, t.rows⟩

/-- The fold used by `find_column`: `col.lower().replace(" ", "")`. -/
def normName (s : String) : String :=
  String.mk ((pyLower s).toList.filter (fun ch => ch ≠ ' '))

/-- `find_column`: first header matching the target case- and
space-insensitively; `none` models the raised `KeyError`. -/
def find_column (t : Table) (target : String) : Option String :=
  t.cols.find? (fun c => normName c == normName target)

/-- A Python dict with string keys and values, as an insertion-ordered
association list (overwriting keeps the original position). -/
abbrev AssocMap := List (String × String)

/-- `d[k] = v` on a Python dict. -/
def amSet : AssocMap → String → String → AssocMap
  | [], k, v => [(k, v)]
  | (k0, v0) :: m, k, v => if k0 = k then (k, v) :: m else (k0, v0) :: amSet m k v

/-- `d.get(k)` on a Python dict. -/
def amGet : AssocMap → String → Option String
  | [], _ => none
  | (k0, v0) :: m, k => if k0 = k then some v0 else amGet m k

/-- Step 1 of `commonsupplier.process_excel`: the `src_info` registry, each
pair writing `parent -> "parent_id"` then `child -> "child_id"`. -/
def buildSrcInfo (pairs : List (String × String)) : AssocMap :=
  pairs.foldl (fun m pr => amSet (amSet m (pyStrip pr.1) "parent_id") (pyStrip pr.2) "child_id") []

/-- Step 1 of `commonsupplier.process_excel`: `id_map[child] = parent`. -/
def buildIdMap (pairs : List (String × String)) : AssocMap :=
  pairs.foldl (fun m pr => amSet m (pyStrip pr.2) (pyStrip pr.1)) []

/-- `value_counts()` of one raw column value (`src_count.get(sid, 0)`). -/
def srcCount (t : Table) (c : String) (sid : String) : Nat :=
  match colIdx t.cols c with
  | none => 0
  | some j => t.rows.countP (fun r => rowGet r j == some sid)

/-- Step 2: attach `role = "PO"` iff the identifier occurs more than once in
the role table's Source_ID column, else `"NPO"`. -/
def assignRoles (info : AssocMap) (t : Table) (c : String) : AssocMap :=
  info.map (fun kv => (kv.1, if 1 < srcCount t c kv.1 then "PO" else "NPO"))

/-- Membership in the grouped code set
`df.groupby(srcCol)[codeCol].apply(lambda x: set(x.dropna().astype(str).str.strip()))
.get(key, set())`: some row has raw source value `key` and a non-NaN code
stripping to `val`. -/
def inCodes (t : Table) (srcCol codeCol key val : String) : Bool :=
  match colIdx t.cols srcCol, colIdx t.cols codeCol with
  | some js, some jc =>
    t.rows.any (fun r =>
      (rowGet r js == some key) &&
      (match rowGet r jc with
       | some c => pyStrip c == val
       | none => false))
  | _, _ => false

/-! Sheet names and per-table column lists, verbatim from the source. -/

def nameBUT000 : String := "BUT000 - General"
def nameBUT100 : String := "BUT100 - Role"
def nameADRC : String := "ADRC - Address"
def nameLFA1 : String := "LFA1 - Supplier General"
def nameLFB1 : String := "LFB1 - Company Code (Supplier)"
def nameLFM1 : String := "LFM1 - Purchasing Org Data"
def nameWYT3 : String := "WYT3 - Partner Function (Suppli"

def requiredSheets : List String :=
  [nameBUT000, nameBUT100, nameADRC, nameLFA1, nameLFB1]

def colsClearB0 : List String :=
  ["NAME_ORG2", "NAME_ORG3", "NAME_ORG4",
   "MC_NAME2", "MC_NAME3", "MC_NAME4",
   "ZGSTS_SLP_REP_FLG", "ZGSTS_CMT_REP_FLG", "ZGSTS_ATL_REP_FLG"]

def colsFillB0 : List String := ["ZGSTS_AVN_REP_FLG", "XDELE"]

def colsNameB0 : List String := ["MC_NAME1", "NAME_ORG1"]

def colsClearLFA1 : List String := ["NAME2", "NAME3", "NAME4"]

def colsReplaceLFA1 : List String := ["NAME1"]

def colsFillLFA1 : List String := ["LOEVM", "SPERR", "SPERM"]

/-- A `for col in L: update_cell(df, i, col, v, ...)` group. -/
def updList (i : Nat) (sh v : String) (s : Table × Ledger) (L : List String) : Table × Ledger :=
  L.foldl (fun acc c => update_cell acc.1 i c v acc.2 sh) s

/-- A `for col in L: if col in df.columns: update_cell(df, i, col, v, ...)`
group (the outer membership test of the BUT000 loop; `update_cell` re-checks
membership itself). -/
def updListG (i : Nat) (sh v : String) (s : Table × Ledger) (L : List String) : Table × Ledger :=
  L.foldl (fun acc c => if c ∈ acc.1.cols then update_cell acc.1 i c v acc.2 sh else acc) s

/-- Loop body of step 3 (BUT000 - General), `commonsupplier.py`:
clear six name fields and three report flags, set two flags to "X" and the
two primary name fields to "COMMON SUPPLIER parent" on child rows; on all
other rows set the CMT/ATL report flags to "X". -/
def stepBUT000 (srcInfo idMap : AssocMap) (srcCol : String)
    (s : Table × Ledger) (i : Nat) : Table × Ledger :=
  let sid := pyStrip (cellStr (getCell s.1 i srcCol))
  if amGet srcInfo sid = some "child_id" then
    let pid := (amGet idMap sid).getD "0000000000"
    let s1 := updListG i nameBUT000 "" s colsClearB0
    let s2 := updListG i nameBUT000 "X" s1 colsFillB0
    updList i nameBUT000 ("COMMON SUPPLIER " ++ pid) s2 colsNameB0
  else
    let s1 := update_cell s.1 i "ZGSTS_CMT_REP_FLG" "X" s.2 nameBUT000
    update_cell s1.1 i "ZGSTS_ATL_REP_FLG" "X" s1.2 nameBUT000

/-- Loop body of step 4 (ADRC - Address): rename `Name1` on child rows. -/
def stepADRC (srcInfo idMap : AssocMap) (srcCol nameCol : String)
    (s : Table × Ledger) (i : Nat) : Table × Ledger :=
  let sid := pyStrip (cellStr (getCell s.1 i srcCol))
  if amGet srcInfo sid = some "child_id" then
    let pid := (amGet idMap sid).getD "0000000000"
    update_cell s.1 i nameCol ("COMMON SUPPLIER " ++ pid) s.2 nameADRC
  else s

/-- Loop body of step 5 (LFA1 - Supplier General): on child rows clear
NAME2-4, rename NAME1, fill LOEVM/SPERR/SPERM with "X". -/
def stepLFA1 (srcInfo idMap : AssocMap) (srcCol : String)
    (s : Table × Ledger) (i : Nat) : Table × Ledger :=
  let sid := pyStrip (cellStr (getCell s.1 i srcCol))
  if amGet srcInfo sid = some "child_id" then
    let pid := (amGet idMap sid).getD "0000000000"
    let s1 := updList i nameLFA1 "" s colsClearLFA1
    let s2 := updList i nameLFA1 ("COMMON SUPPLIER " ++ pid) s1 colsReplaceLFA1
    updList i nameLFA1 "X" s2 colsFillLFA1
  else s

/-- Loop body of the association-table reconciliation (steps 6 and 7,
LFB1 / LFM1): for a child row whose stripped code value is non-empty and not
among the parent's grouped code values (`t0` is the table state the group
map was built from), set `_ACTION_CODE` to "I" and redirect the row's
identifier to the parent. -/
def stepAssoc (srcInfo idMap : AssocMap) (srcCol codeCol sheet : String) (t0 : Table)
    (s : Table × Ledger) (i : Nat) : Table × Ledger :=
  let sid := pyStrip (cellStr (getCell s.1 i srcCol))
  if amGet srcInfo sid = some "child_id" then
    let pid := (amGet idMap sid).getD "0000000000"
    let cv := pyStrip (cellStr (getCell s.1 i codeCol))
    if cv ≠ "" ∧ inCodes t0 srcCol codeCol pid cv = false then
      let u1 := update_cell s.1 i "_ACTION_CODE" "I" s.2 sheet
      update_cell u1.1 i srcCol pid u1.2 sheet
    else s
  else s

/-- `for idx, row in df.iterrows(): step` over all row indices. -/
def foldSteps (step : Table × Ledger → Nat → Table × Ledger)
    (s : Table × Ledger) (n : Nat) : Table × Ledger :=
  (List.range n).foldl step s

/-- Step 3 (BUT000 - General) of `commonsupplier.process_excel`. -/
def processBUT000 (srcInfo idMap : AssocMap) (t : Table) (srcCol : String)
    (led : Ledger) : Table × Ledger :=
  foldSteps (stepBUT000 srcInfo idMap srcCol) (t, led) t.rows.length

/-- Step 4 (ADRC - Address) of `commonsupplier.process_excel`. -/
def processADRC (srcInfo idMap : AssocMap) (t : Table) (srcCol nameCol : String)
    (led : Ledger) : Table × Ledger :=
  foldSteps (stepADRC srcInfo idMap srcCol nameCol) (t, led) t.rows.length

/-- Step 5 (LFA1 - Supplier General) of `commonsupplier.process_excel`. -/
def processLFA1 (srcInfo idMap : AssocMap) (t : Table) (srcCol : String)
    (led : Ledger) : Table × Ledger :=
  foldSteps (stepLFA1 srcInfo idMap srcCol) (t, led) t.rows.length

/-- Steps 6/7 (LFB1 / LFM1) of `commonsupplier.process_excel`: ensure
`_ACTION_CODE`, build the per-identifier code-set map from the current table
state, then run the reconciliation loop. -/
def processAssoc (srcInfo idMap : AssocMap) (t : Table) (srcCol codeCol sheet : String)
    (led : Ledger) : Table × Ledger :=
  let t1 := ensure_column t "_ACTION_CODE"
  foldSteps (stepAssoc srcInfo idMap srcCol codeCol sheet t1) (t1, led) t1.rows.length

/-- The WYT3 PARVW column lookup:
`next((c for c in df.columns if c.strip().lower() == "parvw"), None)`. -/
def findParvw (t : Table) : Option String :=
  t.cols.find? (fun c => pyLower (pyStrip c) == "parvw")

/-- Loop body of step 8 (WYT3 - Partner Function): the reconciliation rule,
then the independent rule setting `DEFPA` to "X" on rows whose PARVW cell
strips and upcases to "LF" (PARVW is read from the row snapshot taken at the
start of the iteration). -/
def stepWYT3 (srcInfo idMap : AssocMap) (srcCol codeCol : String) (pCol : Option String)
    (t0 : Table) (s : Table × Ledger) (i : Nat) : Table × Ledger :=
  let sid := pyStrip (cellStr (getCell s.1 i srcCol))
  let parvwHit : Bool :=
    match pCol with
    | some pc => pyUpper (pyStrip (cellStr (getCell s.1 i pc))) == "LF"
    | none => false
  let s1 :=
    if amGet srcInfo sid = some "child_id" then
      let pid := (amGet idMap sid).getD "0000000000"
      let cv := pyStrip (cellStr (getCell s.1 i codeCol))
      if cv ≠ "" ∧ inCodes t0 srcCol codeCol pid cv = false then
        let u1 := update_cell s.1 i "_ACTION_CODE" "I" s.2 nameWYT3
        update_cell u1.1 i srcCol pid u1.2 nameWYT3
      else s
    else s
  if parvwHit then update_cell s1.1 i "DEFPA" "X" s1.2 nameWYT3
  else s1

/-- Step 8 (WYT3 - Partner Function) of `commonsupplier.process_excel`:
ensure `_ACTION_CODE`, build the code-set map, locate PARVW, ensure `DEFPA`,
then run the loop. -/
def processWYT3 (srcInfo idMap : AssocMap) (t : Table) (srcCol codeCol : String)
    (led : Ledger) : Table × Ledger :=
  let t1 := ensure_column t "_ACTION_CODE"
  let pCol := findParvw t1
  let t2 := ensure_column t1 "DEFPA"
  foldSteps (stepWYT3 srcInfo idMap srcCol codeCol pCol t1) (t2, led) t2.rows.length

/-- The result of one `commonsupplier.process_excel` run, before the
assembly/styling phase: the seven sheets (the two optional ones when
present), the roles attached to the identifier registry, and the mutation
ledger. -/
structure ProcResult where
  but000 : Table
  but100 : Table
  adrc : Table
  lfa1 : Table
  lfb1 : Table
  lfm1 : Option Table
  wyt3 : Option Table
  roles : AssocMap
  ledger : Ledger
deriving DecidableEq, Inhabited

/-- `sheets.get(name)` on the workbook read by `pd.read_excel`. -/
def sheetLookup (wb : List (String × Table)) (s : String) : Option Table :=
  (wb.find? (fun p => p.1 == s)).map (fun p => p.2)

/-- The `ValueError` raised for a missing required sheet. -/
def missingSheetMsg (s : String) : String :=
  "❌ Missing required sheet: " ++ s

/-- The `KeyError` raised by `find_column` (quotes dropped). -/
def missingColMsg (s : String) : String :=
  "❌ Column " ++ s ++ " not found in sheet."

/-- Step 7 of `commonsupplier.process_excel` (LFM1, optional sheet): headers
are cleaned in place; if Source_ID or EKORG cannot be resolved the sheet's
extra logic is skipped with a warning, otherwise the reconciliation runs. -/
def processLFM1opt (srcInfo idMap : AssocMap) (lm : Option Table) (led : Ledger) :
    Option Table × Ledger :=
  match lm with
  | none => (none, led)
  | some t =>
    let tc := clean_headers t
    match find_column tc "Source_ID", find_column tc "EKORG" with
    | some sC, some eC =>
      let p := processAssoc srcInfo idMap tc sC eC nameLFM1 led
      (some p.1, p.2)
    | _, _ => (some tc, led)

/-- Step 8 of `commonsupplier.process_excel` (WYT3, optional sheet). -/
def processWYT3opt (srcInfo idMap : AssocMap) (wy : Option Table) (led : Ledger) :
    Option Table × Ledger :=
  match wy with
  | none => (none, led)
  | some t =>
    let tc := clean_headers t
    match find_column tc "Source_ID", find_column tc "EKORG" with
    | some sC, some eC =>
      let p := processWYT3 srcInfo idMap tc sC eC led
      (some p.1, p.2)
    | _, _ => (some tc, led)

/-- A required `find_column` lookup: `none` (the raised `KeyError`) becomes
the fatal error. -/
def requireCol (t : Table) (cname : String) : Except String String :=
  match find_column t cname with
  | none => Except.error (missingColMsg cname)
  | some c => Except.ok c

/-- Steps 1-8 of `commonsupplier.process_excel` once every required column
has resolved: build the registry and identity map, assign roles, then
mutate the five-to-seven tables in order, threading the mutation ledger. -/
def coreStages (b0 b100 ad la lb : Table) (lm wy : Option Table)
    (pairs : List (String × String))
    (roleCol b0src adSrc adName laSrc lbSrc lbB : String) : ProcResult :=
  let si := buildSrcInfo pairs
  let im := buildIdMap pairs
  let p0 := processBUT000 si im (clean_headers b0) b0src []
  let p1 := processADRC si im (clean_headers ad) adSrc adName p0.2
  let p2 := processLFA1 si im (clean_headers la) laSrc p1.2
  let p3 := processAssoc si im (clean_headers lb) lbSrc lbB nameLFB1 p2.2
  let q4 := processLFM1opt si im lm p3.2
  let q5 := processWYT3opt si im wy q4.2
  ⟨p0.1, clean_headers b100, p1.1, p2.1, p3.1, q4.1, q5.1,
    assignRoles si (clean_headers b100) roleCol, q5.2⟩

/-- Steps 1-8 of `commonsupplier.process_excel`, after the required-sheet
check. The required-column lookups are resolved in source order before the
stages run; this is observationally equal to the source, where a raised
`KeyError` discards the partially mutated in-memory sheets, because the
lookups do not depend on the mutations. -/
def processCore (b0 b100 ad la lb : Table) (lm wy : Option Table)
    (pairs : List (String × String)) : Except String ProcResult :=
  (requireCol (clean_headers b100) "Source_ID").bind fun roleCol =>
    (requireCol (clean_headers b0) "Source_ID").bind fun b0src =>
      (requireCol (clean_headers ad) "Source_ID").bind fun adSrc =>
        (requireCol (clean_headers ad) "Name1").bind fun adName =>
          (requireCol (clean_headers la) "Source_ID").bind fun laSrc =>
            (requireCol (clean_headers lb) "Source_ID").bind fun lbSrc =>
              (requireCol (clean_headers lb) "BUKRS").bind fun lbB =>
                Except.ok
                  (coreStages b0 b100 ad la lb lm wy pairs
                    roleCol b0src adSrc adName laSrc lbSrc lbB)

/-- `commonsupplier.process_excel` up to the assembly phase: check the five
required sheets in order (raising `ValueError` at the first missing one,
before any table is touched), then run the core pipeline. -/
def process_excel (wb : List (String × Table)) (pairs : List (String × String)) :
    Except String ProcResult :=
  match sheetLookup wb nameBUT000 with
  | none => .error (missingSheetMsg nameBUT000)
  | some b0 =>
    match sheetLookup wb nameBUT100 with
    | none => .error (missingSheetMsg nameBUT100)
    | some b100 =>
      match sheetLookup wb nameADRC with
      | none => .error (missingSheetMsg nameADRC)
      | some ad =>
        match sheetLookup wb nameLFA1 with
        | none => .error (missingSheetMsg nameLFA1)
        | some la =>
          match sheetLookup wb nameLFB1 with
          | none => .error (missingSheetMsg nameLFB1)
          | some lb =>
            processCore b0 b100 ad la lb
              (sheetLookup wb nameLFM1) (sheetLookup wb nameWYT3) pairs

namespace Legacy

/-- `main.update_cell`: like the explicit-pairs variant but WITHOUT the
NaN-and-empty exception - every write whose stripped stringified values
differ is recorded. -/
def update_cell (t : Table) (idx : Nat) (col : String) (newVal : String)
    (led : Ledger) (sheet : String) : Table × Ledger :=
  if col ∈ t.cols then
    let old := getCell t idx col
    if pyStrip (cellStr old) ≠ pyStrip newVal then
      (setCell t idx col newVal, ledInsert led (sheet, idx, col))
    else (t, led)
  else (t, led)

/-- `main.py` positional classification of one stripped identifier:
parent iff it has at least 4 characters and the character at zero-based
index 3 is '3'. -/
def classify (sid : String) : String :=
  if 4 ≤ sid.length ∧ sid.toList[3]? = some '3' then "parent_id" else "child_id"

/-- The loop of step 1 of `main.process_excel`, with explicit accumulator:
`for sid in but000[source_col].dropna().astype(str): sid = sid.strip();
src_info[sid] = {...}`. -/
def buildSrcInfoAux : List Cell → AssocMap → AssocMap
  | [], m => m
  | none :: col, m => buildSrcInfoAux col m
  | some s0 :: col, m => buildSrcInfoAux col (amSet m (pyStrip s0) (classify (pyStrip s0)))

/-- Step 1 of `main.process_excel`: the registry built from the BUT000
Source_ID column (`dropna`, stripped), classified positionally. -/
def buildSrcInfo (col : List Cell) : AssocMap :=
  buildSrcInfoAux col []

/-- Step 3 of `main.process_excel`: the parent-id candidates, in registry
(insertion) order. -/
def parentIds (info : AssocMap) : List String :=
  (info.filter (fun kv => kv.2 == "parent_id")).map (fun kv => kv.1)

/-- Step 3 of `main.process_excel`: the single reference parent
(`parent_ids[0] if parent_ids else "0000000000"`). -/
def parentRef (info : AssocMap) : String :=
  match parentIds info with
  | [] => "0000000000"
  | p :: _ => p

end Legacy

/-- Spec-side description (for the refinement check of the positional mode):
the first identifier of the column, in row order after dropping NaNs and
stripping, whose character at zero-based index 3 is '3'. -/
def specFirstParent (col : List Cell) : Option String :=
  (col.filterMap (fun c => c.map pyStrip)).find? (fun s => s.toList[3]? == some '3')

/-! ### Well-formedness of tables

A table read by `pd.read_excel` is rectangular: every row has exactly one
cell per column. -/

/-- Rectangularity of a table. -/
def TableWF (t : Table) : Prop :=
  ∀ r ∈ t.rows, r.length = t.cols.length

instance (t : Table) : Decidable (TableWF t) :=
  inferInstanceAs (Decidable (∀ r ∈ t.rows, r.length = t.cols.length))

/-! ### Lemmas about the cell-level primitives -/

theorem mem_of_getElemOpt {α : Type} {l : List α} {n : Nat} {a : α}
    (h : l[n]? = some a) : a ∈ l := by
  induction l generalizing n with
  | nil => simp at h
  | cons x xs ih =>
    cases n with
    | zero =>
      simp at h
      simp [h]
    | succ n0 => exact List.mem_cons_of_mem x (ih (by simpa using h))

theorem getElemOpt_isSome_of_lt {α : Type} {l : List α} {n : Nat}
    (h : n < l.length) : (l[n]?).isSome := by
  induction l generalizing n with
  | nil => simp at h
  | cons x xs ih =>
    cases n with
    | zero => simp
    | succ n0 => simpa using ih (by simpa using Nat.lt_of_succ_lt_succ h)

theorem colIdx_lt {cols : List String} {c : String} {j : Nat}
    (h : colIdx cols c = some j) : j < cols.length := by
  induction cols generalizing j with
  | nil => simp [colIdx] at h
  | cons c0 cs ih =>
    by_cases hc : c0 = c
    · simp [colIdx, hc] at h
      subst h
      simp
    · simp [colIdx, hc] at h
      obtain ⟨j0, hj0, rfl⟩ := h
      have := ih hj0
      simp
      omega

theorem colIdx_get {cols : List String} {c : String} {j : Nat}
    (h : colIdx cols c = some j) : cols[j]? = some c := by
  induction cols generalizing j with
  | nil => simp [colIdx] at h
  | cons c0 cs ih =>
    by_cases hc : c0 = c
    · simp [colIdx, hc] at h
      subst h
      simp [hc]
    · simp [colIdx, hc] at h
      obtain ⟨j0, hj0, rfl⟩ := h
      simpa using ih hj0

theorem colIdx_isSome_of_mem {cols : List String} {c : String}
    (h : c ∈ cols) : (colIdx cols c).isSome := by
  induction cols with
  | nil => simp at h
  | cons c0 cs ih =>
    by_cases hc : c0 = c
    · simp [colIdx, hc]
    · rcases List.mem_cons.mp h with h1 | h1
      · exact absurd h1.symm hc
      · simp only [colIdx, if_neg hc]
        have := ih h1
        rcases hm : colIdx cs c with _ | j
        · rw [hm] at this; simp at this
        · simp

theorem colIdx_eq_none_of_not_mem {cols : List String} {c : String}
    (h : c ∉ cols) : colIdx cols c = none := by
  rcases hm : colIdx cols c with _ | j
  · rfl
  · exact absurd (mem_of_getElemOpt (colIdx_get hm)) h

theorem colIdx_ne {cols : List String} {c c' : String} {j j' : Nat}
    (h : colIdx cols c = some j) (h' : colIdx cols c' = some j')
    (hne : c ≠ c') : j ≠ j' := by
  intro he
  subst he
  have h1 := colIdx_get h
  have h2 := colIdx_get h'
  rw [h1] at h2
  exact hne (Option.some.inj h2)

theorem colIdx_append_of_mem {cols l : List String} {c : String}
    (h : c ∈ cols) : colIdx (cols ++ l) c = colIdx cols c := by
  induction cols with
  | nil => simp at h
  | cons c0 cs ih =>
    by_cases hc : c0 = c
    · simp [colIdx, hc]
    · rcases List.mem_cons.mp h with h1 | h1
      · exact absurd h1.symm hc
      · simp [colIdx, hc, ih h1]

theorem colIdx_append_self {cols : List String} {c : String}
    (h : c ∉ cols) : colIdx (cols ++ [c]) c = some cols.length := by
  induction cols with
  | nil => simp [colIdx]
  | cons c0 cs ih =>
    have hc : c0 ≠ c := fun he => h (by simp [he])
    have hcs : c ∉ cs := fun hm => h (by simp [hm])
    simp [colIdx, hc, ih hcs]

theorem setEntry_length (r : List Cell) (j : Nat) (v : Cell) :
    (setEntry r j v).length = r.length := by
  induction r generalizing j with
  | nil => rfl
  | cons x rest ih =>
    cases j with
    | zero => rfl
    | succ j0 => simp [setEntry, ih]

theorem setEntry_get_ne (r : List Cell) (j k : Nat) (v : Cell) (h : k ≠ j) :
    (setEntry r j v)[k]? = r[k]? := by
  induction r generalizing j k with
  | nil => rfl
  | cons x rest ih =>
    cases j with
    | zero =>
      cases k with
      | zero => exact absurd rfl h
      | succ k0 => simp [setEntry]
    | succ j0 =>
      cases k with
      | zero => simp [setEntry]
      | succ k0 => simpa [setEntry] using ih j0 k0 (by omega)

theorem setEntry_get_self (r : List Cell) (j : Nat) (v : Cell) (h : j < r.length) :
    (setEntry r j v)[j]? = some v := by
  induction r generalizing j with
  | nil => simp at h
  | cons x rest ih =>
    cases j with
    | zero => simp [setEntry]
    | succ j0 => simpa [setEntry] using ih j0 (by simpa using Nat.lt_of_succ_lt_succ h)

theorem setRowAt_length (rs : List (List Cell)) (i j : Nat) (v : Cell) :
    (setRowAt rs i j v).length = rs.length := by
  induction rs generalizing i with
  | nil => rfl
  | cons r rest ih =>
    cases i with
    | zero => rfl
    | succ i0 => simp [setRowAt, ih]

theorem setRowAt_get_ne (rs : List (List Cell)) (i j k : Nat) (v : Cell) (h : k ≠ i) :
    (setRowAt rs i j v)[k]? = rs[k]? := by
  induction rs generalizing i k with
  | nil => rfl
  | cons r rest ih =>
    cases i with
    | zero =>
      cases k with
      | zero => exact absurd rfl h
      | succ k0 => simp [setRowAt]
    | succ i0 =>
      cases k with
      | zero => simp [setRowAt]
      | succ k0 => simpa [setRowAt] using ih i0 k0 (by omega)

theorem setRowAt_get_self (rs : List (List Cell)) (i j : Nat) (v : Cell) :
    (setRowAt rs i j v)[i]? = (rs[i]?).map (fun r => setEntry r j v) := by
  induction rs generalizing i with
  | nil => rfl
  | cons r rest ih =>
    cases i with
    | zero => simp [setRowAt]
    | succ i0 => simpa [setRowAt] using ih i0

theorem setCell_cols (t : Table) (i : Nat) (c : String) (v : String) :
    (setCell t i c v).cols = t.cols := by
  unfold setCell
  rcases colIdx t.cols c with _ | j <;> rfl

theorem setCell_rows_length (t : Table) (i : Nat) (c : String) (v : String) :
    (setCell t i c v).rows.length = t.rows.length := by
  unfold setCell
  rcases colIdx t.cols c with _ | j
  · rfl
  · simp [setRowAt_length]

theorem setCell_row_ne (t : Table) (i k : Nat) (c : String) (v : String) (h : k ≠ i) :
    (setCell t i c v).rows[k]? = t.rows[k]? := by
  unfold setCell
  rcases colIdx t.cols c with _ | j
  · rfl
  · simp [setRowAt_get_ne _ _ _ _ _ h]

theorem setCell_wf {t : Table} (hwf : TableWF t) (i : Nat) (c : String) (v : String) :
    TableWF (setCell t i c v) := by
  unfold setCell
  rcases colIdx t.cols c with _ | j
  · exact hwf
  · intro r hr
    simp only at hr
    have : ∀ rs : List (List Cell), (∀ r0 ∈ rs, r0.length = t.cols.length) →
        ∀ i0, r ∈ setRowAt rs i0 j (some v) → r.length = t.cols.length := by
      intro rs
      induction rs with
      | nil => intro _ i0 hh; simp [setRowAt] at hh
      | cons r0 rest ih =>
        intro hall i0 hh
        cases i0 with
        | zero =>
          rcases List.mem_cons.mp hh with hh1 | hh1
          · rw [hh1, setEntry_length]; exact hall r0 (by simp)
          · exact hall r (by simp [hh1])
        | succ i1 =>
          rcases List.mem_cons.mp hh with hh1 | hh1
          · exact hall r (by simp [hh1])
          · exact ih (fun r1 h1 => hall r1 (by simp [h1])) i1 hh1
    exact this t.rows hwf i hr

theorem getCell_setCell_self {t : Table} (hwf : TableWF t) {i : Nat} {c : String}
    (v : String) (hc : c ∈ t.cols) (hi : i < t.rows.length) :
    getCell (setCell t i c v) i c = some v := by
  have hs := colIdx_isSome_of_mem hc
  rcases hm : colIdx t.cols c with _ | j
  · rw [hm] at hs; simp at hs
  · rcases hrow : t.rows[i]? with _ | r
    · have := getElemOpt_isSome_of_lt hi
      rw [hrow] at this
      simp at this
    · have hrlen : r.length = t.cols.length :=
        hwf r (mem_of_getElemOpt hrow)
      have hjr : j < r.length := by rw [hrlen]; exact colIdx_lt hm
      unfold getCell setCell
      rw [hm]
      simp only
      rw [hm]
      simp only [setRowAt_get_self, hrow, Option.map_some]
      simp [rowGet, setEntry_get_self r j (some v) hjr]

theorem getCell_setCell_other (t : Table) (i i' : Nat) (c c' : String) (v : String)
    (h : c' ≠ c) : getCell (setCell t i c v) i' c' = getCell t i' c' := by
  unfold setCell
  rcases hm : colIdx t.cols c with _ | j
  · rfl
  · unfold getCell
    simp only
    rcases hm' : colIdx t.cols c' with _ | j'
    · rfl
    · by_cases hik : i' = i
      · subst hik
        rw [setRowAt_get_self]
        rcases hrow : t.rows[i']? with _ | r
        · rfl
        · have hj : j' ≠ j := colIdx_ne hm' hm h
          simp [rowGet, setEntry_get_ne r j j' (some v) hj]
      · rw [setRowAt_get_ne _ _ _ _ _ hik]

/-! ### Lemmas about `ledInsert` and `update_cell` -/

theorem mem_ledInsert {led : Ledger} {e e' : Entry} :
    e' ∈ ledInsert led e ↔ e' ∈ led ∨ e' = e := by
  unfold ledInsert
  split_ifs with h
  · constructor
    · intro h1; exact Or.inl h1
    · rintro (h1 | rfl) <;> [exact h1; exact h]
  · simp [or_comm]

theorem ledInsert_mono {led : Ledger} {e e' : Entry} (h : e' ∈ led) :
    e' ∈ ledInsert led e := mem_ledInsert.mpr (Or.inl h)

theorem update_cell_cols (t : Table) (idx : Nat) (col v : String) (led : Ledger) (sh : String) :
    (update_cell t idx col v led sh).1.cols = t.cols := by
  simp only [update_cell]
  split_ifs <;> simp [setCell_cols]

theorem update_cell_rows_length (t : Table) (idx : Nat) (col v : String) (led : Ledger) (sh : String) :
    (update_cell t idx col v led sh).1.rows.length = t.rows.length := by
  simp only [update_cell]
  split_ifs <;> simp [setCell_rows_length]

theorem update_cell_row_ne {idx k : Nat} (h : k ≠ idx) :
    ∀ (t : Table) (col v : String) (led : Ledger) (sh : String),
      (update_cell t idx col v led sh).1.rows[k]? = t.rows[k]? := by
  intro t col v led sh
  simp only [update_cell]
  split_ifs <;> simp [setCell_row_ne _ _ _ _ _ h]

theorem update_cell_wf {t : Table} (hwf : TableWF t) (idx : Nat) (col v : String)
    (led : Ledger) (sh : String) : TableWF (update_cell t idx col v led sh).1 := by
  simp only [update_cell]
  split_ifs <;> first | exact setCell_wf hwf _ _ _ | exact hwf

/-- Full characterization of the recording behaviour of
`commonsupplier.update_cell`: a ledger entry is produced exactly when the
column exists, the stripped stringified values differ, and it is not the
case that the old cell was NaN and the new value the empty string. -/
theorem update_cell_snd (t : Table) (idx : Nat) (col v : String) (led : Ledger) (sh : String) :
    (update_cell t idx col v led sh).2 =
      if col ∈ t.cols ∧ pyStrip (cellStr (getCell t idx col)) ≠ pyStrip v ∧
          ¬(getCell t idx col = none ∧ v = "") then
        ledInsert led (sh, idx, col)
      else led := by
  simp only [update_cell]
  split_ifs <;> first | rfl | tauto

theorem update_cell_led_mono {t : Table} {idx : Nat} {col v : String} {led : Ledger}
    {sh : String} {e : Entry} (h : e ∈ led) : e ∈ (update_cell t idx col v led sh).2 := by
  rw [update_cell_snd]
  split_ifs
  · exact ledInsert_mono h
  · exact h

theorem update_cell_led_new {t : Table} {idx : Nat} {col v : String} {led : Ledger}
    {sh : String} {e : Entry} (h : e ∈ (update_cell t idx col v led sh).2) :
    e ∈ led ∨ e = (sh, idx, col) := by
  rw [update_cell_snd] at h
  split_ifs at h
  · exact mem_ledInsert.mp h
  · exact Or.inl h

theorem update_cell_getCell_self {t : Table} (hwf : TableWF t) {idx : Nat} {col : String}
    (v : String) (led : Ledger) (sh : String) (hc : col ∈ t.cols) (hi : idx < t.rows.length) :
    getCell (update_cell t idx col v led sh).1 idx col =
      if pyStrip (cellStr (getCell t idx col)) ≠ pyStrip v then some v
      else getCell t idx col := by
  simp only [update_cell, if_pos hc]
  split_ifs with h1 h2 <;>
    first
    | exact getCell_setCell_self hwf v hc hi
    | rfl

theorem update_cell_getCell_other (t : Table) (idx i' : Nat) (col c' v : String)
    (led : Ledger) (sh : String) (h : c' ≠ col) :
    getCell (update_cell t idx col v led sh).1 i' c' = getCell t i' c' := by
  simp only [update_cell]
  split_ifs <;> simp [getCell_setCell_other _ _ _ _ _ _ h]

theorem update_cell_noop {t : Table} {idx : Nat} {col v : String} (led : Ledger) (sh : String)
    (h : pyStrip (cellStr (getCell t idx col)) = pyStrip v) :
    update_cell t idx col v led sh = (t, led) := by
  simp only [update_cell]
  split_ifs with h1 h2 h3
  · exact absurd h h2
  · exact absurd h h2
  · rfl
  · rfl

/-! ### Lemmas about `ensure_column` and `clean_headers` -/

theorem ensure_column_of_mem {t : Table} {c : String} (h : c ∈ t.cols) :
    ensure_column t c = t := by
  simp [ensure_column, h]

theorem ensure_column_cols_new {t : Table} {c : String} (h : c ∉ t.cols) :
    (ensure_column t c).cols = t.cols ++ [c] := by
  simp [ensure_column, h]

theorem mem_ensure_column_cols (t : Table) (c : String) :
    c ∈ (ensure_column t c).cols := by
  by_cases h : c ∈ t.cols
  · rw [ensure_column_of_mem h]; exact h
  · rw [ensure_column_cols_new h]; simp

theorem ensure_column_rows_length (t : Table) (c : String) :
    (ensure_column t c).rows.length = t.rows.length := by
  unfold ensure_column
  split_ifs <;> simp

theorem ensure_column_wf {t : Table} (hwf : TableWF t) (c : String) :
    TableWF (ensure_column t c) := by
  unfold ensure_column
  split_ifs with h
  · exact hwf
  · intro r hr
    simp only at hr
    rw [List.mem_map] at hr
    obtain ⟨r0, hr0, rfl⟩ := hr
    simp [hwf r0 hr0]

theorem rowGet_append_lt (r : List Cell) (x : Cell) (j : Nat) (h : j < r.length) :
    rowGet (r ++ [x]) j = rowGet r j := by
  unfold rowGet
  rw [List.getElem?_append, if_pos h]

theorem getCell_ensure_column_of_mem {t : Table} (hwf : TableWF t) {c' : String}
    (c : String) (i : Nat) (h : c' ∈ t.cols) :
    getCell (ensure_column t c) i c' = getCell t i c' := by
  unfold ensure_column
  split_ifs with hm
  · rfl
  · unfold getCell
    simp only [List.getElem?_map, colIdx_append_of_mem h]
    rcases hj : colIdx t.cols c' with _ | j
    · rfl
    · rcases hrow : t.rows[i]? with _ | r
      · rfl
      · simp only [Option.map_some']
        exact rowGet_append_lt r (some "") j
          (by rw [hwf r (mem_of_getElemOpt hrow)]; exact colIdx_lt hj)

theorem getCell_ensure_column_new {t : Table} (hwf : TableWF t) {c : String} {i : Nat}
    (hm : c ∉ t.cols) (hi : i < t.rows.length) :
    getCell (ensure_column t c) i c = some "" := by
  unfold ensure_column
  rw [if_neg hm]
  unfold getCell
  simp only [List.getElem?_map, colIdx_append_self hm]
  rcases hrow : t.rows[i]? with _ | r
  · have := getElemOpt_isSome_of_lt hi
    rw [hrow] at this
    simp at this
  · simp only [Option.map_some']
    have hr : r.length = t.cols.length := hwf r (mem_of_getElemOpt hrow)
    unfold rowGet
    rw [← hr, List.getElem?_append_right (Nat.le_refl _)]
    simp

theorem ensure_column_rows_of_mem {t : Table} {c : String} (h : c ∈ t.cols) (i : Nat) :
    (ensure_column t c).rows[i]? = t.rows[i]? := by
  rw [ensure_column_of_mem h]

theorem clean_headers_rows (t : Table) : (clean_headers t).rows = t.rows := rfl

theorem clean_headers_wf {t : Table} (hwf : TableWF t) : TableWF (clean_headers t) := by
  intro r hr
  simp [clean_headers] at hr ⊢
  exact hwf r hr

/-! ### Generic lemmas about the row loops

Each loop body (`step s i`) touches only row `i` of the table, so the final
state of row `j` is the effect of iteration `j` applied to a state where row
`j` still holds its original cells, and a ledger entry can only be added by
the iteration whose index it carries. -/

theorem getCell_congr {t1 t2 : Table} {i : Nat} (c : String)
    (hc : t1.cols = t2.cols) (hr : t1.rows[i]? = t2.rows[i]?) :
    getCell t1 i c = getCell t2 i c := by
  unfold getCell
  rw [hc, hr]

theorem foldl_cols (step : Table × Ledger → Nat → Table × Ledger)
    (hc : ∀ s i, (step s i).1.cols = s.1.cols) :
    ∀ (l : List Nat) (s : Table × Ledger), ((l.foldl step s).1).cols = s.1.cols := by
  intro l
  induction l with
  | nil => intro s; rfl
  | cons i l ih => intro s; rw [List.foldl_cons, ih, hc]

theorem foldl_rows_length (step : Table × Ledger → Nat → Table × Ledger)
    (hl : ∀ s i, (step s i).1.rows.length = s.1.rows.length) :
    ∀ (l : List Nat) (s : Table × Ledger),
      ((l.foldl step s).1).rows.length = s.1.rows.length := by
  intro l
  induction l with
  | nil => intro s; rfl
  | cons i l ih => intro s; rw [List.foldl_cons, ih, hl]

theorem foldl_wf (step : Table × Ledger → Nat → Table × Ledger)
    (hw : ∀ s i, TableWF s.1 → TableWF (step s i).1) :
    ∀ (l : List Nat) (s : Table × Ledger), TableWF s.1 → TableWF ((l.foldl step s).1) := by
  intro l
  induction l with
  | nil => intro s h; exact h
  | cons i l ih => intro s h; exact ih _ (hw _ _ h)

theorem foldl_row_not_mem (step : Table × Ledger → Nat → Table × Ledger)
    (hf : ∀ s i j, j ≠ i → (step s i).1.rows[j]? = s.1.rows[j]?) :
    ∀ (l : List Nat) (s : Table × Ledger) (j : Nat), j ∉ l →
      ((l.foldl step s).1).rows[j]? = s.1.rows[j]? := by
  intro l
  induction l with
  | nil => intro s j _; rfl
  | cons i l ih =>
    intro s j hj
    have hji : j ≠ i := fun h => hj (by rw [h]; exact List.mem_cons_self _ _)
    rw [List.foldl_cons, ih _ _ (fun h => hj (List.mem_cons_of_mem _ h)), hf _ _ _ hji]

theorem foldl_led_mono (step : Table × Ledger → Nat → Table × Ledger)
    (hm : ∀ s i e, e ∈ s.2 → e ∈ (step s i).2) :
    ∀ (l : List Nat) (s : Table × Ledger) (e : Entry), e ∈ s.2 → e ∈ (l.foldl step s).2 := by
  intro l
  induction l with
  | nil => intro s e h; exact h
  | cons i l ih => intro s e h; exact ih _ _ (hm _ _ _ h)

theorem foldSteps_cols (step : Table × Ledger → Nat → Table × Ledger)
    (hc : ∀ s i, (step s i).1.cols = s.1.cols) (s : Table × Ledger) (n : Nat) :
    ((foldSteps step s n).1).cols = s.1.cols :=
  foldl_cols step hc _ s

theorem foldSteps_rows_length (step : Table × Ledger → Nat → Table × Ledger)
    (hl : ∀ s i, (step s i).1.rows.length = s.1.rows.length) (s : Table × Ledger) (n : Nat) :
    ((foldSteps step s n).1).rows.length = s.1.rows.length :=
  foldl_rows_length step hl _ s

theorem foldSteps_led_mono (step : Table × Ledger → Nat → Table × Ledger)
    (hm : ∀ s i e, e ∈ s.2 → e ∈ (step s i).2) (s : Table × Ledger) (n : Nat)
    (e : Entry) (h : e ∈ s.2) : e ∈ (foldSteps step s n).2 :=
  foldl_led_mono step hm _ s e h

/-- Decomposition of the final state of row `j`: it is iteration `j` applied
to an intermediate state whose row `j`, columns, row count and
well-formedness agree with the initial state. -/
theorem foldSteps_row_state (step : Table × Ledger → Nat → Table × Ledger)
    (hc : ∀ s i, (step s i).1.cols = s.1.cols)
    (hl : ∀ s i, (step s i).1.rows.length = s.1.rows.length)
    (hf : ∀ s i j, j ≠ i → (step s i).1.rows[j]? = s.1.rows[j]?)
    (hw : ∀ s i, TableWF s.1 → TableWF (step s i).1)
    (s : Table × Ledger) (hwf : TableWF s.1) {n j : Nat} (hj : j < n) :
    ∃ s' : Table × Ledger, s'.1.cols = s.1.cols ∧
      s'.1.rows.length = s.1.rows.length ∧ TableWF s'.1 ∧
      s'.1.rows[j]? = s.1.rows[j]? ∧
      (foldSteps step s n).1.rows[j]? = (step s' j).1.rows[j]? := by
  refine ⟨(List.range j).foldl step s, foldl_cols step hc _ s,
    foldl_rows_length step hl _ s, foldl_wf step hw _ s hwf,
    foldl_row_not_mem step hf _ s j (by simp), ?_⟩
  induction n with
  | zero => exact absurd hj (by omega)
  | succ m ih =>
    rw [foldSteps, List.range_succ, List.foldl_append, List.foldl_cons, List.foldl_nil]
    rcases Nat.lt_or_ge j m with hjm | hjm
    · rw [hf _ _ _ (by omega)]
      exact ih hjm
    · have hje : j = m := by omega
      subst hje
      rfl

/-- Provenance of ledger entries of a loop: an entry of the final ledger was
already present initially, or was contributed by the iteration of some index
`i < n` running on a state whose columns and row `i` agree with the initial
state. -/
theorem foldSteps_led_new (step : Table × Ledger → Nat → Table × Ledger)
    (t : Table) (led : Ledger) (Q : Nat → Entry → Prop)
    (hc : ∀ s i, (step s i).1.cols = s.1.cols)
    (hf : ∀ s i j, j ≠ i → (step s i).1.rows[j]? = s.1.rows[j]?)
    (hq : ∀ s i, s.1.cols = t.cols → s.1.rows[i]? = t.rows[i]? →
      ∀ e ∈ (step s i).2, e ∈ s.2 ∨ Q i e) :
    ∀ n, ∀ e ∈ (foldSteps step (t, led) n).2, e ∈ led ∨ ∃ i, i < n ∧ Q i e := by
  intro n
  induction n with
  | zero => intro e he; exact Or.inl he
  | succ m ih =>
    intro e he
    rw [foldSteps, List.range_succ, List.foldl_append, List.foldl_cons, List.foldl_nil] at he
    have hcols : ((List.range m).foldl step (t, led)).1.cols = t.cols :=
      foldl_cols step hc _ _
    have hrow : ((List.range m).foldl step (t, led)).1.rows[m]? = t.rows[m]? :=
      foldl_row_not_mem step hf _ _ m (by simp)
    rcases hq _ m hcols hrow e he with h | h
    · rcases ih e h with h1 | ⟨i, hi, hQ⟩
      · exact Or.inl h1
      · exact Or.inr ⟨i, by omega, hQ⟩
    · exact Or.inr ⟨m, by omega, h⟩

/-! ### Lemmas about the per-row update groups -/

/-- The outer `if col in df.columns` of the BUT000 loop is redundant:
`update_cell` checks membership itself. -/
theorem updListG_eq (i : Nat) (sh v : String) (s : Table × Ledger) (L : List String) :
    updListG i sh v s L = updList i sh v s L := by
  induction L generalizing s with
  | nil => rfl
  | cons c L ih =>
    simp only [updListG, updList, List.foldl_cons]
    by_cases h : c ∈ s.1.cols
    · rw [if_pos h]
      exact ih _
    · rw [if_neg h]
      have : update_cell s.1 i c v s.2 sh = s := by
        unfold update_cell
        rw [if_neg h]
      rw [this]
      exact ih _

theorem updList_cols (i : Nat) (sh v : String) (L : List String) :
    ∀ s, (updList i sh v s L).1.cols = s.1.cols := by
  induction L with
  | nil => intro s; rfl
  | cons c L ih =>
    intro s
    simp only [updList, List.foldl_cons] at ih ⊢
    rw [ih, update_cell_cols]

theorem updList_rows_length (i : Nat) (sh v : String) (L : List String) :
    ∀ s, (updList i sh v s L).1.rows.length = s.1.rows.length := by
  induction L with
  | nil => intro s; rfl
  | cons c L ih =>
    intro s
    simp only [updList, List.foldl_cons] at ih ⊢
    rw [ih, update_cell_rows_length]

theorem updList_row_ne {i k : Nat} (hk : k ≠ i) (sh v : String) (L : List String) :
    ∀ s, (updList i sh v s L).1.rows[k]? = s.1.rows[k]? := by
  induction L with
  | nil => intro s; rfl
  | cons c L ih =>
    intro s
    simp only [updList, List.foldl_cons] at ih ⊢
    rw [ih, update_cell_row_ne hk]

theorem updList_wf (i : Nat) (sh v : String) (L : List String) :
    ∀ s, TableWF s.1 → TableWF (updList i sh v s L).1 := by
  induction L with
  | nil => intro s h; exact h
  | cons c L ih =>
    intro s h
    simp only [updList, List.foldl_cons] at ih ⊢
    exact ih _ (update_cell_wf h _ _ _ _ _)

theorem updList_led_mono (i : Nat) (sh v : String) (L : List String) :
    ∀ s e, e ∈ s.2 → e ∈ (updList i sh v s L).2 := by
  induction L with
  | nil => intro s e h; exact h
  | cons c L ih =>
    intro s e h
    simp only [updList, List.foldl_cons] at ih ⊢
    exact ih _ _ (update_cell_led_mono h)

theorem updList_led_new (i : Nat) (sh v : String) (L : List String) :
    ∀ s e, e ∈ (updList i sh v s L).2 → e ∈ s.2 ∨ ∃ c ∈ L, e = (sh, i, c) := by
  induction L with
  | nil => intro s e h; exact Or.inl h
  | cons c L ih =>
    intro s e h
    simp only [updList, List.foldl_cons] at h
    rcases ih _ e h with h1 | ⟨c0, hc0, rfl⟩
    · rcases update_cell_led_new h1 with h2 | rfl
      · exact Or.inl h2
      · exact Or.inr ⟨c, by simp, rfl⟩
    · exact Or.inr ⟨c0, by simp [hc0], rfl⟩

theorem updList_cons (i : Nat) (sh v c : String) (L : List String) (s : Table × Ledger) :
    updList i sh v s (c :: L) = updList i sh v (update_cell s.1 i c v s.2 sh) L := by
  simp only [updList, List.foldl_cons]

theorem updList_getCell_not_mem (i i' : Nat) (sh v c' : String) (L : List String)
    (h : c' ∉ L) : ∀ s, getCell (updList i sh v s L).1 i' c' = getCell s.1 i' c' := by
  induction L with
  | nil => intro s; rfl
  | cons c L ih =>
    intro s
    have hc : c' ≠ c := fun he => h (by simp [he])
    have hL : c' ∉ L := fun hm => h (by simp [hm])
    rw [updList_cons, ih hL, update_cell_getCell_other _ _ _ _ _ _ _ _ hc]

theorem updList_getCell_mem (i : Nat) (sh v c : String) (L : List String)
    (hmem : c ∈ L) (hnd : L.Nodup) :
    ∀ s, TableWF s.1 → i < s.1.rows.length → c ∈ s.1.cols →
      pyStrip (cellStr (getCell (updList i sh v s L).1 i c)) = pyStrip v := by
  induction L with
  | nil => simp at hmem
  | cons c0 L ih =>
    intro s hwf hi hc
    rw [updList_cons]
    rcases List.mem_cons.mp hmem with rfl | hin
    · have hnL : c ∉ L := (List.nodup_cons.mp hnd).1
      have hget := update_cell_getCell_self hwf v s.2 sh hc hi
      rw [updList_getCell_not_mem i i sh v c L hnL _, hget]
      split_ifs with hd
      · rfl
      · push_neg at hd
        exact hd
    · have hc0 : c ≠ c0 := by
        have := List.nodup_cons.mp hnd
        intro he
        rw [he] at hin
        exact this.1 hin
      exact ih hin (List.nodup_cons.mp hnd).2 _
        (update_cell_wf hwf _ _ _ _ _)
        (by rw [update_cell_rows_length]; exact hi)
        (by rw [update_cell_cols]; exact hc)

/-! ### Per-loop step lemmas -/

/-- Row `i` of `t` belongs to a child identifier: its stripped Source_ID
value is registered as `child_id`. -/
def isChildRow (srcInfo : AssocMap) (t : Table) (srcCol : String) (i : Nat) : Prop :=
  amGet srcInfo (pyStrip (cellStr (getCell t i srcCol))) = some "child_id"

instance (srcInfo : AssocMap) (t : Table) (srcCol : String) (i : Nat) :
    Decidable (isChildRow srcInfo t srcCol i) := by
  unfold isChildRow
  infer_instance
theorem stepBUT000_cols (si im : AssocMap) (sc : String) (s : Table × Ledger) (i : Nat) :
    (stepBUT000 si im sc s i).1.cols = s.1.cols := by
  simp only [stepBUT000]
  split_ifs <;> simp only [updListG_eq, updList_cols, update_cell_cols]

theorem stepBUT000_rows_length (si im : AssocMap) (sc : String) (s : Table × Ledger) (i : Nat) :
    (stepBUT000 si im sc s i).1.rows.length = s.1.rows.length := by
  simp only [stepBUT000]
  split_ifs <;> simp only [updListG_eq, updList_rows_length, update_cell_rows_length]

theorem stepBUT000_row_ne (si im : AssocMap) (sc : String) (s : Table × Ledger) {i k : Nat}
    (hk : k ≠ i) : (stepBUT000 si im sc s i).1.rows[k]? = s.1.rows[k]? := by
  simp only [stepBUT000]
  split_ifs <;> simp only [updListG_eq, updList_row_ne hk, update_cell_row_ne hk]

theorem stepBUT000_wf (si im : AssocMap) (sc : String) (s : Table × Ledger) (i : Nat)
    (h : TableWF s.1) : TableWF (stepBUT000 si im sc s i).1 := by
  simp only [stepBUT000]
  split_ifs
  · simp only [updListG_eq]
    exact updList_wf _ _ _ _ _ (updList_wf _ _ _ _ _ (updList_wf _ _ _ _ _ h))
  · exact update_cell_wf (update_cell_wf h _ _ _ _ _) _ _ _ _ _

theorem stepBUT000_led_mono (si im : AssocMap) (sc : String) (s : Table × Ledger) (i : Nat)
    (e : Entry) (h : e ∈ s.2) : e ∈ (stepBUT000 si im sc s i).2 := by
  simp only [stepBUT000]
  split_ifs
  · simp only [updListG_eq]
    exact updList_led_mono _ _ _ _ _ _
      (updList_led_mono _ _ _ _ _ _ (updList_led_mono _ _ _ _ _ _ h))
  · exact update_cell_led_mono (update_cell_led_mono h)

theorem stepBUT000_led_new (si im : AssocMap) (sc : String) (s : Table × Ledger) (i : Nat)
    (e : Entry) (h : e ∈ (stepBUT000 si im sc s i).2) :
    e ∈ s.2 ∨ ∃ c, e = (nameBUT000, i, c) := by
  simp only [stepBUT000] at h
  split_ifs at h
  · simp only [updListG_eq] at h
    rcases updList_led_new _ _ _ _ _ _ h with h1 | ⟨c, _, rfl⟩
    · rcases updList_led_new _ _ _ _ _ _ h1 with h2 | ⟨c, _, rfl⟩
      · rcases updList_led_new _ _ _ _ _ _ h2 with h3 | ⟨c, _, rfl⟩
        · exact Or.inl h3
        · exact Or.inr ⟨c, rfl⟩
      · exact Or.inr ⟨c, rfl⟩
    · exact Or.inr ⟨c, rfl⟩
  · rcases update_cell_led_new h with h1 | rfl
    · rcases update_cell_led_new h1 with h2 | rfl
      · exact Or.inl h2
      · exact Or.inr ⟨_, rfl⟩
    · exact Or.inr ⟨_, rfl⟩

theorem stepADRC_not_child {si : AssocMap} (im : AssocMap) {sc : String} (nc : String)
    {s : Table × Ledger} {i : Nat} (h : ¬ isChildRow si s.1 sc i) :
    stepADRC si im sc nc s i = s := by
  unfold isChildRow at h
  simp only [stepADRC]
  rw [if_neg h]

theorem stepADRC_child {si : AssocMap} (im : AssocMap) {sc : String} (nc : String)
    {s : Table × Ledger} {i : Nat} (h : isChildRow si s.1 sc i) :
    stepADRC si im sc nc s i =
      update_cell s.1 i nc
        ("COMMON SUPPLIER " ++
          ((amGet im (pyStrip (cellStr (getCell s.1 i sc)))).getD "0000000000"))
        s.2 nameADRC := by
  unfold isChildRow at h
  simp only [stepADRC]
  rw [if_pos h]

theorem stepADRC_cols (si im : AssocMap) (sc nc : String) (s : Table × Ledger) (i : Nat) :
    (stepADRC si im sc nc s i).1.cols = s.1.cols := by
  simp only [stepADRC]
  split_ifs <;> simp only [update_cell_cols]

theorem stepADRC_rows_length (si im : AssocMap) (sc nc : String) (s : Table × Ledger) (i : Nat) :
    (stepADRC si im sc nc s i).1.rows.length = s.1.rows.length := by
  simp only [stepADRC]
  split_ifs <;> simp only [update_cell_rows_length]

theorem stepADRC_row_ne (si im : AssocMap) (sc nc : String) (s : Table × Ledger) {i k : Nat}
    (hk : k ≠ i) : (stepADRC si im sc nc s i).1.rows[k]? = s.1.rows[k]? := by
  simp only [stepADRC]
  split_ifs <;> simp only [update_cell_row_ne hk]

theorem stepADRC_wf (si im : AssocMap) (sc nc : String) (s : Table × Ledger) (i : Nat)
    (h : TableWF s.1) : TableWF (stepADRC si im sc nc s i).1 := by
  simp only [stepADRC]
  split_ifs
  · exact update_cell_wf h _ _ _ _ _
  · exact h

theorem stepADRC_led_mono (si im : AssocMap) (sc nc : String) (s : Table × Ledger) (i : Nat)
    (e : Entry) (h : e ∈ s.2) : e ∈ (stepADRC si im sc nc s i).2 := by
  simp only [stepADRC]
  split_ifs
  · exact update_cell_led_mono h
  · exact h

theorem stepADRC_led_new (si im : AssocMap) (sc nc : String) (s : Table × Ledger) (i : Nat)
    (e : Entry) (h : e ∈ (stepADRC si im sc nc s i).2) :
    e ∈ s.2 ∨ (isChildRow si s.1 sc i ∧ ∃ c, e = (nameADRC, i, c)) := by
  simp only [stepADRC] at h
  split_ifs at h with hch
  · rcases update_cell_led_new h with h1 | rfl
    · exact Or.inl h1
    · exact Or.inr ⟨hch, _, rfl⟩
  · exact Or.inl h

theorem stepLFA1_not_child {si : AssocMap} (im : AssocMap) {sc : String}
    {s : Table × Ledger} {i : Nat} (h : ¬ isChildRow si s.1 sc i) :
    stepLFA1 si im sc s i = s := by
  unfold isChildRow at h
  simp only [stepLFA1]
  rw [if_neg h]

theorem stepLFA1_child {si : AssocMap} (im : AssocMap) {sc : String}
    {s : Table × Ledger} {i : Nat} (h : isChildRow si s.1 sc i) :
    stepLFA1 si im sc s i =
      updList i nameLFA1 "X"
        (updList i nameLFA1
          ("COMMON SUPPLIER " ++
            ((amGet im (pyStrip (cellStr (getCell s.1 i sc)))).getD "0000000000"))
          (updList i nameLFA1 "" s colsClearLFA1) colsReplaceLFA1) colsFillLFA1 := by
  unfold isChildRow at h
  simp only [stepLFA1]
  rw [if_pos h]

theorem stepLFA1_cols (si im : AssocMap) (sc : String) (s : Table × Ledger) (i : Nat) :
    (stepLFA1 si im sc s i).1.cols = s.1.cols := by
  simp only [stepLFA1]
  split_ifs <;> simp only [updList_cols]

theorem stepLFA1_rows_length (si im : AssocMap) (sc : String) (s : Table × Ledger) (i : Nat) :
    (stepLFA1 si im sc s i).1.rows.length = s.1.rows.length := by
  simp only [stepLFA1]
  split_ifs <;> simp only [updList_rows_length]

theorem stepLFA1_row_ne (si im : AssocMap) (sc : String) (s : Table × Ledger) {i k : Nat}
    (hk : k ≠ i) : (stepLFA1 si im sc s i).1.rows[k]? = s.1.rows[k]? := by
  simp only [stepLFA1]
  split_ifs <;> simp only [updList_row_ne hk]

theorem stepLFA1_wf (si im : AssocMap) (sc : String) (s : Table × Ledger) (i : Nat)
    (h : TableWF s.1) : TableWF (stepLFA1 si im sc s i).1 := by
  simp only [stepLFA1]
  split_ifs
  · exact updList_wf _ _ _ _ _ (updList_wf _ _ _ _ _ (updList_wf _ _ _ _ _ h))
  · exact h

theorem stepLFA1_led_mono (si im : AssocMap) (sc : String) (s : Table × Ledger) (i : Nat)
    (e : Entry) (h : e ∈ s.2) : e ∈ (stepLFA1 si im sc s i).2 := by
  simp only [stepLFA1]
  split_ifs
  · exact updList_led_mono _ _ _ _ _ _
      (updList_led_mono _ _ _ _ _ _ (updList_led_mono _ _ _ _ _ _ h))
  · exact h

theorem stepLFA1_led_new (si im : AssocMap) (sc : String) (s : Table × Ledger) (i : Nat)
    (e : Entry) (h : e ∈ (stepLFA1 si im sc s i).2) :
    e ∈ s.2 ∨ (isChildRow si s.1 sc i ∧ ∃ c, e = (nameLFA1, i, c)) := by
  simp only [stepLFA1] at h
  split_ifs at h with hch
  · rcases updList_led_new _ _ _ _ _ _ h with h1 | ⟨c, _, rfl⟩
    · rcases updList_led_new _ _ _ _ _ _ h1 with h2 | ⟨c, _, rfl⟩
      · rcases updList_led_new _ _ _ _ _ _ h2 with h3 | ⟨c, _, rfl⟩
        · exact Or.inl h3
        · exact Or.inr ⟨hch, c, rfl⟩
      · exact Or.inr ⟨hch, c, rfl⟩
    · exact Or.inr ⟨hch, c, rfl⟩
  · exact Or.inl h

theorem stepAssoc_cols (si im : AssocMap) (sc cc sh : String) (t0 : Table)
    (s : Table × Ledger) (i : Nat) : (stepAssoc si im sc cc sh t0 s i).1.cols = s.1.cols := by
  simp only [stepAssoc]
  split_ifs <;> simp only [update_cell_cols]

theorem stepAssoc_rows_length (si im : AssocMap) (sc cc sh : String) (t0 : Table)
    (s : Table × Ledger) (i : Nat) :
    (stepAssoc si im sc cc sh t0 s i).1.rows.length = s.1.rows.length := by
  simp only [stepAssoc]
  split_ifs <;> simp only [update_cell_rows_length]

theorem stepAssoc_row_ne (si im : AssocMap) (sc cc sh : String) (t0 : Table)
    (s : Table × Ledger) {i k : Nat} (hk : k ≠ i) :
    (stepAssoc si im sc cc sh t0 s i).1.rows[k]? = s.1.rows[k]? := by
  simp only [stepAssoc]
  split_ifs <;> simp only [update_cell_row_ne hk]

theorem stepAssoc_wf (si im : AssocMap) (sc cc sh : String) (t0 : Table)
    (s : Table × Ledger) (i : Nat) (h : TableWF s.1) :
    TableWF (stepAssoc si im sc cc sh t0 s i).1 := by
  simp only [stepAssoc]
  split_ifs
  · exact update_cell_wf (update_cell_wf h _ _ _ _ _) _ _ _ _ _
  · exact h
  · exact h

theorem stepAssoc_led_mono (si im : AssocMap) (sc cc sh : String) (t0 : Table)
    (s : Table × Ledger) (i : Nat) (e : Entry) (h : e ∈ s.2) :
    e ∈ (stepAssoc si im sc cc sh t0 s i).2 := by
  simp only [stepAssoc]
  split_ifs
  · exact update_cell_led_mono (update_cell_led_mono h)
  · exact h
  · exact h

theorem stepAssoc_led_new (si im : AssocMap) (sc cc sh : String) (t0 : Table)
    (s : Table × Ledger) (i : Nat) (e : Entry)
    (h : e ∈ (stepAssoc si im sc cc sh t0 s i).2) :
    e ∈ s.2 ∨ ∃ c, e = (sh, i, c) := by
  simp only [stepAssoc] at h
  split_ifs at h
  · rcases update_cell_led_new h with h1 | rfl
    · rcases update_cell_led_new h1 with h2 | rfl
      · exact Or.inl h2
      · exact Or.inr ⟨_, rfl⟩
    · exact Or.inr ⟨_, rfl⟩
  · exact Or.inl h
  · exact Or.inl h

/-- The conditions of the reconciliation branch of `stepAssoc`. -/
theorem stepAssoc_qual {si : AssocMap} (im : AssocMap) {sc : String} (cc sh : String)
    (t0 : Table) {s : Table × Ledger} {i : Nat} (hch : isChildRow si s.1 sc i)
    (hq : pyStrip (cellStr (getCell s.1 i cc)) ≠ "" ∧
      inCodes t0 sc cc ((amGet im (pyStrip (cellStr (getCell s.1 i sc)))).getD "0000000000")
        (pyStrip (cellStr (getCell s.1 i cc))) = false) :
    stepAssoc si im sc cc sh t0 s i =
      update_cell
        (update_cell s.1 i "_ACTION_CODE" "I" s.2 sh).1 i sc
        ((amGet im (pyStrip (cellStr (getCell s.1 i sc)))).getD "0000000000")
        (update_cell s.1 i "_ACTION_CODE" "I" s.2 sh).2 sh := by
  unfold isChildRow at hch
  simp only [stepAssoc]
  rw [if_pos hch, if_pos hq]

theorem stepAssoc_not_qual {si : AssocMap} (im : AssocMap) {sc : String} (cc sh : String)
    (t0 : Table) {s : Table × Ledger} {i : Nat}
    (hq : ¬ (pyStrip (cellStr (getCell s.1 i cc)) ≠ "" ∧
      inCodes t0 sc cc ((amGet im (pyStrip (cellStr (getCell s.1 i sc)))).getD "0000000000")
        (pyStrip (cellStr (getCell s.1 i cc))) = false)) :
    stepAssoc si im sc cc sh t0 s i = s := by
  simp only [stepAssoc]
  split_ifs <;> rfl

theorem stepAssoc_not_child {si : AssocMap} (im : AssocMap) {sc : String} (cc sh : String)
    (t0 : Table) {s : Table × Ledger} {i : Nat} (h : ¬ isChildRow si s.1 sc i) :
    stepAssoc si im sc cc sh t0 s i = s := by
  unfold isChildRow at h
  simp only [stepAssoc]
  rw [if_neg h]

/-- `stepWYT3` is the reconciliation part followed by the DEFPA part, with
both guards read off the row snapshot `s`. -/
theorem stepWYT3_decomp (si im : AssocMap) (sc cc : String) (pc : Option String) (t0 : Table)
    (s : Table × Ledger) (i : Nat) :
    stepWYT3 si im sc cc pc t0 s i =
      (let s1 := stepAssoc si im sc cc nameWYT3 t0 s i
       if (match pc with
           | some pcv => pyUpper (pyStrip (cellStr (getCell s.1 i pcv))) == "LF"
           | none => false) = true then
         update_cell s1.1 i "DEFPA" "X" s1.2 nameWYT3
       else s1) := by
  simp only [stepWYT3, stepAssoc]

theorem stepWYT3_cols (si im : AssocMap) (sc cc : String) (pc : Option String) (t0 : Table)
    (s : Table × Ledger) (i : Nat) : (stepWYT3 si im sc cc pc t0 s i).1.cols = s.1.cols := by
  rw [stepWYT3_decomp]
  simp only
  split_ifs <;> simp only [update_cell_cols, stepAssoc_cols]

theorem stepWYT3_rows_length (si im : AssocMap) (sc cc : String) (pc : Option String)
    (t0 : Table) (s : Table × Ledger) (i : Nat) :
    (stepWYT3 si im sc cc pc t0 s i).1.rows.length = s.1.rows.length := by
  rw [stepWYT3_decomp]
  simp only
  split_ifs <;> simp only [update_cell_rows_length, stepAssoc_rows_length]

theorem stepWYT3_row_ne (si im : AssocMap) (sc cc : String) (pc : Option String) (t0 : Table)
    (s : Table × Ledger) {i k : Nat} (hk : k ≠ i) :
    (stepWYT3 si im sc cc pc t0 s i).1.rows[k]? = s.1.rows[k]? := by
  rw [stepWYT3_decomp]
  simp only
  split_ifs <;> simp only [update_cell_row_ne hk, stepAssoc_row_ne _ _ _ _ _ _ _ hk]

theorem stepWYT3_wf (si im : AssocMap) (sc cc : String) (pc : Option String) (t0 : Table)
    (s : Table × Ledger) (i : Nat) (h : TableWF s.1) :
    TableWF (stepWYT3 si im sc cc pc t0 s i).1 := by
  rw [stepWYT3_decomp]
  simp only
  split_ifs
  · exact update_cell_wf (stepAssoc_wf _ _ _ _ _ _ _ _ h) _ _ _ _ _
  · exact stepAssoc_wf _ _ _ _ _ _ _ _ h

theorem stepWYT3_led_mono (si im : AssocMap) (sc cc : String) (pc : Option String) (t0 : Table)
    (s : Table × Ledger) (i : Nat) (e : Entry) (h : e ∈ s.2) :
    e ∈ (stepWYT3 si im sc cc pc t0 s i).2 := by
  rw [stepWYT3_decomp]
  simp only
  split_ifs
  · exact update_cell_led_mono (stepAssoc_led_mono _ _ _ _ _ _ _ _ _ h)
  · exact stepAssoc_led_mono _ _ _ _ _ _ _ _ _ h

theorem stepWYT3_led_new (si im : AssocMap) (sc cc : String) (pc : Option String) (t0 : Table)
    (s : Table × Ledger) (i : Nat) (e : Entry)
    (h : e ∈ (stepWYT3 si im sc cc pc t0 s i).2) :
    e ∈ s.2 ∨ ∃ c, e = (nameWYT3, i, c) := by
  rw [stepWYT3_decomp] at h
  simp only at h
  split_ifs at h
  · rcases update_cell_led_new h with h1 | rfl
    · exact stepAssoc_led_new _ _ _ _ _ _ _ _ _ h1
    · exact Or.inr ⟨_, rfl⟩
  · exact stepAssoc_led_new _ _ _ _ _ _ _ _ _ h
/-! ### Process-level lemmas -/

theorem foldSteps_led_step_mem (step : Table × Ledger → Nat → Table × Ledger)
    (hm : ∀ s i e, e ∈ s.2 → e ∈ (step s i).2) {n i : Nat} (hi : i < n)
    (s : Table × Ledger) (e : Entry)
    (he : e ∈ (step ((List.range i).foldl step s) i).2) : e ∈ (foldSteps step s n).2 := by
  induction n with
  | zero => exact absurd hi (by omega)
  | succ m ih =>
    rw [foldSteps, List.range_succ, List.foldl_append, List.foldl_cons, List.foldl_nil]
    rcases Nat.lt_or_ge i m with him | him
    · exact hm _ _ _ (ih him)
    · have : i = m := by omega
      subst this
      exact he

theorem isChildRow_congr (si : AssocMap) {t1 t2 : Table} (sc : String) {i : Nat}
    (hc : t1.cols = t2.cols) (hr : t1.rows[i]? = t2.rows[i]?) :
    isChildRow si t1 sc i ↔ isChildRow si t2 sc i := by
  unfold isChildRow
  rw [getCell_congr sc hc hr]

theorem processADRC_cols (si im : AssocMap) (t : Table) (sc nc : String) (led : Ledger) :
    (processADRC si im t sc nc led).1.cols = t.cols :=
  foldSteps_cols _ (fun s i => stepADRC_cols si im sc nc s i) _ _

theorem processADRC_rows_length (si im : AssocMap) (t : Table) (sc nc : String) (led : Ledger) :
    (processADRC si im t sc nc led).1.rows.length = t.rows.length :=
  foldSteps_rows_length _ (fun s i => stepADRC_rows_length si im sc nc s i) _ _

theorem processADRC_wf (si im : AssocMap) {t : Table} (sc nc : String) (led : Ledger)
    (hwf : TableWF t) : TableWF (processADRC si im t sc nc led).1 :=
  foldl_wf _ (fun s i => stepADRC_wf si im sc nc s i) _ _ hwf

theorem processADRC_led_mono (si im : AssocMap) (t : Table) (sc nc : String) (led : Ledger)
    (e : Entry) (h : e ∈ led) : e ∈ (processADRC si im t sc nc led).2 :=
  foldSteps_led_mono _ (fun s i => stepADRC_led_mono si im sc nc s i) _ _ e h

theorem processADRC_led_new (si im : AssocMap) (t : Table) (sc nc : String) (led : Ledger)
    (e : Entry) (h : e ∈ (processADRC si im t sc nc led).2) :
    e ∈ led ∨ ∃ i, isChildRow si t sc i ∧ ∃ c, e = (nameADRC, i, c) := by
  rcases foldSteps_led_new _ t led
      (fun i e => isChildRow si t sc i ∧ ∃ c, e = (nameADRC, i, c))
      (fun s i => stepADRC_cols si im sc nc s i)
      (fun s i j hj => stepADRC_row_ne si im sc nc s hj)
      (fun s i hcols hrow e he => by
        rcases stepADRC_led_new si im sc nc s i e he with h1 | ⟨hch, c, rfl⟩
        · exact Or.inl h1
        · exact Or.inr ⟨(isChildRow_congr si sc hcols hrow).mp hch, c, rfl⟩)
      _ e h with h1 | ⟨i, _, hq⟩
  · exact Or.inl h1
  · exact Or.inr ⟨i, hq⟩

/-- A non-child row of the Address table is left untouched by step 4. -/
theorem processADRC_parent_row (si im : AssocMap) {t : Table} (sc nc : String) (led : Ledger)
    (hwf : TableWF t) {j : Nat} (hj : j < t.rows.length) (hp : ¬ isChildRow si t sc j) :
    (processADRC si im t sc nc led).1.rows[j]? = t.rows[j]? := by
  obtain ⟨s', hcols, _, _, hrow, hfin⟩ :=
    foldSteps_row_state _ (fun s i => stepADRC_cols si im sc nc s i)
      (fun s i => stepADRC_rows_length si im sc nc s i)
      (fun s i j hj => stepADRC_row_ne si im sc nc s hj)
      (fun s i => stepADRC_wf si im sc nc s i) (t, led) hwf hj
  unfold processADRC
  rw [hfin, stepADRC_not_child im nc
    (fun hch => hp ((isChildRow_congr si sc hcols hrow).mp hch)), hrow]

theorem processLFA1_cols (si im : AssocMap) (t : Table) (sc : String) (led : Ledger) :
    (processLFA1 si im t sc led).1.cols = t.cols :=
  foldSteps_cols _ (fun s i => stepLFA1_cols si im sc s i) _ _

theorem processLFA1_rows_length (si im : AssocMap) (t : Table) (sc : String) (led : Ledger) :
    (processLFA1 si im t sc led).1.rows.length = t.rows.length :=
  foldSteps_rows_length _ (fun s i => stepLFA1_rows_length si im sc s i) _ _

theorem processLFA1_wf (si im : AssocMap) {t : Table} (sc : String) (led : Ledger)
    (hwf : TableWF t) : TableWF (processLFA1 si im t sc led).1 :=
  foldl_wf _ (fun s i => stepLFA1_wf si im sc s i) _ _ hwf

theorem processLFA1_led_mono (si im : AssocMap) (t : Table) (sc : String) (led : Ledger)
    (e : Entry) (h : e ∈ led) : e ∈ (processLFA1 si im t sc led).2 :=
  foldSteps_led_mono _ (fun s i => stepLFA1_led_mono si im sc s i) _ _ e h

theorem processLFA1_led_new (si im : AssocMap) (t : Table) (sc : String) (led : Ledger)
    (e : Entry) (h : e ∈ (processLFA1 si im t sc led).2) :
    e ∈ led ∨ ∃ i, isChildRow si t sc i ∧ ∃ c, e = (nameLFA1, i, c) := by
  rcases foldSteps_led_new _ t led
      (fun i e => isChildRow si t sc i ∧ ∃ c, e = (nameLFA1, i, c))
      (fun s i => stepLFA1_cols si im sc s i)
      (fun s i j hj => stepLFA1_row_ne si im sc s hj)
      (fun s i hcols hrow e he => by
        rcases stepLFA1_led_new si im sc s i e he with h1 | ⟨hch, c, rfl⟩
        · exact Or.inl h1
        · exact Or.inr ⟨(isChildRow_congr si sc hcols hrow).mp hch, c, rfl⟩)
      _ e h with h1 | ⟨i, _, hq⟩
  · exact Or.inl h1
  · exact Or.inr ⟨i, hq⟩

/-- A non-child row of the Supplier-General table is left untouched by step 5. -/
theorem processLFA1_parent_row (si im : AssocMap) {t : Table} (sc : String) (led : Ledger)
    (hwf : TableWF t) {j : Nat} (hj : j < t.rows.length) (hp : ¬ isChildRow si t sc j) :
    (processLFA1 si im t sc led).1.rows[j]? = t.rows[j]? := by
  obtain ⟨s', hcols, _, _, hrow, hfin⟩ :=
    foldSteps_row_state _ (fun s i => stepLFA1_cols si im sc s i)
      (fun s i => stepLFA1_rows_length si im sc s i)
      (fun s i j hj => stepLFA1_row_ne si im sc s hj)
      (fun s i => stepLFA1_wf si im sc s i) (t, led) hwf hj
  unfold processLFA1
  rw [hfin, stepLFA1_not_child im
    (fun hch => hp ((isChildRow_congr si sc hcols hrow).mp hch)), hrow]

theorem processBUT000_cols (si im : AssocMap) (t : Table) (sc : String) (led : Ledger) :
    (processBUT000 si im t sc led).1.cols = t.cols :=
  foldSteps_cols _ (fun s i => stepBUT000_cols si im sc s i) _ _

theorem processBUT000_rows_length (si im : AssocMap) (t : Table) (sc : String) (led : Ledger) :
    (processBUT000 si im t sc led).1.rows.length = t.rows.length :=
  foldSteps_rows_length _ (fun s i => stepBUT000_rows_length si im sc s i) _ _

theorem processBUT000_wf (si im : AssocMap) {t : Table} (sc : String) (led : Ledger)
    (hwf : TableWF t) : TableWF (processBUT000 si im t sc led).1 :=
  foldl_wf _ (fun s i => stepBUT000_wf si im sc s i) _ _ hwf

theorem processBUT000_led_mono (si im : AssocMap) (t : Table) (sc : String) (led : Ledger)
    (e : Entry) (h : e ∈ led) : e ∈ (processBUT000 si im t sc led).2 :=
  foldSteps_led_mono _ (fun s i => stepBUT000_led_mono si im sc s i) _ _ e h

theorem processBUT000_led_new (si im : AssocMap) (t : Table) (sc : String) (led : Ledger)
    (e : Entry) (h : e ∈ (processBUT000 si im t sc led).2) :
    e ∈ led ∨ ∃ i c, e = (nameBUT000, i, c) := by
  rcases foldSteps_led_new _ t led (fun i e => ∃ c, e = (nameBUT000, i, c))
      (fun s i => stepBUT000_cols si im sc s i)
      (fun s i j hj => stepBUT000_row_ne si im sc s hj)
      (fun s i _ _ e he => stepBUT000_led_new si im sc s i e he)
      _ e h with h1 | ⟨i, _, c, rfl⟩
  · exact Or.inl h1
  · exact Or.inr ⟨i, c, rfl⟩

theorem processAssoc_cols (si im : AssocMap) (t : Table) (sc cc sh : String) (led : Ledger) :
    (processAssoc si im t sc cc sh led).1.cols = (ensure_column t "_ACTION_CODE").cols :=
  foldSteps_cols _ (fun s i => stepAssoc_cols si im sc cc sh _ s i) _ _

theorem processAssoc_rows_length (si im : AssocMap) (t : Table) (sc cc sh : String)
    (led : Ledger) : (processAssoc si im t sc cc sh led).1.rows.length = t.rows.length := by
  unfold processAssoc
  rw [foldSteps_rows_length _ (fun s i => stepAssoc_rows_length si im sc cc sh _ s i)]
  exact ensure_column_rows_length t _

theorem processAssoc_wf (si im : AssocMap) {t : Table} (sc cc sh : String) (led : Ledger)
    (hwf : TableWF t) : TableWF (processAssoc si im t sc cc sh led).1 :=
  foldl_wf _ (fun s i => stepAssoc_wf si im sc cc sh _ s i) _ _ (ensure_column_wf hwf _)

theorem processAssoc_led_mono (si im : AssocMap) (t : Table) (sc cc sh : String) (led : Ledger)
    (e : Entry) (h : e ∈ led) : e ∈ (processAssoc si im t sc cc sh led).2 :=
  foldSteps_led_mono _ (fun s i => stepAssoc_led_mono si im sc cc sh _ s i) _ _ e h

theorem processAssoc_led_new (si im : AssocMap) (t : Table) (sc cc sh : String) (led : Ledger)
    (e : Entry) (h : e ∈ (processAssoc si im t sc cc sh led).2) :
    e ∈ led ∨ ∃ i c, e = (sh, i, c) := by
  rcases foldSteps_led_new _ (ensure_column t "_ACTION_CODE") led
      (fun i e => ∃ c, e = (sh, i, c))
      (fun s i => stepAssoc_cols si im sc cc sh _ s i)
      (fun s i j hj => stepAssoc_row_ne si im sc cc sh _ s hj)
      (fun s i _ _ e he => stepAssoc_led_new si im sc cc sh _ s i e he)
      _ e h with h1 | ⟨i, _, c, rfl⟩
  · exact Or.inl h1
  · exact Or.inr ⟨i, c, rfl⟩

theorem processWYT3_cols (si im : AssocMap) (t : Table) (sc cc : String) (led : Ledger) :
    (processWYT3 si im t sc cc led).1.cols =
      (ensure_column (ensure_column t "_ACTION_CODE") "DEFPA").cols :=
  foldSteps_cols _ (fun s i => stepWYT3_cols si im sc cc _ _ s i) _ _

theorem processWYT3_rows_length (si im : AssocMap) (t : Table) (sc cc : String) (led : Ledger) :
    (processWYT3 si im t sc cc led).1.rows.length = t.rows.length := by
  unfold processWYT3
  rw [foldSteps_rows_length _ (fun s i => stepWYT3_rows_length si im sc cc _ _ s i)]
  rw [ensure_column_rows_length, ensure_column_rows_length]

theorem processWYT3_wf (si im : AssocMap) {t : Table} (sc cc : String) (led : Ledger)
    (hwf : TableWF t) : TableWF (processWYT3 si im t sc cc led).1 :=
  foldl_wf _ (fun s i => stepWYT3_wf si im sc cc _ _ s i) _ _
    (ensure_column_wf (ensure_column_wf hwf _) _)

theorem processWYT3_led_mono (si im : AssocMap) (t : Table) (sc cc : String) (led : Ledger)
    (e : Entry) (h : e ∈ led) : e ∈ (processWYT3 si im t sc cc led).2 :=
  foldSteps_led_mono _ (fun s i => stepWYT3_led_mono si im sc cc _ _ s i) _ _ e h

theorem processWYT3_led_new (si im : AssocMap) (t : Table) (sc cc : String) (led : Ledger)
    (e : Entry) (h : e ∈ (processWYT3 si im t sc cc led).2) :
    e ∈ led ∨ ∃ i c, e = (nameWYT3, i, c) := by
  rcases foldSteps_led_new _ (ensure_column (ensure_column t "_ACTION_CODE") "DEFPA") led
      (fun i e => ∃ c, e = (nameWYT3, i, c))
      (fun s i => stepWYT3_cols si im sc cc _ _ s i)
      (fun s i j hj => stepWYT3_row_ne si im sc cc _ _ s hj)
      (fun s i _ _ e he => stepWYT3_led_new si im sc cc _ _ s i e he)
      _ e h with h1 | ⟨i, _, c, rfl⟩
  · exact Or.inl h1
  · exact Or.inr ⟨i, c, rfl⟩

/-! ### Behaviour helpers for the claim theorems -/

theorem pyStrip_update_self {t : Table} (hwf : TableWF t) {i : Nat} {c : String}
    (v : String) (led : Ledger) (sh : String) (hc : c ∈ t.cols) (hi : i < t.rows.length) :
    pyStrip (cellStr (getCell (update_cell t i c v led sh).1 i c)) = pyStrip v := by
  rw [update_cell_getCell_self hwf v led sh hc hi]
  split_ifs with h
  · rfl
  · push_neg at h
    exact h

theorem mem_ensure_cols_of_mem {t : Table} {c' : String} (c : String) (h : c' ∈ t.cols) :
    c' ∈ (ensure_column t c).cols := by
  unfold ensure_column
  split_ifs
  · exact h
  · simp [h]

theorem stepBUT000_child {si : AssocMap} (im : AssocMap) {sc : String}
    {s : Table × Ledger} {i : Nat} (h : isChildRow si s.1 sc i) :
    stepBUT000 si im sc s i =
      updList i nameBUT000
        ("COMMON SUPPLIER " ++
          ((amGet im (pyStrip (cellStr (getCell s.1 i sc)))).getD "0000000000"))
        (updListG i nameBUT000 "X" (updListG i nameBUT000 "" s colsClearB0) colsFillB0)
        colsNameB0 := by
  unfold isChildRow at h
  simp only [stepBUT000]
  rw [if_pos h]

theorem stepAssoc_led_new_cols (si im : AssocMap) (sc cc sh : String) (t0 : Table)
    (s : Table × Ledger) (i : Nat) (e : Entry)
    (h : e ∈ (stepAssoc si im sc cc sh t0 s i).2) :
    e ∈ s.2 ∨ e = (sh, i, "_ACTION_CODE") ∨ e = (sh, i, sc) := by
  simp only [stepAssoc] at h
  split_ifs at h
  · rcases update_cell_led_new h with h1 | rfl
    · rcases update_cell_led_new h1 with h2 | rfl
      · exact Or.inl h2
      · exact Or.inr (Or.inl rfl)
    · exact Or.inr (Or.inr rfl)
  · exact Or.inl h
  · exact Or.inl h

theorem stepAssoc_getCell_other (si im : AssocMap) (sc cc sh : String) (t0 : Table)
    (s : Table × Ledger) (i i' : Nat) {c : String} (hca : c ≠ "_ACTION_CODE") (hcs : c ≠ sc) :
    getCell (stepAssoc si im sc cc sh t0 s i).1 i' c = getCell s.1 i' c := by
  simp only [stepAssoc]
  split_ifs
  · rw [update_cell_getCell_other _ _ _ _ _ _ _ _ hcs,
      update_cell_getCell_other _ _ _ _ _ _ _ _ hca]
  · rfl
  · rfl

theorem stepWYT3_hit (si im : AssocMap) (sc cc : String) {pc : Option String} {pcv : String}
    (t0 : Table) {s : Table × Ledger} {i : Nat} (hpc : pc = some pcv)
    (hhit : pyUpper (pyStrip (cellStr (getCell s.1 i pcv))) = "LF") :
    stepWYT3 si im sc cc pc t0 s i =
      update_cell (stepAssoc si im sc cc nameWYT3 t0 s i).1 i "DEFPA" "X"
        (stepAssoc si im sc cc nameWYT3 t0 s i).2 nameWYT3 := by
  subst hpc
  rw [stepWYT3_decomp]
  simp only
  rw [if_pos (by simpa using hhit)]

theorem stepWYT3_getCell_not_defpa (si im : AssocMap) (sc cc : String) (pc : Option String)
    (t0 : Table) (s : Table × Ledger) (i i' : Nat) {c : String} (hcd : c ≠ "DEFPA") :
    getCell (stepWYT3 si im sc cc pc t0 s i).1 i' c =
      getCell (stepAssoc si im sc cc nameWYT3 t0 s i).1 i' c := by
  rw [stepWYT3_decomp]
  simp only
  split_ifs
  · rw [update_cell_getCell_other _ _ _ _ _ _ _ _ hcd]
  · rfl

theorem stepWYT3_led_defpa (si im : AssocMap) {sc : String} (cc : String) (pc : Option String)
    (t0 : Table) (s : Table × Ledger) (i : Nat) (hscd : sc ≠ "DEFPA") (e : Entry)
    (h : e ∈ (stepWYT3 si im sc cc pc t0 s i).2) :
    e ∈ s.2 ∨ (∃ c, c ≠ "DEFPA" ∧ e = (nameWYT3, i, c)) ∨
      (e = (nameWYT3, i, "DEFPA") ∧ pyStrip (cellStr (getCell s.1 i "DEFPA")) ≠ "X") := by
  have hassoc : ∀ h1 : e ∈ (stepAssoc si im sc cc nameWYT3 t0 s i).2,
      e ∈ s.2 ∨ (∃ c, c ≠ "DEFPA" ∧ e = (nameWYT3, i, c)) ∨
        (e = (nameWYT3, i, "DEFPA") ∧ pyStrip (cellStr (getCell s.1 i "DEFPA")) ≠ "X") := by
    intro h1
    rcases stepAssoc_led_new_cols si im sc cc nameWYT3 t0 s i e h1 with h2 | rfl | rfl
    · exact Or.inl h2
    · exact Or.inr (Or.inl ⟨"_ACTION_CODE", by decide, rfl⟩)
    · exact Or.inr (Or.inl ⟨sc, hscd, rfl⟩)
  rw [stepWYT3_decomp] at h
  simp only at h
  split_ifs at h
  · rw [update_cell_snd] at h
    split_ifs at h with hcond
    · rcases mem_ledInsert.mp h with h1 | rfl
      · exact hassoc h1
      · refine Or.inr (Or.inr ⟨rfl, ?_⟩)
        have hold : getCell (stepAssoc si im sc cc nameWYT3 t0 s i).1 i "DEFPA" =
            getCell s.1 i "DEFPA" :=
          stepAssoc_getCell_other si im sc cc nameWYT3 t0 s i i (by decide)
            (fun he => hscd he.symm)
        have := hcond.2.1
        rw [hold] at this
        simpa using this
    · exact hassoc h
  · exact hassoc h

theorem findParvw_base {t : Table} {pc : String}
    (h : findParvw (ensure_column t "_ACTION_CODE") = some pc) :
    pc ∈ t.cols ∧ pyLower (pyStrip pc) = "parvw" := by
  unfold findParvw at h
  have hmem := List.mem_of_find?_eq_some h
  have hpred := List.find?_some h
  have hpred2 : pyLower (pyStrip pc) = "parvw" := by simpa using hpred
  refine ⟨?_, hpred2⟩
  by_cases hA : "_ACTION_CODE" ∈ t.cols
  · rw [ensure_column_of_mem hA] at hmem
    exact hmem
  · rw [ensure_column_cols_new hA] at hmem
    rcases List.mem_append.mp hmem with h1 | h1
    · exact h1
    · exfalso
      have : pc = "_ACTION_CODE" := by simpa using h1
      rw [this] at hpred2
      exact absurd hpred2 (by decide)

/-- Step 4: a child row's resolved Name1 cell ends up stripping to
"COMMON SUPPLIER parent". -/
theorem processADRC_child_name (si im : AssocMap) {t : Table} {sc : String} (nc : String)
    (led : Ledger) (hwf : TableWF t) {i : Nat} (hi : i < t.rows.length)
    (hch : isChildRow si t sc i) (hnc : nc ∈ t.cols) :
    pyStrip (cellStr (getCell (processADRC si im t sc nc led).1 i nc)) =
      pyStrip ("COMMON SUPPLIER " ++
        ((amGet im (pyStrip (cellStr (getCell t i sc)))).getD "0000000000")) := by
  obtain ⟨s', hcols, hlen, hwf', hrow, hfin⟩ :=
    foldSteps_row_state _ (fun s i => stepADRC_cols si im sc nc s i)
      (fun s i => stepADRC_rows_length si im sc nc s i)
      (fun s i j hj => stepADRC_row_ne si im sc nc s hj)
      (fun s i => stepADRC_wf si im sc nc s i) (t, led) hwf hi
  have hch2 : isChildRow si s'.1 sc i := (isChildRow_congr si sc hcols hrow).mpr hch
  have hsid : getCell s'.1 i sc = getCell t i sc := getCell_congr sc hcols hrow
  have hg : getCell (processADRC si im t sc nc led).1 i nc =
      getCell (stepADRC si im sc nc s' i).1 i nc := by
    refine getCell_congr nc ?_ ?_
    · rw [processADRC_cols, stepADRC_cols, hcols]
    · exact hfin
  rw [hg, stepADRC_child im nc hch2, hsid]
  exact pyStrip_update_self hwf' _ _ _ (by rw [hcols]; exact hnc) (by rw [hlen]; exact hi)

/-- Step 3: a child row's MC_NAME1 / NAME_ORG1 cells (when present) end up
stripping to "COMMON SUPPLIER parent". -/
theorem processBUT000_child_name (si im : AssocMap) {t : Table} {sc : String}
    (led : Ledger) (hwf : TableWF t) {i : Nat} (hi : i < t.rows.length)
    (hch : isChildRow si t sc i) {c : String} (hcn : c ∈ colsNameB0) (hc : c ∈ t.cols) :
    pyStrip (cellStr (getCell (processBUT000 si im t sc led).1 i c)) =
      pyStrip ("COMMON SUPPLIER " ++
        ((amGet im (pyStrip (cellStr (getCell t i sc)))).getD "0000000000")) := by
  obtain ⟨s', hcols, hlen, hwf', hrow, hfin⟩ :=
    foldSteps_row_state _ (fun s i => stepBUT000_cols si im sc s i)
      (fun s i => stepBUT000_rows_length si im sc s i)
      (fun s i j hj => stepBUT000_row_ne si im sc s hj)
      (fun s i => stepBUT000_wf si im sc s i) (t, led) hwf hi
  have hch2 : isChildRow si s'.1 sc i := (isChildRow_congr si sc hcols hrow).mpr hch
  have hsid : getCell s'.1 i sc = getCell t i sc := getCell_congr sc hcols hrow
  have hg : getCell (processBUT000 si im t sc led).1 i c =
      getCell (stepBUT000 si im sc s' i).1 i c := by
    refine getCell_congr c ?_ ?_
    · rw [processBUT000_cols, stepBUT000_cols, hcols]
    · exact hfin
  rw [hg, stepBUT000_child im hch2, hsid]
  have hnd : colsNameB0.Nodup := by decide
  refine updList_getCell_mem i nameBUT000 _ c colsNameB0 hcn hnd _ ?_ ?_ ?_
  · simp only [updListG_eq]
    exact updList_wf _ _ _ _ _ (updList_wf _ _ _ _ _ hwf')
  · simp only [updListG_eq, updList_rows_length]
    rw [hlen]
    exact hi
  · simp only [updListG_eq, updList_cols]
    rw [hcols]
    exact hc

/-- Step 5: a child row's NAME1 cell (when present) ends up stripping to
"COMMON SUPPLIER parent". -/
theorem processLFA1_child_name (si im : AssocMap) {t : Table} {sc : String}
    (led : Ledger) (hwf : TableWF t) {i : Nat} (hi : i < t.rows.length)
    (hch : isChildRow si t sc i) {c : String} (hcn : c ∈ colsReplaceLFA1) (hc : c ∈ t.cols) :
    pyStrip (cellStr (getCell (processLFA1 si im t sc led).1 i c)) =
      pyStrip ("COMMON SUPPLIER " ++
        ((amGet im (pyStrip (cellStr (getCell t i sc)))).getD "0000000000")) := by
  obtain ⟨s', hcols, hlen, hwf', hrow, hfin⟩ :=
    foldSteps_row_state _ (fun s i => stepLFA1_cols si im sc s i)
      (fun s i => stepLFA1_rows_length si im sc s i)
      (fun s i j hj => stepLFA1_row_ne si im sc s hj)
      (fun s i => stepLFA1_wf si im sc s i) (t, led) hwf hi
  have hch2 : isChildRow si s'.1 sc i := (isChildRow_congr si sc hcols hrow).mpr hch
  have hsid : getCell s'.1 i sc = getCell t i sc := getCell_congr sc hcols hrow
  have hg : getCell (processLFA1 si im t sc led).1 i c =
      getCell (stepLFA1 si im sc s' i).1 i c := by
    refine getCell_congr c ?_ ?_
    · rw [processLFA1_cols, stepLFA1_cols, hcols]
    · exact hfin
  have hcfill : c ∉ colsFillLFA1 := by
    rcases List.mem_singleton.mp hcn with rfl
    decide
  rw [hg, stepLFA1_child im hch2, hsid,
    updList_getCell_not_mem i i nameLFA1 "X" c colsFillLFA1 hcfill]
  have hnd : colsReplaceLFA1.Nodup := by decide
  refine updList_getCell_mem i nameLFA1 _ c colsReplaceLFA1 hcn hnd _ ?_ ?_ ?_
  · exact updList_wf _ _ _ _ _ hwf'
  · simp only [updList_rows_length]
    rw [hlen]
    exact hi
  · simp only [updList_cols]
    rw [hcols]
    exact hc

/-- Steps 6/7, qualifying child row: the final `_ACTION_CODE` cell strips to
"I" and the final identifier cell strips to the parent identifier. -/
theorem processAssoc_row_pos (si im : AssocMap) {t : Table} {sc : String} {cc : String}
    (sh : String) (led : Ledger) (hwf : TableWF t) {i : Nat} (hi : i < t.rows.length)
    (hscm : sc ∈ t.cols) (hccm : cc ∈ t.cols) (hsne : sc ≠ "_ACTION_CODE")
    (hch : isChildRow si t sc i)
    (hcv : pyStrip (cellStr (getCell t i cc)) ≠ "")
    (hnotin : inCodes (ensure_column t "_ACTION_CODE") sc cc
        ((amGet im (pyStrip (cellStr (getCell t i sc)))).getD "0000000000")
        (pyStrip (cellStr (getCell t i cc))) = false) :
    pyStrip (cellStr (getCell (processAssoc si im t sc cc sh led).1 i "_ACTION_CODE")) = "I" ∧
    pyStrip (cellStr (getCell (processAssoc si im t sc cc sh led).1 i sc)) =
      pyStrip ((amGet im (pyStrip (cellStr (getCell t i sc)))).getD "0000000000") := by
  have hwf1 : TableWF (ensure_column t "_ACTION_CODE") := ensure_column_wf hwf _
  have hi1 : i < (ensure_column t "_ACTION_CODE").rows.length := by
    rw [ensure_column_rows_length]; exact hi
  have hgs : getCell (ensure_column t "_ACTION_CODE") i sc = getCell t i sc :=
    getCell_ensure_column_of_mem hwf _ i hscm
  have hgc : getCell (ensure_column t "_ACTION_CODE") i cc = getCell t i cc :=
    getCell_ensure_column_of_mem hwf _ i hccm
  obtain ⟨s', hcols, hlen, hwf', hrow, hfin⟩ :=
    foldSteps_row_state _
      (fun s i => stepAssoc_cols si im sc cc sh _ s i)
      (fun s i => stepAssoc_rows_length si im sc cc sh _ s i)
      (fun s i j hj => stepAssoc_row_ne si im sc cc sh _ s hj)
      (fun s i => stepAssoc_wf si im sc cc sh _ s i)
      (ensure_column t "_ACTION_CODE", led) hwf1 hi1
  have glue_s : getCell s'.1 i sc = getCell t i sc := by
    rw [getCell_congr sc hcols hrow]; exact hgs
  have glue_c : getCell s'.1 i cc = getCell t i cc := by
    rw [getCell_congr cc hcols hrow]; exact hgc
  have hch2 : isChildRow si s'.1 sc i := by
    unfold isChildRow
    rw [glue_s]
    exact hch
  have hq2 : pyStrip (cellStr (getCell s'.1 i cc)) ≠ "" ∧
      inCodes (ensure_column t "_ACTION_CODE") sc cc
        ((amGet im (pyStrip (cellStr (getCell s'.1 i sc)))).getD "0000000000")
        (pyStrip (cellStr (getCell s'.1 i cc))) = false := by
    rw [glue_s, glue_c]
    exact ⟨hcv, hnotin⟩
  have hstep := stepAssoc_qual im cc sh (ensure_column t "_ACTION_CODE") hch2 hq2
  have hAm : "_ACTION_CODE" ∈ s'.1.cols := by
    rw [hcols]; exact mem_ensure_column_cols t _
  have hsm : sc ∈ s'.1.cols := by
    rw [hcols]; exact mem_ensure_cols_of_mem _ hscm
  have hi2 : i < s'.1.rows.length := by rw [hlen]; exact hi1
  constructor
  · have hg : getCell (processAssoc si im t sc cc sh led).1 i "_ACTION_CODE" =
        getCell (stepAssoc si im sc cc sh (ensure_column t "_ACTION_CODE") s' i).1
          i "_ACTION_CODE" := by
      refine getCell_congr _ ?_ ?_
      · rw [processAssoc_cols, stepAssoc_cols, hcols]
      · exact hfin
    rw [hg, hstep,
      update_cell_getCell_other _ _ _ _ _ _ _ _ (fun h => hsne h.symm)]
    exact (pyStrip_update_self hwf' "I" s'.2 sh hAm hi2).trans (by decide)
  · have hg : getCell (processAssoc si im t sc cc sh led).1 i sc =
        getCell (stepAssoc si im sc cc sh (ensure_column t "_ACTION_CODE") s' i).1 i sc := by
      refine getCell_congr _ ?_ ?_
      · rw [processAssoc_cols, stepAssoc_cols, hcols]
      · exact hfin
    rw [hg, hstep, glue_s]
    exact pyStrip_update_self (update_cell_wf hwf' _ _ _ _ _) _ _ _
      (by rw [update_cell_cols]; exact hsm)
      (by rw [update_cell_rows_length]; exact hi2)

/-- Steps 6/7, non-qualifying row (blank code or code already among the
parent's codes, or not a child): the row is left exactly as `ensure_column`
left it. -/
theorem processAssoc_row_neg (si im : AssocMap) {t : Table} {sc : String} {cc : String}
    (sh : String) (led : Ledger) (hwf : TableWF t) {i : Nat} (hi : i < t.rows.length)
    (hscm : sc ∈ t.cols) (hccm : cc ∈ t.cols)
    (hq : ¬ (pyStrip (cellStr (getCell t i cc)) ≠ "" ∧
      inCodes (ensure_column t "_ACTION_CODE") sc cc
        ((amGet im (pyStrip (cellStr (getCell t i sc)))).getD "0000000000")
        (pyStrip (cellStr (getCell t i cc))) = false)) :
    (processAssoc si im t sc cc sh led).1.rows[i]? =
      (ensure_column t "_ACTION_CODE").rows[i]? := by
  have hwf1 : TableWF (ensure_column t "_ACTION_CODE") := ensure_column_wf hwf _
  have hi1 : i < (ensure_column t "_ACTION_CODE").rows.length := by
    rw [ensure_column_rows_length]; exact hi
  have hgs : getCell (ensure_column t "_ACTION_CODE") i sc = getCell t i sc :=
    getCell_ensure_column_of_mem hwf _ i hscm
  have hgc : getCell (ensure_column t "_ACTION_CODE") i cc = getCell t i cc :=
    getCell_ensure_column_of_mem hwf _ i hccm
  obtain ⟨s', hcols, hlen, hwf', hrow, hfin⟩ :=
    foldSteps_row_state _
      (fun s i => stepAssoc_cols si im sc cc sh _ s i)
      (fun s i => stepAssoc_rows_length si im sc cc sh _ s i)
      (fun s i j hj => stepAssoc_row_ne si im sc cc sh _ s hj)
      (fun s i => stepAssoc_wf si im sc cc sh _ s i)
      (ensure_column t "_ACTION_CODE", led) hwf1 hi1
  have glue_s : getCell s'.1 i sc = getCell t i sc := by
    rw [getCell_congr sc hcols hrow]; exact hgs
  have glue_c : getCell s'.1 i cc = getCell t i cc := by
    rw [getCell_congr cc hcols hrow]; exact hgc
  have hq2 : ¬ (pyStrip (cellStr (getCell s'.1 i cc)) ≠ "" ∧
      inCodes (ensure_column t "_ACTION_CODE") sc cc
        ((amGet im (pyStrip (cellStr (getCell s'.1 i sc)))).getD "0000000000")
        (pyStrip (cellStr (getCell s'.1 i cc))) = false) := by
    rw [glue_s, glue_c]
    exact hq
  have : (processAssoc si im t sc cc sh led).1.rows[i]? =
      (stepAssoc si im sc cc sh (ensure_column t "_ACTION_CODE") s' i).1.rows[i]? := hfin
  rw [this, stepAssoc_not_qual im cc sh _ hq2, hrow]

/-- Step 8, qualifying child row: `_ACTION_CODE` strips to "I" and the
identifier cell strips to the parent identifier (the DEFPA rule cannot
disturb either cell). -/
theorem processWYT3_row_pos (si im : AssocMap) {t : Table} {sc : String} {cc : String}
    (led : Ledger) (hwf : TableWF t) {i : Nat} (hi : i < t.rows.length)
    (hscm : sc ∈ t.cols) (hccm : cc ∈ t.cols) (hsne : sc ≠ "_ACTION_CODE")
    (hscd : sc ≠ "DEFPA") (hch : isChildRow si t sc i)
    (hcv : pyStrip (cellStr (getCell t i cc)) ≠ "")
    (hnotin : inCodes (ensure_column t "_ACTION_CODE") sc cc
        ((amGet im (pyStrip (cellStr (getCell t i sc)))).getD "0000000000")
        (pyStrip (cellStr (getCell t i cc))) = false) :
    pyStrip (cellStr (getCell (processWYT3 si im t sc cc led).1 i "_ACTION_CODE")) = "I" ∧
    pyStrip (cellStr (getCell (processWYT3 si im t sc cc led).1 i sc)) =
      pyStrip ((amGet im (pyStrip (cellStr (getCell t i sc)))).getD "0000000000") := by
  have hwf1 : TableWF (ensure_column t "_ACTION_CODE") := ensure_column_wf hwf _
  have hwf2 : TableWF (ensure_column (ensure_column t "_ACTION_CODE") "DEFPA") :=
    ensure_column_wf hwf1 _
  have hi2 : i < (ensure_column (ensure_column t "_ACTION_CODE") "DEFPA").rows.length := by
    rw [ensure_column_rows_length, ensure_column_rows_length]; exact hi
  have hsm1 : sc ∈ (ensure_column t "_ACTION_CODE").cols := mem_ensure_cols_of_mem _ hscm
  have hcm1 : cc ∈ (ensure_column t "_ACTION_CODE").cols := mem_ensure_cols_of_mem _ hccm
  have hgs : getCell (ensure_column (ensure_column t "_ACTION_CODE") "DEFPA") i sc =
      getCell t i sc := by
    rw [getCell_ensure_column_of_mem hwf1 _ i hsm1,
      getCell_ensure_column_of_mem hwf _ i hscm]
  have hgc : getCell (ensure_column (ensure_column t "_ACTION_CODE") "DEFPA") i cc =
      getCell t i cc := by
    rw [getCell_ensure_column_of_mem hwf1 _ i hcm1,
      getCell_ensure_column_of_mem hwf _ i hccm]
  obtain ⟨s', hcols, hlen, hwf', hrow, hfin⟩ :=
    foldSteps_row_state _
      (fun s i => stepWYT3_cols si im sc cc _ _ s i)
      (fun s i => stepWYT3_rows_length si im sc cc _ _ s i)
      (fun s i j hj => stepWYT3_row_ne si im sc cc _ _ s hj)
      (fun s i => stepWYT3_wf si im sc cc _ _ s i)
      (ensure_column (ensure_column t "_ACTION_CODE") "DEFPA", led) hwf2 hi2
  have glue_s : getCell s'.1 i sc = getCell t i sc := by
    rw [getCell_congr sc hcols hrow]; exact hgs
  have glue_c : getCell s'.1 i cc = getCell t i cc := by
    rw [getCell_congr cc hcols hrow]; exact hgc
  have hch2 : isChildRow si s'.1 sc i := by
    unfold isChildRow
    rw [glue_s]
    exact hch
  have hq2 : pyStrip (cellStr (getCell s'.1 i cc)) ≠ "" ∧
      inCodes (ensure_column t "_ACTION_CODE") sc cc
        ((amGet im (pyStrip (cellStr (getCell s'.1 i sc)))).getD "0000000000")
        (pyStrip (cellStr (getCell s'.1 i cc))) = false := by
    rw [glue_s, glue_c]
    exact ⟨hcv, hnotin⟩
  have hstep := stepAssoc_qual im cc nameWYT3 (ensure_column t "_ACTION_CODE") hch2 hq2
  have hAm : "_ACTION_CODE" ∈ s'.1.cols := by
    rw [hcols]
    exact mem_ensure_cols_of_mem _ (mem_ensure_column_cols t _)
  have hsm : sc ∈ s'.1.cols := by
    rw [hcols]
    exact mem_ensure_cols_of_mem _ hsm1
  have hi3 : i < s'.1.rows.length := by rw [hlen]; exact hi2
  constructor
  · have hg : getCell (processWYT3 si im t sc cc led).1 i "_ACTION_CODE" =
        getCell (stepWYT3 si im sc cc (findParvw (ensure_column t "_ACTION_CODE"))
          (ensure_column t "_ACTION_CODE") s' i).1 i "_ACTION_CODE" := by
      refine getCell_congr _ ?_ ?_
      · rw [processWYT3_cols, stepWYT3_cols, hcols]
      · exact hfin
    rw [hg, stepWYT3_getCell_not_defpa si im sc cc _ _ s' i i (by decide), hstep,
      update_cell_getCell_other _ _ _ _ _ _ _ _ (fun h => hsne h.symm)]
    exact (pyStrip_update_self hwf' "I" s'.2 nameWYT3 hAm hi3).trans (by decide)
  · have hg : getCell (processWYT3 si im t sc cc led).1 i sc =
        getCell (stepWYT3 si im sc cc (findParvw (ensure_column t "_ACTION_CODE"))
          (ensure_column t "_ACTION_CODE") s' i).1 i sc := by
      refine getCell_congr _ ?_ ?_
      · rw [processWYT3_cols, stepWYT3_cols, hcols]
      · exact hfin
    rw [hg, stepWYT3_getCell_not_defpa si im sc cc _ _ s' i i hscd, hstep, glue_s]
    exact pyStrip_update_self (update_cell_wf hwf' _ _ _ _ _) _ _ _
      (by rw [update_cell_cols]; exact hsm)
      (by rw [update_cell_rows_length]; exact hi3)

/-- Step 8, non-qualifying row: neither the `_ACTION_CODE` cell nor the
identifier cell of the row is changed by the reconciliation. -/
theorem processWYT3_row_neg (si im : AssocMap) {t : Table} {sc : String} {cc : String}
    (led : Ledger) (hwf : TableWF t) {i : Nat} (hi : i < t.rows.length)
    (hscm : sc ∈ t.cols) (hccm : cc ∈ t.cols) (hscd : sc ≠ "DEFPA")
    (hq : ¬ (pyStrip (cellStr (getCell t i cc)) ≠ "" ∧
      inCodes (ensure_column t "_ACTION_CODE") sc cc
        ((amGet im (pyStrip (cellStr (getCell t i sc)))).getD "0000000000")
        (pyStrip (cellStr (getCell t i cc))) = false)) :
    getCell (processWYT3 si im t sc cc led).1 i "_ACTION_CODE" =
      getCell (ensure_column (ensure_column t "_ACTION_CODE") "DEFPA") i "_ACTION_CODE" ∧
    getCell (processWYT3 si im t sc cc led).1 i sc = getCell t i sc := by
  have hwf1 : TableWF (ensure_column t "_ACTION_CODE") := ensure_column_wf hwf _
  have hwf2 : TableWF (ensure_column (ensure_column t "_ACTION_CODE") "DEFPA") :=
    ensure_column_wf hwf1 _
  have hi2 : i < (ensure_column (ensure_column t "_ACTION_CODE") "DEFPA").rows.length := by
    rw [ensure_column_rows_length, ensure_column_rows_length]; exact hi
  have hsm1 : sc ∈ (ensure_column t "_ACTION_CODE").cols := mem_ensure_cols_of_mem _ hscm
  have hcm1 : cc ∈ (ensure_column t "_ACTION_CODE").cols := mem_ensure_cols_of_mem _ hccm
  have hgs : getCell (ensure_column (ensure_column t "_ACTION_CODE") "DEFPA") i sc =
      getCell t i sc := by
    rw [getCell_ensure_column_of_mem hwf1 _ i hsm1,
      getCell_ensure_column_of_mem hwf _ i hscm]
  have hgc : getCell (ensure_column (ensure_column t "_ACTION_CODE") "DEFPA") i cc =
      getCell t i cc := by
    rw [getCell_ensure_column_of_mem hwf1 _ i hcm1,
      getCell_ensure_column_of_mem hwf _ i hccm]
  obtain ⟨s', hcols, hlen, hwf', hrow, hfin⟩ :=
    foldSteps_row_state _
      (fun s i => stepWYT3_cols si im sc cc _ _ s i)
      (fun s i => stepWYT3_rows_length si im sc cc _ _ s i)
      (fun s i j hj => stepWYT3_row_ne si im sc cc _ _ s hj)
      (fun s i => stepWYT3_wf si im sc cc _ _ s i)
      (ensure_column (ensure_column t "_ACTION_CODE") "DEFPA", led) hwf2 hi2
  have glue_s : getCell s'.1 i sc = getCell t i sc := by
    rw [getCell_congr sc hcols hrow]; exact hgs
  have glue_c : getCell s'.1 i cc = getCell t i cc := by
    rw [getCell_congr cc hcols hrow]; exact hgc
  have hq2 : ¬ (pyStrip (cellStr (getCell s'.1 i cc)) ≠ "" ∧
      inCodes (ensure_column t "_ACTION_CODE") sc cc
        ((amGet im (pyStrip (cellStr (getCell s'.1 i sc)))).getD "0000000000")
        (pyStrip (cellStr (getCell s'.1 i cc))) = false) := by
    rw [glue_s, glue_c]
    exact hq
  have hgen : ∀ c : String, c ≠ "DEFPA" →
      getCell (processWYT3 si im t sc cc led).1 i c = getCell s'.1 i c := by
    intro c hcd
    have hg : getCell (processWYT3 si im t sc cc led).1 i c =
        getCell (stepWYT3 si im sc cc (findParvw (ensure_column t "_ACTION_CODE"))
          (ensure_column t "_ACTION_CODE") s' i).1 i c := by
      refine getCell_congr _ ?_ ?_
      · rw [processWYT3_cols, stepWYT3_cols, hcols]
      · exact hfin
    rw [hg, stepWYT3_getCell_not_defpa si im sc cc _ _ s' i i hcd,
      stepAssoc_not_qual im cc nameWYT3 _ hq2]
  constructor
  · rw [hgen "_ACTION_CODE" (by decide)]
    rw [getCell_congr _ hcols hrow]
  · rw [hgen sc hscd]
    exact glue_s

/-- Step 8, DEFPA rule, value: a row whose PARVW cell strips and upcases to
"LF" ends with a DEFPA cell stripping to "X". -/
theorem processWYT3_defpa_value (si im : AssocMap) {t : Table} {sc : String} (cc : String)
    (led : Ledger) (hwf : TableWF t) {i : Nat} (hi : i < t.rows.length) {pc : String}
    (hpc : findParvw (ensure_column t "_ACTION_CODE") = some pc)
    (hhit : pyUpper (pyStrip (cellStr (getCell t i pc))) = "LF") :
    pyStrip (cellStr (getCell (processWYT3 si im t sc cc led).1 i "DEFPA")) = "X" := by
  have hwf1 : TableWF (ensure_column t "_ACTION_CODE") := ensure_column_wf hwf _
  have hwf2 : TableWF (ensure_column (ensure_column t "_ACTION_CODE") "DEFPA") :=
    ensure_column_wf hwf1 _
  have hi2 : i < (ensure_column (ensure_column t "_ACTION_CODE") "DEFPA").rows.length := by
    rw [ensure_column_rows_length, ensure_column_rows_length]; exact hi
  have hpcm : pc ∈ t.cols := (findParvw_base hpc).1
  have hpcm1 : pc ∈ (ensure_column t "_ACTION_CODE").cols := mem_ensure_cols_of_mem _ hpcm
  have hgp : getCell (ensure_column (ensure_column t "_ACTION_CODE") "DEFPA") i pc =
      getCell t i pc := by
    rw [getCell_ensure_column_of_mem hwf1 _ i hpcm1,
      getCell_ensure_column_of_mem hwf _ i hpcm]
  obtain ⟨s', hcols, hlen, hwf', hrow, hfin⟩ :=
    foldSteps_row_state _
      (fun s i => stepWYT3_cols si im sc cc _ _ s i)
      (fun s i => stepWYT3_rows_length si im sc cc _ _ s i)
      (fun s i j hj => stepWYT3_row_ne si im sc cc _ _ s hj)
      (fun s i => stepWYT3_wf si im sc cc _ _ s i)
      (ensure_column (ensure_column t "_ACTION_CODE") "DEFPA", led) hwf2 hi2
  have glue_p : getCell s'.1 i pc = getCell t i pc := by
    rw [getCell_congr pc hcols hrow]; exact hgp
  have hhit2 : pyUpper (pyStrip (cellStr (getCell s'.1 i pc))) = "LF" := by
    rw [glue_p]; exact hhit
  have hg : getCell (processWYT3 si im t sc cc led).1 i "DEFPA" =
      getCell (stepWYT3 si im sc cc (findParvw (ensure_column t "_ACTION_CODE"))
        (ensure_column t "_ACTION_CODE") s' i).1 i "DEFPA" := by
    refine getCell_congr _ ?_ ?_
    · rw [processWYT3_cols, stepWYT3_cols, hcols]
    · exact hfin
  rw [hg, stepWYT3_hit si im sc cc _ hpc hhit2]
  refine (pyStrip_update_self ?_ "X" _ nameWYT3 ?_ ?_).trans (by decide)
  · exact stepAssoc_wf _ _ _ _ _ _ _ _ hwf'
  · rw [stepAssoc_cols, hcols]
    exact mem_ensure_column_cols _ _
  · rw [stepAssoc_rows_length, hlen]
    exact hi2

/-- Step 8, DEFPA rule, recording: if moreover the pre-pass DEFPA cell does
not already strip to "X", the write is recorded in the ledger. -/
theorem processWYT3_defpa_recorded (si im : AssocMap) {t : Table} {sc : String} (cc : String)
    (led : Ledger) (hwf : TableWF t) {i : Nat} (hi : i < t.rows.length)
    (hscd : sc ≠ "DEFPA") {pc : String}
    (hpc : findParvw (ensure_column t "_ACTION_CODE") = some pc)
    (hhit : pyUpper (pyStrip (cellStr (getCell t i pc))) = "LF")
    (hdiffer : pyStrip (cellStr (getCell
        (ensure_column (ensure_column t "_ACTION_CODE") "DEFPA") i "DEFPA")) ≠ "X") :
    (nameWYT3, i, "DEFPA") ∈ (processWYT3 si im t sc cc led).2 := by
  have hwf1 : TableWF (ensure_column t "_ACTION_CODE") := ensure_column_wf hwf _
  have hwf2 : TableWF (ensure_column (ensure_column t "_ACTION_CODE") "DEFPA") :=
    ensure_column_wf hwf1 _
  have hi2 : i < (ensure_column (ensure_column t "_ACTION_CODE") "DEFPA").rows.length := by
    rw [ensure_column_rows_length, ensure_column_rows_length]; exact hi
  have hpcm : pc ∈ t.cols := (findParvw_base hpc).1
  have hpcm1 : pc ∈ (ensure_column t "_ACTION_CODE").cols := mem_ensure_cols_of_mem _ hpcm
  have hgp : getCell (ensure_column (ensure_column t "_ACTION_CODE") "DEFPA") i pc =
      getCell t i pc := by
    rw [getCell_ensure_column_of_mem hwf1 _ i hpcm1,
      getCell_ensure_column_of_mem hwf _ i hpcm]
  have hcols : ((List.range i).foldl
      (stepWYT3 si im sc cc (findParvw (ensure_column t "_ACTION_CODE"))
        (ensure_column t "_ACTION_CODE"))
      (ensure_column (ensure_column t "_ACTION_CODE") "DEFPA", led)).1.cols =
      (ensure_column (ensure_column t "_ACTION_CODE") "DEFPA").cols :=
    foldl_cols _ (fun s i => stepWYT3_cols si im sc cc _ _ s i) _ _
  have hrow : ((List.range i).foldl
      (stepWYT3 si im sc cc (findParvw (ensure_column t "_ACTION_CODE"))
        (ensure_column t "_ACTION_CODE"))
      (ensure_column (ensure_column t "_ACTION_CODE") "DEFPA", led)).1.rows[i]? =
      (ensure_column (ensure_column t "_ACTION_CODE") "DEFPA").rows[i]? :=
    foldl_row_not_mem _ (fun s i j hj => stepWYT3_row_ne si im sc cc _ _ s hj) _ _ i (by simp)
  set s' := (List.range i).foldl
      (stepWYT3 si im sc cc (findParvw (ensure_column t "_ACTION_CODE"))
        (ensure_column t "_ACTION_CODE"))
      (ensure_column (ensure_column t "_ACTION_CODE") "DEFPA", led) with hs'
  have glue_p : getCell s'.1 i pc = getCell t i pc := by
    rw [getCell_congr pc hcols hrow]; exact hgp
  have glue_d : getCell s'.1 i "DEFPA" =
      getCell (ensure_column (ensure_column t "_ACTION_CODE") "DEFPA") i "DEFPA" :=
    getCell_congr _ hcols hrow
  have hhit2 : pyUpper (pyStrip (cellStr (getCell s'.1 i pc))) = "LF" := by
    rw [glue_p]; exact hhit
  have key : (nameWYT3, i, "DEFPA") ∈
      (stepWYT3 si im sc cc (findParvw (ensure_column t "_ACTION_CODE"))
        (ensure_column t "_ACTION_CODE") s' i).2 := by
    rw [stepWYT3_hit si im sc cc _ hpc hhit2, update_cell_snd]
    rw [if_pos ?_]
    · exact mem_ledInsert.mpr (Or.inr rfl)
    · refine ⟨?_, ?_, ?_⟩
      · rw [stepAssoc_cols, hcols]
        exact mem_ensure_column_cols _ _
      · rw [stepAssoc_getCell_other si im sc cc nameWYT3 _ s' i i (by decide)
          (fun h => hscd h.symm), glue_d]
        intro h
        exact hdiffer (h.trans (by decide))
      · intro h
        exact absurd h.2 (by decide)
  exact foldSteps_led_step_mem _ (fun s i e => stepWYT3_led_mono si im sc cc _ _ s i e)
    hi2 _ _ key

/-- Step 8, DEFPA rule, no spurious record: when the pre-pass DEFPA cell
already strips to "X", the cell is never recorded. -/
theorem processWYT3_defpa_not_recorded (si im : AssocMap) {t : Table} {sc : String}
    (cc : String) (led : Ledger) (hscd : sc ≠ "DEFPA") {i : Nat}
    (hkeep : pyStrip (cellStr (getCell
        (ensure_column (ensure_column t "_ACTION_CODE") "DEFPA") i "DEFPA")) = "X")
    (hled : (nameWYT3, i, "DEFPA") ∉ led) :
    (nameWYT3, i, "DEFPA") ∉ (processWYT3 si im t sc cc led).2 := by
  intro hmem
  rcases foldSteps_led_new _ (ensure_column (ensure_column t "_ACTION_CODE") "DEFPA") led
      (fun j e => (∃ c, c ≠ "DEFPA" ∧ e = (nameWYT3, j, c)) ∨
        (e = (nameWYT3, j, "DEFPA") ∧ pyStrip (cellStr (getCell
          (ensure_column (ensure_column t "_ACTION_CODE") "DEFPA") j "DEFPA")) ≠ "X"))
      (fun s i => stepWYT3_cols si im sc cc _ _ s i)
      (fun s i j hj => stepWYT3_row_ne si im sc cc _ _ s hj)
      (fun s j hcols hrow e he => by
        rcases stepWYT3_led_defpa si im cc _ _ s j hscd e he with h1 | h1 | ⟨rfl, h2⟩
        · exact Or.inl h1
        · exact Or.inr (Or.inl h1)
        · refine Or.inr (Or.inr ⟨rfl, ?_⟩)
          rw [← getCell_congr _ hcols hrow]
          exact h2)
      _ _ hmem with h1 | ⟨j, _, ⟨c, hcne, heq⟩ | ⟨heq, hne⟩⟩
  · exact hled h1
  · exact hcne (Prod.ext_iff.mp (Prod.ext_iff.mp heq).2).2.symm
  · have hji : j = i := (Prod.ext_iff.mp (Prod.ext_iff.mp heq).2).1.symm
    rw [hji] at hne
    exact hne hkeep

/-! ### Lemmas about the dict model -/

theorem amGet_amSet_self (m : AssocMap) (k v : String) : amGet (amSet m k v) k = some v := by
  induction m with
  | nil => simp [amSet, amGet]
  | cons kv m ih =>
    by_cases h : kv.1 = k
    · simp [amSet, amGet, h]
    · simp [amSet, amGet, h, ih]

theorem amGet_amSet_ne (m : AssocMap) {k k' : String} (v : String) (h : k' ≠ k) :
    amGet (amSet m k v) k' = amGet m k' := by
  induction m with
  | nil =>
    simp only [amSet, amGet]
    rw [if_neg (fun he => h he.symm)]
  | cons kv m ih =>
    by_cases h1 : kv.1 = k
    · rw [amSet, if_pos h1]
      simp only [amGet]
      rw [if_neg (fun he => h he.symm), if_neg (fun he => h (by rw [← he, h1]))]
    · rw [amSet, if_neg h1]
      simp only [amGet]
      by_cases h2 : kv.1 = k'
      · rw [if_pos h2, if_pos h2]
      · rw [if_neg h2, if_neg h2, ih]

theorem amGet_mem {m : AssocMap} {k v : String} (h : amGet m k = some v) : (k, v) ∈ m := by
  induction m with
  | nil => simp [amGet] at h
  | cons kv m ih =>
    by_cases h1 : kv.1 = k
    · simp only [amGet, if_pos h1] at h
      have he : kv = (k, v) := by
        cases kv
        simp only at h1
        simp only [Option.some.injEq] at h
        simp [h1, h]
      rw [← he]
      exact List.mem_cons_self _ _
    · simp only [amGet, if_neg h1] at h
      exact List.mem_cons_of_mem _ (ih h)

theorem amSet_mem {m : AssocMap} {kv : String × String} {k v : String}
    (h : kv ∈ amSet m k v) : kv ∈ m ∨ kv = (k, v) := by
  induction m with
  | nil =>
    simp [amSet] at h
    exact Or.inr (by simp [h])
  | cons kv0 m ih =>
    by_cases h1 : kv0.1 = k
    · rw [amSet, if_pos h1] at h
      rcases List.mem_cons.mp h with h2 | h2
      · exact Or.inr h2
      · exact Or.inl (List.mem_cons_of_mem _ h2)
    · rw [amSet, if_neg h1] at h
      rcases List.mem_cons.mp h with h2 | h2
      · exact Or.inl (by simp [h2])
      · rcases ih h2 with h3 | h3
        · exact Or.inl (List.mem_cons_of_mem _ h3)
        · exact Or.inr h3

theorem amSet_of_get_eq {m : AssocMap} {k v : String} (h : amGet m k = some v) :
    amSet m k v = m := by
  induction m with
  | nil => simp [amGet] at h
  | cons kv m ih =>
    by_cases h1 : kv.1 = k
    · rw [amGet, if_pos h1] at h
      rw [amSet, if_pos h1]
      cases kv
      simp at h h1
      simp [h, h1]
    · rw [amGet, if_neg h1] at h
      rw [amSet, if_neg h1, ih h]

theorem amSet_of_get_none {m : AssocMap} {k : String} (v : String) (h : amGet m k = none) :
    amSet m k v = m ++ [(k, v)] := by
  induction m with
  | nil => simp [amSet]
  | cons kv m ih =>
    by_cases h1 : kv.1 = k
    · rw [amGet, if_pos h1] at h
      simp at h
    · rw [amGet, if_neg h1] at h
      rw [amSet, if_neg h1, ih h]
      simp

theorem amGet_amSet_isSome (m : AssocMap) (k k' v : String) :
    (amGet (amSet m k v) k').isSome ↔ k' = k ∨ (amGet m k').isSome := by
  by_cases h : k' = k
  · subst h
    rw [amGet_amSet_self]
    simp
  · rw [amGet_amSet_ne m v h]
    simp [h]

/-! ### Identity-map invariants (explicit-pairs mode) -/

theorem idMap_keys (l : List (String × String)) :
    ∀ (idm : AssocMap) (k : String),
      (amGet (l.foldl (fun m pr => amSet m (pyStrip pr.2) (pyStrip pr.1)) idm) k).isSome ↔
        (amGet idm k).isSome ∨ ∃ pr ∈ l, pyStrip pr.2 = k := by
  induction l with
  | nil => intro idm k; simp
  | cons pr l ih =>
    intro idm k
    rw [List.foldl_cons, ih, amGet_amSet_isSome]
    simp only [List.mem_cons]
    constructor
    · rintro ((h | h) | ⟨pr1, h1, h2⟩)
      · exact Or.inr ⟨pr, Or.inl rfl, h.symm⟩
      · exact Or.inl h
      · exact Or.inr ⟨pr1, Or.inr h1, h2⟩
    · rintro (h | ⟨pr1, (rfl | h1), h2⟩)
      · exact Or.inl (Or.inr h)
      · exact Or.inl (Or.inl h2.symm)
      · exact Or.inr ⟨pr1, h1, h2⟩

theorem idMap_child (l : List (String × String)) :
    ∀ (info idm : AssocMap),
      (∀ pr ∈ l, ∀ pr1 ∈ l, pyStrip pr.1 ≠ pyStrip pr1.2) →
      (∀ k, (amGet idm k).isSome → amGet info k = some "child_id") →
      (∀ pr ∈ l, amGet idm (pyStrip pr.1) = none) →
      ∀ k, (amGet (l.foldl (fun m pr => amSet m (pyStrip pr.2) (pyStrip pr.1)) idm) k).isSome →
        amGet (l.foldl
          (fun m pr => amSet (amSet m (pyStrip pr.1) "parent_id") (pyStrip pr.2) "child_id")
          info) k = some "child_id" := by
  induction l with
  | nil => intro info idm _ h1 _ k hk; exact h1 k hk
  | cons pr l ih =>
    intro info idm hD h1 h2 k hk
    rw [List.foldl_cons] at hk ⊢
    refine ih _ _
      (fun pr1 hm1 pr2 hm2 => hD pr1 (List.mem_cons_of_mem _ hm1) pr2 (List.mem_cons_of_mem _ hm2))
      ?_ ?_ k hk
    · intro k0 hk0
      by_cases hkc : k0 = pyStrip pr.2
      · subst hkc
        exact amGet_amSet_self _ _ _
      · rw [amGet_amSet_ne _ _ hkc] at hk0
        rw [amGet_amSet_ne _ _ hkc]
        by_cases hkp : k0 = pyStrip pr.1
        · exfalso
          rw [hkp, h2 pr (List.mem_cons_self _ _)] at hk0
          simp at hk0
        · rw [amGet_amSet_ne _ _ hkp]
          exact h1 k0 hk0
    · intro pr1 hm1
      have hne : pyStrip pr1.1 ≠ pyStrip pr.2 :=
        hD pr1 (List.mem_cons_of_mem _ hm1) pr (List.mem_cons_self _ _)
      rw [amGet_amSet_ne _ _ hne]
      exact h2 pr1 (List.mem_cons_of_mem _ hm1)

/-! ### Positional (legacy) classification -/

theorem getElemOpt_lt_of_some {α : Type} {l : List α} {n : Nat} {a : α}
    (h : l[n]? = some a) : n < l.length := by
  induction l generalizing n with
  | nil => simp at h
  | cons x xs ih =>
    cases n with
    | zero => simp
    | succ n0 =>
      have := ih (n := n0) (by simpa using h)
      simpa using Nat.succ_lt_succ this

theorem legacy_classify_parent_iff (s : String) :
    Legacy.classify s = "parent_id" ↔ (s.toList[3]? == some '3') = true := by
  unfold Legacy.classify
  split_ifs with h
  · constructor
    · intro _
      simpa using h.2
    · intro _
      rfl
  · constructor
    · intro he
      exact absurd he (by decide)
    · intro hb
      exfalso
      have hb2 : s.toList[3]? = some '3' := by simpa using hb
      refine h ⟨?_, hb2⟩
      have h3 : 3 < s.toList.length := getElemOpt_lt_of_some hb2
      have hlen : s.length = s.toList.length := rfl
      omega
theorem legacy_values (col : List Cell) :
    ∀ m : AssocMap, (∀ kv ∈ m, kv.2 = Legacy.classify kv.1) →
      ∀ kv ∈ Legacy.buildSrcInfoAux col m, kv.2 = Legacy.classify kv.1 := by
  induction col with
  | nil => intro m hm; exact hm
  | cons c col ih =>
    intro m hm
    cases c with
    | none =>
      rw [Legacy.buildSrcInfoAux]
      exact ih m hm
    | some s0 =>
      rw [Legacy.buildSrcInfoAux]
      refine ih _ ?_
      intro kv hkv
      rcases amSet_mem hkv with h1 | rfl
      · exact hm kv h1
      · rfl

theorem legacy_keys_mono (col : List Cell) :
    ∀ (m : AssocMap) (k : String), (amGet m k).isSome →
      (amGet (Legacy.buildSrcInfoAux col m) k).isSome := by
  induction col with
  | nil => intro m k h; exact h
  | cons c col ih =>
    intro m k h
    cases c with
    | none =>
      rw [Legacy.buildSrcInfoAux]
      exact ih m k h
    | some s0 =>
      rw [Legacy.buildSrcInfoAux]
      exact ih _ k ((amGet_amSet_isSome _ _ _ _).mpr (Or.inr h))

theorem legacy_mem_key {col : List Cell} {s0 : String} (h : some s0 ∈ col) :
    ∀ m : AssocMap, (amGet (Legacy.buildSrcInfoAux col m) (pyStrip s0)).isSome := by
  induction col with
  | nil => simp at h
  | cons c col ih =>
    intro m
    rcases List.mem_cons.mp h with h1 | h1
    · rw [← h1, Legacy.buildSrcInfoAux]
      exact legacy_keys_mono col _ _ ((amGet_amSet_isSome _ _ _ _).mpr (Or.inl rfl))
    · cases c with
      | none =>
        rw [Legacy.buildSrcInfoAux]
        exact ih h1 _
      | some s1 =>
        rw [Legacy.buildSrcInfoAux]
        exact ih h1 _

/-- Part 1 of the positional-mode refinement: a stripped identifier
appearing in the base identity column is registered with exactly the
classification computed from its fourth character. -/
theorem legacy_classified {col : List Cell} {s0 : String} (h : some s0 ∈ col) :
    amGet (Legacy.buildSrcInfo col) (pyStrip s0) =
      some (Legacy.classify (pyStrip s0)) := by
  have hs := legacy_mem_key h []
  rcases ho : amGet (Legacy.buildSrcInfo col) (pyStrip s0) with _ | v
  · unfold Legacy.buildSrcInfo at ho
    rw [ho] at hs
    simp at hs
  · have hv : v = Legacy.classify (pyStrip s0) :=
      legacy_values col [] (by simp) _ (amGet_mem ho)
    rw [hv]

/-- `o.or o'` on options (first defined wins). -/
def optOr (o o' : Option String) : Option String :=
  match o with
  | some a => some a
  | none => o'

theorem parentIds_append (m : AssocMap) (k v : String) :
    Legacy.parentIds (m ++ [(k, v)]) =
      Legacy.parentIds m ++ (if v = "parent_id" then [k] else []) := by
  unfold Legacy.parentIds
  rw [List.filter_append, List.map_append]
  congr 1
  by_cases h : v = "parent_id" <;> simp [h]

theorem legacy_first_parent (col : List Cell) :
    ∀ m : AssocMap, (∀ kv ∈ m, kv.2 = Legacy.classify kv.1) →
      (Legacy.parentIds (Legacy.buildSrcInfoAux col m)).head? =
        optOr (Legacy.parentIds m).head? (specFirstParent col) := by
  induction col with
  | nil =>
    intro m _
    rw [Legacy.buildSrcInfoAux]
    cases (Legacy.parentIds m).head? <;> rfl
  | cons c col ih =>
    intro m hm
    cases c with
    | none =>
      have hspec : specFirstParent (none :: col) = specFirstParent col := by
        simp [specFirstParent]
      rw [Legacy.buildSrcInfoAux, hspec]
      exact ih m hm
    | some s0 =>
      rw [Legacy.buildSrcInfoAux]
      have hspec : specFirstParent (some s0 :: col) =
          (if ((pyStrip s0).toList[3]? == some '3') = true then some (pyStrip s0)
           else specFirstParent col) := by
        unfold specFirstParent
        rw [List.filterMap_cons]
        simp only [Option.map_some']
        split_ifs with hp
        · exact List.find?_cons_of_pos _ hp
        · exact List.find?_cons_of_neg _ (by simpa using hp)
      rcases hg : amGet m (pyStrip s0) with _ | v0
      · rw [amSet_of_get_none _ hg]
        have hm2 : ∀ kv ∈ m ++ [(pyStrip s0, Legacy.classify (pyStrip s0))],
            kv.2 = Legacy.classify kv.1 := by
          intro kv hkv
          rcases List.mem_append.mp hkv with h1 | h1
          · exact hm kv h1
          · have he : kv = (pyStrip s0, Legacy.classify (pyStrip s0)) := by simpa using h1
            rw [he]
        rw [ih _ hm2, hspec, parentIds_append]
        by_cases hpred : ((pyStrip s0).toList[3]? == some '3') = true
        · rw [if_pos ((legacy_classify_parent_iff _).mpr hpred), if_pos hpred]
          cases hpm : Legacy.parentIds m with
          | nil => simp [hpm, optOr]
          | cons p0 ps => simp [hpm, optOr]
        · rw [if_neg (fun he => hpred ((legacy_classify_parent_iff _).mp he)), if_neg hpred]
          simp
      · have hv0 : v0 = Legacy.classify (pyStrip s0) := hm _ (amGet_mem hg)
        rw [hv0] at hg
        rw [amSet_of_get_eq hg, ih m hm, hspec]
        cases hpm : (Legacy.parentIds m).head? with
        | some p0 => rfl
        | none =>
          split_ifs with hpred
          · exfalso
            have hcls : Legacy.classify (pyStrip s0) = "parent_id" :=
              (legacy_classify_parent_iff _).mpr hpred
            have hmem : (pyStrip s0, "parent_id") ∈ m := by
              rw [← hcls]
              exact amGet_mem hg
            have hin : pyStrip s0 ∈ Legacy.parentIds m := by
              unfold Legacy.parentIds
              exact List.mem_map.mpr ⟨(pyStrip s0, "parent_id"),
                List.mem_filter.mpr ⟨hmem, by simp⟩, rfl⟩
            have hnil : Legacy.parentIds m = [] := by
              cases hl : Legacy.parentIds m with
              | nil => rfl
              | cons a l => rw [hl] at hpm; simp at hpm
            rw [hnil] at hin
            simp at hin
          · rfl

theorem legacy_parentRef_eq (info : AssocMap) :
    Legacy.parentRef info = ((Legacy.parentIds info).head?).getD "0000000000" := by
  unfold Legacy.parentRef
  cases Legacy.parentIds info <;> rfl

/-- Part 2 of the positional-mode refinement: the reference parent is the
first identifier of the column, in row order, whose fourth character
is '3'. -/
theorem legacy_parentRef_spec (col : List Cell) :
    Legacy.parentRef (Legacy.buildSrcInfo col) =
      (specFirstParent col).getD "0000000000" := by
  rw [legacy_parentRef_eq]
  unfold Legacy.buildSrcInfo
  rw [legacy_first_parent col [] (by simp)]
  rfl

/-! ### Pipeline inversion -/

theorem except_bind_ok {α β : Type} {x : Except String α} {f : α → Except String β} {out : β}
    (h : x.bind f = .ok out) : ∃ a, x = .ok a ∧ f a = .ok out := by
  cases x with
  | error e => simp [Except.bind] at h
  | ok a => exact ⟨a, rfl, by simpa [Except.bind] using h⟩

theorem requireCol_ok {t : Table} {n c : String} :
    requireCol t n = .ok c ↔ find_column t n = some c := by
  unfold requireCol
  cases h : find_column t n <;> simp

theorem processCore_ok {b0 b100 ad la lb : Table} {lm wy : Option Table}
    {pairs : List (String × String)} {out : ProcResult}
    (h : processCore b0 b100 ad la lb lm wy pairs = .ok out) :
    ∃ roleCol b0src adSrc adName laSrc lbSrc lbB,
      find_column (clean_headers b100) "Source_ID" = some roleCol ∧
      find_column (clean_headers b0) "Source_ID" = some b0src ∧
      find_column (clean_headers ad) "Source_ID" = some adSrc ∧
      find_column (clean_headers ad) "Name1" = some adName ∧
      find_column (clean_headers la) "Source_ID" = some laSrc ∧
      find_column (clean_headers lb) "Source_ID" = some lbSrc ∧
      find_column (clean_headers lb) "BUKRS" = some lbB ∧
      out = coreStages b0 b100 ad la lb lm wy pairs roleCol b0src adSrc adName laSrc lbSrc lbB := by
  unfold processCore at h
  obtain ⟨roleCol, h1, h⟩ := except_bind_ok h
  obtain ⟨b0src, h2, h⟩ := except_bind_ok h
  obtain ⟨adSrc, h3, h⟩ := except_bind_ok h
  obtain ⟨adName, h4, h⟩ := except_bind_ok h
  obtain ⟨laSrc, h5, h⟩ := except_bind_ok h
  obtain ⟨lbSrc, h6, h⟩ := except_bind_ok h
  obtain ⟨lbB, h7, h⟩ := except_bind_ok h
  exact ⟨roleCol, b0src, adSrc, adName, laSrc, lbSrc, lbB,
    requireCol_ok.mp h1, requireCol_ok.mp h2, requireCol_ok.mp h3, requireCol_ok.mp h4,
    requireCol_ok.mp h5, requireCol_ok.mp h6, requireCol_ok.mp h7,
    by simpa using h.symm⟩

theorem process_excel_ok {wb : List (String × Table)} {pairs : List (String × String)}
    {out : ProcResult} (h : process_excel wb pairs = .ok out) :
    ∃ b0 b100 ad la lb,
      sheetLookup wb nameBUT000 = some b0 ∧
      sheetLookup wb nameBUT100 = some b100 ∧
      sheetLookup wb nameADRC = some ad ∧
      sheetLookup wb nameLFA1 = some la ∧
      sheetLookup wb nameLFB1 = some lb ∧
      processCore b0 b100 ad la lb (sheetLookup wb nameLFM1) (sheetLookup wb nameWYT3) pairs =
        .ok out := by
  unfold process_excel at h
  rcases h1 : sheetLookup wb nameBUT000 with _ | b0 <;> rw [h1] at h
  · exact absurd h (by simp)
  rcases h2 : sheetLookup wb nameBUT100 with _ | b100 <;> rw [h2] at h
  · exact absurd h (by simp)
  rcases h3 : sheetLookup wb nameADRC with _ | ad <;> rw [h3] at h
  · exact absurd h (by simp)
  rcases h4 : sheetLookup wb nameLFA1 with _ | la <;> rw [h4] at h
  · exact absurd h (by simp)
  rcases h5 : sheetLookup wb nameLFB1 with _ | lb <;> rw [h5] at h
  · exact absurd h (by simp)
  exact ⟨b0, b100, ad, la, lb, rfl, rfl, rfl, rfl, rfl, h⟩

/-- The required-sheet check: the first required sheet missing from the
workbook (in the order of `required_sheets`) aborts the run with the
`ValueError` naming it, before anything is read or mutated. -/
theorem process_excel_missing (wb : List (String × Table)) (pairs : List (String × String))
    {s : String} (h : requiredSheets.find? (fun n => (sheetLookup wb n).isNone) = some s) :
    process_excel wb pairs = .error (missingSheetMsg s) := by
  unfold requiredSheets at h
  rcases h1 : sheetLookup wb nameBUT000 with _ | b0
  · have hs : s = nameBUT000 := by
      rw [List.find?_cons_of_pos _ (by simp [h1])] at h
      exact (Option.some.inj h).symm
    subst hs
    simp only [process_excel, h1]
  rw [List.find?_cons_of_neg _ (by simp [h1])] at h
  rcases h2 : sheetLookup wb nameBUT100 with _ | b100
  · have hs : s = nameBUT100 := by
      rw [List.find?_cons_of_pos _ (by simp [h2])] at h
      exact (Option.some.inj h).symm
    subst hs
    simp only [process_excel, h1, h2]
  rw [List.find?_cons_of_neg _ (by simp [h2])] at h
  rcases h3 : sheetLookup wb nameADRC with _ | ad
  · have hs : s = nameADRC := by
      rw [List.find?_cons_of_pos _ (by simp [h3])] at h
      exact (Option.some.inj h).symm
    subst hs
    simp only [process_excel, h1, h2, h3]
  rw [List.find?_cons_of_neg _ (by simp [h3])] at h
  rcases h4 : sheetLookup wb nameLFA1 with _ | la
  · have hs : s = nameLFA1 := by
      rw [List.find?_cons_of_pos _ (by simp [h4])] at h
      exact (Option.some.inj h).symm
    subst hs
    simp only [process_excel, h1, h2, h3, h4]
  rw [List.find?_cons_of_neg _ (by simp [h4])] at h
  rcases h5 : sheetLookup wb nameLFB1 with _ | lb
  · have hs : s = nameLFB1 := by
      rw [List.find?_cons_of_pos _ (by simp [h5])] at h
      exact (Option.some.inj h).symm
    subst hs
    simp only [process_excel, h1, h2, h3, h4, h5]
  rw [List.find?_cons_of_neg _ (by simp [h5])] at h
  simp at h

/-- The tables the mutation rules produce, plus the ledger - everything of
a run's output except the role table itself and the (unused downstream)
role annotations. -/
def mutatedView (r : ProcResult) :
    Table × Table × Table × Table × Option Table × Option Table × Ledger :=
  (r.but000, r.adrc, r.lfa1, r.lfb1, r.lfm1, r.wyt3, r.ledger)

/-- The role table feeds only the role annotations: two runs differing only
in the role table produce identical mutated tables and ledgers. -/
theorem processCore_role_independent (b0 b100a b100b ad la lb : Table)
    (lm wy : Option Table) (pairs : List (String × String)) {ca cb : String}
    (ha : find_column (clean_headers b100a) "Source_ID" = some ca)
    (hb : find_column (clean_headers b100b) "Source_ID" = some cb) :
    (processCore b0 b100a ad la lb lm wy pairs).map mutatedView =
      (processCore b0 b100b ad la lb lm wy pairs).map mutatedView := by
  unfold processCore
  have hra : requireCol (clean_headers b100a) "Source_ID" = .ok ca := requireCol_ok.mpr ha
  have hrb : requireCol (clean_headers b100b) "Source_ID" = .ok cb := requireCol_ok.mpr hb
  rw [hra, hrb]
  show ((requireCol (clean_headers b0) "Source_ID").bind _).map mutatedView =
    ((requireCol (clean_headers b0) "Source_ID").bind _).map mutatedView
  rcases requireCol (clean_headers b0) "Source_ID" with e | b0src
  · rfl
  rcases requireCol (clean_headers ad) "Source_ID" with e | adSrc
  · rfl
  rcases requireCol (clean_headers ad) "Name1" with e | adName
  · rfl
  rcases requireCol (clean_headers la) "Source_ID" with e | laSrc
  · rfl
  rcases requireCol (clean_headers lb) "Source_ID" with e | lbSrc
  · rfl
  rcases requireCol (clean_headers lb) "BUKRS" with e | lbB
  · rfl
  rfl

/-! ### Optional-sheet lemmas -/

theorem processLFM1opt_skip (si im : AssocMap) {t : Table} (led : Ledger)
    (hmiss : find_column (clean_headers t) "Source_ID" = none ∨
      find_column (clean_headers t) "EKORG" = none) :
    processLFM1opt si im (some t) led = (some (clean_headers t), led) := by
  rcases hmiss with h1 | h1
  · simp [processLFM1opt, h1]
  · rcases h2 : find_column (clean_headers t) "Source_ID" with _ | sC <;>
      simp [processLFM1opt, h1, h2]

theorem processWYT3opt_skip (si im : AssocMap) {t : Table} (led : Ledger)
    (hmiss : find_column (clean_headers t) "Source_ID" = none ∨
      find_column (clean_headers t) "EKORG" = none) :
    processWYT3opt si im (some t) led = (some (clean_headers t), led) := by
  rcases hmiss with h1 | h1
  · simp [processWYT3opt, h1]
  · rcases h2 : find_column (clean_headers t) "Source_ID" with _ | sC <;>
      simp [processWYT3opt, h1, h2]

theorem processLFM1opt_run (si im : AssocMap) {t : Table} (led : Ledger) {sC eC : String}
    (h1 : find_column (clean_headers t) "Source_ID" = some sC)
    (h2 : find_column (clean_headers t) "EKORG" = some eC) :
    processLFM1opt si im (some t) led =
      (some (processAssoc si im (clean_headers t) sC eC nameLFM1 led).1,
       (processAssoc si im (clean_headers t) sC eC nameLFM1 led).2) := by
  simp [processLFM1opt, h1, h2]

theorem processWYT3opt_run (si im : AssocMap) {t : Table} (led : Ledger) {sC eC : String}
    (h1 : find_column (clean_headers t) "Source_ID" = some sC)
    (h2 : find_column (clean_headers t) "EKORG" = some eC) :
    processWYT3opt si im (some t) led =
      (some (processWYT3 si im (clean_headers t) sC eC led).1,
       (processWYT3 si im (clean_headers t) sC eC led).2) := by
  simp [processWYT3opt, h1, h2]

theorem processLFM1opt_led_new (si im : AssocMap) (lm : Option Table) (led : Ledger)
    (e : Entry) (h : e ∈ (processLFM1opt si im lm led).2) :
    e ∈ led ∨ ∃ i c, e = (nameLFM1, i, c) := by
  rcases lm with _ | t
  · exact Or.inl h
  · rcases h1 : find_column (clean_headers t) "Source_ID" with _ | sC
    · rw [processLFM1opt_skip si im led (Or.inl h1)] at h
      exact Or.inl h
    rcases h2 : find_column (clean_headers t) "EKORG" with _ | eC
    · rw [processLFM1opt_skip si im led (Or.inr h2)] at h
      exact Or.inl h
    rw [processLFM1opt_run si im led h1 h2] at h
    exact processAssoc_led_new _ _ _ _ _ _ _ _ h

theorem processLFM1opt_led_mono (si im : AssocMap) (lm : Option Table) (led : Ledger)
    (e : Entry) (h : e ∈ led) : e ∈ (processLFM1opt si im lm led).2 := by
  rcases lm with _ | t
  · exact h
  · rcases h1 : find_column (clean_headers t) "Source_ID" with _ | sC
    · rw [processLFM1opt_skip si im led (Or.inl h1)]
      exact h
    rcases h2 : find_column (clean_headers t) "EKORG" with _ | eC
    · rw [processLFM1opt_skip si im led (Or.inr h2)]
      exact h
    rw [processLFM1opt_run si im led h1 h2]
    exact processAssoc_led_mono _ _ _ _ _ _ _ _ h

theorem processWYT3opt_led_new (si im : AssocMap) (wy : Option Table) (led : Ledger)
    (e : Entry) (h : e ∈ (processWYT3opt si im wy led).2) :
    e ∈ led ∨ ∃ i c, e = (nameWYT3, i, c) := by
  rcases wy with _ | t
  · exact Or.inl h
  · rcases h1 : find_column (clean_headers t) "Source_ID" with _ | sC
    · rw [processWYT3opt_skip si im led (Or.inl h1)] at h
      exact Or.inl h
    rcases h2 : find_column (clean_headers t) "EKORG" with _ | eC
    · rw [processWYT3opt_skip si im led (Or.inr h2)] at h
      exact Or.inl h
    rw [processWYT3opt_run si im led h1 h2] at h
    exact processWYT3_led_new _ _ _ _ _ _ _ h

/-! ### Concrete fixtures used by the witnesses and counterexamples -/

def pairs0 : List (String × String) := [("1000000003", "1000000004")]

def wbB0 : Table :=
  ⟨["Source_ID", "MC_NAME1", "NAME_ORG1"],
   [[some "1000000003", some "AA", some "BB"],
    [some "1000000004", some "AA", some "BB"]]⟩

def wbB100 : Table := ⟨["Source_ID"], [[some "1000000003"]]⟩

def wbAD : Table :=
  ⟨["Source_ID", "Name1"],
   [[some "1000000003", some "PN"],
    [some "1000000004", some "CN"]]⟩

def wbLA : Table := ⟨["Source_ID", "NAME1"], [[some "1000000003", some "PX"]]⟩

def wbLB : Table :=
  ⟨["Source_ID", "BUKRS"],
   [[some "1000000003", some "1000"],
    [some "1000000004", some "2000"]]⟩

def wbLM : Table := ⟨["Source_ID"], [[some "1000000003"]]⟩

def wbWY : Table :=
  ⟨["Source_ID", "EKORG", "PARVW"],
   [[some "1000000004", some "E1", some "lf"]]⟩

def wb0 : List (String × Table) :=
  [(nameBUT000, wbB0), (nameBUT100, wbB100), (nameADRC, wbAD),
   (nameLFA1, wbLA), (nameLFB1, wbLB), (nameLFM1, wbLM), (nameWYT3, wbWY)]

def out0 : ProcResult :=
  match process_excel wb0 pairs0 with
  | .ok r => r
  | .error _ => default

theorem out0_spec : process_excel wb0 pairs0 = .ok out0 := rfl

/-! ### Claim C2 -/

/-- Recording behaviour of `main.update_cell` (no NaN exception). -/
theorem legacy_update_cell_snd (t : Table) (idx : Nat) (col v : String) (led : Ledger)
    (sh : String) :
    (Legacy.update_cell t idx col v led sh).2 =
      if col ∈ t.cols ∧ pyStrip (cellStr (getCell t idx col)) ≠ pyStrip v then
        ledInsert led (sh, idx, col)
      else led := by
  simp only [Legacy.update_cell]
  split_ifs <;> first | rfl | tauto

/-- C2, counterexample to the claim as stated: the claim asserts that for
EVERY table mutator, writing an empty string over an absent (NaN) cell is
never recorded; `main.update_cell` (the legacy entry point's mutator) does
record it, while `commonsupplier.update_cell` does not. -/
theorem c2_counterexample :
    (Legacy.update_cell ⟨["A"], [[none]]⟩ 0 "A" "" [] "S").2 = [("S", 0, "A")] ∧
    (update_cell ⟨["A"], [[none]]⟩ 0 "A" "" [] "S").2 = [] := by decide

/-- C2, amended: a cell write is recorded exactly when the stripped
stringified values differ, except that the explicit-pairs entry point's
mutator (`commonsupplier.update_cell`) does not record a write of the empty
string over an absent (NaN) cell, whereas the legacy entry point's mutator
(`main.update_cell`) records every stripped-differing write, including
empty-over-absent; in the explicit-pairs entry point the clear rule on an
already-blank or absent cell never produces a record. -/
theorem c2_recording :
    (∀ (t : Table) (idx : Nat) (col v : String) (led : Ledger) (sh : String) (e : Entry),
      e ∈ (update_cell t idx col v led sh).2 ↔
        e ∈ led ∨ (e = (sh, idx, col) ∧ col ∈ t.cols ∧
          pyStrip (cellStr (getCell t idx col)) ≠ pyStrip v ∧
          ¬(getCell t idx col = none ∧ v = ""))) ∧
    (∀ (t : Table) (idx : Nat) (col v : String) (led : Ledger) (sh : String) (e : Entry),
      e ∈ (Legacy.update_cell t idx col v led sh).2 ↔
        e ∈ led ∨ (e = (sh, idx, col) ∧ col ∈ t.cols ∧
          pyStrip (cellStr (getCell t idx col)) ≠ pyStrip v)) ∧
    (∀ (t : Table) (idx : Nat) (col : String) (led : Ledger) (sh : String),
      (getCell t idx col = none ∨ pyStrip (cellStr (getCell t idx col)) = "") →
        (update_cell t idx col "" led sh).2 = led) := by
  refine ⟨?_, ?_, ?_⟩
  · intro t idx col v led sh e
    rw [update_cell_snd]
    split_ifs with hcond
    · rw [mem_ledInsert]
      tauto
    · tauto
  · intro t idx col v led sh e
    rw [legacy_update_cell_snd]
    split_ifs with hcond
    · rw [mem_ledInsert]
      tauto
    · tauto
  · intro t idx col led sh hblank
    rw [update_cell_snd]
    split_ifs with hcond
    · exfalso
      rcases hblank with hb | hb
      · exact hcond.2.2 ⟨hb, rfl⟩
      · exact hcond.2.1 (by rw [hb]; decide)
    · rfl

/-- Witness for C2's amended theorem: clearing a whitespace-only cell is
not recorded. -/
theorem c2_witness :
    (update_cell ⟨["A"], [[some "  "]]⟩ 0 "A" "" [] "S").2 = [] :=
  c2_recording.2.2 ⟨["A"], [[some "  "]]⟩ 0 "A" [] "S" (Or.inr (by decide))

/-! ### Claim C4 -/

/-- C4, counterexample to the claim as stated: with the pair list
[(A, B), (B, A)] the identifier B ends classified `parent_id` (last write
wins) yet is a key of the identity map, so "every key is a child" and
"a parent never appears as a key" both fail. -/
theorem c4_counterexample :
    amGet (buildSrcInfo [("1000000003", "1000000004"), ("1000000004", "1000000003")])
      "1000000004" = some "parent_id" ∧
    (amGet (buildIdMap [("1000000003", "1000000004"), ("1000000004", "1000000003")])
      "1000000004").isSome = true := by decide

/-- C4, amended: provided no identifier occurs (stripped) both as the
parent of one pair and as the child of another, the identity map built from
the pairs satisfies the claimed invariants: every key is classified
`child_id`; the keys are exactly the stripped children of the pair list;
no identifier classified `parent_id` is a key; and each child maps to
exactly one parent. -/
theorem c4_identity_map (pairs : List (String × String))
    (hD : ∀ pr ∈ pairs, ∀ pr1 ∈ pairs, pyStrip pr.1 ≠ pyStrip pr1.2) :
    (∀ k, (amGet (buildIdMap pairs) k).isSome →
      amGet (buildSrcInfo pairs) k = some "child_id") ∧
    (∀ k, (amGet (buildIdMap pairs) k).isSome ↔ ∃ pr ∈ pairs, pyStrip pr.2 = k) ∧
    (∀ k, amGet (buildSrcInfo pairs) k = some "parent_id" →
      amGet (buildIdMap pairs) k = none) ∧
    (∀ k v v1, amGet (buildIdMap pairs) k = some v →
      amGet (buildIdMap pairs) k = some v1 → v = v1) := by
  have hchild : ∀ k, (amGet (buildIdMap pairs) k).isSome →
      amGet (buildSrcInfo pairs) k = some "child_id" := by
    intro k hk
    exact idMap_child pairs [] [] hD (by intro k0 hk0; simp [amGet] at hk0)
      (by intro pr _; rfl) k hk
  refine ⟨hchild, ?_, ?_, ?_⟩
  · intro k
    have := idMap_keys pairs [] k
    unfold buildIdMap
    rw [this]
    simp [amGet]
  · intro k hp
    cases hg : amGet (buildIdMap pairs) k with
    | none => rfl
    | some v =>
      have := hchild k (by rw [hg]; rfl)
      rw [this] at hp
      exact absurd (Option.some.inj hp) (by decide)
  · intro k v v1 h1 h2
    rw [h1] at h2
    exact Option.some.inj h2

/-- Witness for C4's amended theorem at a concrete disjoint pair list. -/
theorem c4_witness :
    amGet (buildSrcInfo pairs0) "1000000004" = some "child_id" :=
  (c4_identity_map pairs0 (by decide)).1 "1000000004" (by decide)

/-! ### Claim C5 -/

/-- C5: in positional (legacy) mode every identifier of the base identity
column is classified parent exactly when the character at zero-based index
3 is '3' (and child otherwise), and the reference parent is the first such
identifier in table row order (`specFirstParent`, written after the spec's
words, with "0000000000" when there is none). -/
theorem c5_positional (col : List Cell) :
    (∀ s0, some s0 ∈ col →
      amGet (Legacy.buildSrcInfo col) (pyStrip s0) =
        some (if ((pyStrip s0).toList[3]? == some '3') = true then "parent_id"
              else "child_id")) ∧
    Legacy.parentRef (Legacy.buildSrcInfo col) = (specFirstParent col).getD "0000000000" := by
  constructor
  · intro s0 h
    rw [legacy_classified h]
    congr 1
    by_cases hp : (((pyStrip s0).toList[3]? == some '3') = true)
    · rw [if_pos hp]
      exact (legacy_classify_parent_iff _).mpr hp
    · rw [if_neg hp]
      unfold Legacy.classify
      rw [if_neg ?_]
      intro hc
      exact hp (by simpa using hc.2)
  · exact legacy_parentRef_spec col

/-- Witness for C5 at a concrete two-identifier column (the first
identifier has '3' at zero-based index 3). -/
theorem c5_witness :
    amGet (Legacy.buildSrcInfo [some "1003000000", some "1000000004"])
        (pyStrip "1003000000") = some "parent_id" ∧
    Legacy.parentRef (Legacy.buildSrcInfo [some "1003000000", some "1000000004"]) =
      "1003000000" :=
  ⟨((c5_positional [some "1003000000", some "1000000004"]).1 "1003000000"
      (by decide)).trans (by decide),
   ((c5_positional [some "1003000000", some "1000000004"]).2).trans (by decide)⟩

/-! ### Claim C1 -/

/-- C1, counterexample to the claim as stated: in an LFB1 table whose
`_ACTION_CODE` column already holds the whitespace-padded value " I " on a
qualifying child row, `update_cell` skips the write (the stripped values
agree), so the final `_ACTION_CODE` cell is NOT the string "I" even though
the row's code value is non-blank and absent from the parent's set. -/
theorem c1_counterexample :
    isChildRow (buildSrcInfo pairs0)
      ⟨["Source_ID", "BUKRS", "_ACTION_CODE"],
       [[some "1000000003", some "1000", some ""],
        [some "1000000004", some "2000", some " I "]]⟩ "Source_ID" 1 ∧
    pyStrip (cellStr (getCell
      ⟨["Source_ID", "BUKRS", "_ACTION_CODE"],
       [[some "1000000003", some "1000", some ""],
        [some "1000000004", some "2000", some " I "]]⟩ 1 "BUKRS")) = "2000" ∧
    inCodes (ensure_column
      ⟨["Source_ID", "BUKRS", "_ACTION_CODE"],
       [[some "1000000003", some "1000", some ""],
        [some "1000000004", some "2000", some " I "]]⟩ "_ACTION_CODE")
      "Source_ID" "BUKRS" "1000000003" "2000" = false ∧
    getCell (processAssoc (buildSrcInfo pairs0) (buildIdMap pairs0)
      ⟨["Source_ID", "BUKRS", "_ACTION_CODE"],
       [[some "1000000003", some "1000", some ""],
        [some "1000000004", some "2000", some " I "]]⟩
      "Source_ID" "BUKRS" nameLFB1 []).1 1 "_ACTION_CODE" ≠ some "I" := by decide

/-- C1, amended: for every row of an association table (the shared
LFB1/LFM1 reconciliation `processAssoc`, and the WYT3 variant
`processWYT3`) whose identifier is classified child: if the row's stripped
code value is non-blank and not among the parent's code values (computed by
`inCodes` from the table state before any rewrite of the pass), the row's
final `_ACTION_CODE` value STRIPS to "I" (it is exactly "I" unless the cell
already held a whitespace-padded "I") and the row's final identifier value
strips to the parent identifier; otherwise the row is left untouched (for
WYT3: its `_ACTION_CODE` and identifier cells are unchanged). -/
theorem c1_reconciliation :
    (∀ (si im : AssocMap) (t : Table) (sc cc sh : String) (led : Ledger) (i : Nat),
      TableWF t → i < t.rows.length → sc ∈ t.cols → cc ∈ t.cols →
      sc ≠ "_ACTION_CODE" → isChildRow si t sc i →
        ((pyStrip (cellStr (getCell t i cc)) ≠ "" ∧
            inCodes (ensure_column t "_ACTION_CODE") sc cc
              ((amGet im (pyStrip (cellStr (getCell t i sc)))).getD "0000000000")
              (pyStrip (cellStr (getCell t i cc))) = false →
          pyStrip (cellStr
            (getCell (processAssoc si im t sc cc sh led).1 i "_ACTION_CODE")) = "I" ∧
          pyStrip (cellStr (getCell (processAssoc si im t sc cc sh led).1 i sc)) =
            pyStrip ((amGet im (pyStrip (cellStr (getCell t i sc)))).getD "0000000000")) ∧
         (¬ (pyStrip (cellStr (getCell t i cc)) ≠ "" ∧
            inCodes (ensure_column t "_ACTION_CODE") sc cc
              ((amGet im (pyStrip (cellStr (getCell t i sc)))).getD "0000000000")
              (pyStrip (cellStr (getCell t i cc))) = false) →
          (processAssoc si im t sc cc sh led).1.rows[i]? =
            (ensure_column t "_ACTION_CODE").rows[i]?))) ∧
    (∀ (si im : AssocMap) (t : Table) (sc cc : String) (led : Ledger) (i : Nat),
      TableWF t → i < t.rows.length → sc ∈ t.cols → cc ∈ t.cols →
      sc ≠ "_ACTION_CODE" → sc ≠ "DEFPA" → isChildRow si t sc i →
        ((pyStrip (cellStr (getCell t i cc)) ≠ "" ∧
            inCodes (ensure_column t "_ACTION_CODE") sc cc
              ((amGet im (pyStrip (cellStr (getCell t i sc)))).getD "0000000000")
              (pyStrip (cellStr (getCell t i cc))) = false →
          pyStrip (cellStr
            (getCell (processWYT3 si im t sc cc led).1 i "_ACTION_CODE")) = "I" ∧
          pyStrip (cellStr (getCell (processWYT3 si im t sc cc led).1 i sc)) =
            pyStrip ((amGet im (pyStrip (cellStr (getCell t i sc)))).getD "0000000000")) ∧
         (¬ (pyStrip (cellStr (getCell t i cc)) ≠ "" ∧
            inCodes (ensure_column t "_ACTION_CODE") sc cc
              ((amGet im (pyStrip (cellStr (getCell t i sc)))).getD "0000000000")
              (pyStrip (cellStr (getCell t i cc))) = false) →
          getCell (processWYT3 si im t sc cc led).1 i "_ACTION_CODE" =
            getCell (ensure_column (ensure_column t "_ACTION_CODE") "DEFPA")
              i "_ACTION_CODE" ∧
          getCell (processWYT3 si im t sc cc led).1 i sc = getCell t i sc))) := by
  constructor
  · intro si im t sc cc sh led i hwf hi hscm hccm hsne hch
    constructor
    · intro hq
      exact processAssoc_row_pos si im sh led hwf hi hscm hccm hsne hch hq.1 hq.2
    · intro hq
      exact processAssoc_row_neg si im sh led hwf hi hscm hccm hq
  · intro si im t sc cc led i hwf hi hscm hccm hsne hscd hch
    constructor
    · intro hq
      exact processWYT3_row_pos si im led hwf hi hscm hccm hsne hscd hch hq.1 hq.2
    · intro hq
      exact processWYT3_row_neg si im led hwf hi hscm hccm hscd hq

/-- Witness for C1's amended theorem: the qualifying child row of a clean
LFB1 table gets `_ACTION_CODE` stripping to "I" and its identifier
stripping to the parent. -/
theorem c1_witness :
    pyStrip (cellStr (getCell (processAssoc (buildSrcInfo pairs0) (buildIdMap pairs0)
        wbLB "Source_ID" "BUKRS" nameLFB1 []).1 1 "_ACTION_CODE")) = "I" ∧
    pyStrip (cellStr (getCell (processAssoc (buildSrcInfo pairs0) (buildIdMap pairs0)
        wbLB "Source_ID" "BUKRS" nameLFB1 []).1 1 "Source_ID")) =
      pyStrip ((amGet (buildIdMap pairs0)
        (pyStrip (cellStr (getCell wbLB 1 "Source_ID")))).getD "0000000000") :=
  (c1_reconciliation.1 (buildSrcInfo pairs0) (buildIdMap pairs0) wbLB
      "Source_ID" "BUKRS" nameLFB1 [] 1 (by decide) (by decide) (by decide)
      (by decide) (by decide) (by decide)).1 (by decide)

/-! ### Claim C3 -/

/-- C3, counterexample to the claim as stated: a child row of the Address
table whose Name1 cell already holds a whitespace-padded
" COMMON SUPPLIER 1000000003 " is NOT rewritten (the stripped values
agree), so its final Name1 value is not exactly "COMMON SUPPLIER "
followed by the parent. -/
theorem c3_counterexample :
    isChildRow (buildSrcInfo pairs0)
      ⟨["Source_ID", "Name1"],
       [[some "1000000004", some " COMMON SUPPLIER 1000000003 "]]⟩ "Source_ID" 0 ∧
    amGet (buildIdMap pairs0) "1000000004" = some "1000000003" ∧
    getCell (processADRC (buildSrcInfo pairs0) (buildIdMap pairs0)
      ⟨["Source_ID", "Name1"],
       [[some "1000000004", some " COMMON SUPPLIER 1000000003 "]]⟩
      "Source_ID" "Name1" []).1 0 "Name1" ≠
      some ("COMMON SUPPLIER " ++ "1000000003") := by decide

/-- C3, amended: after processing, every configured name column of a child
row (MC_NAME1 and NAME_ORG1 in the General table, the resolved Name1 column
in the Address table, NAME1 in the Supplier-General table, when the column
is present) holds a value that STRIPS to "COMMON SUPPLIER " followed by the
parent identifier; it is exactly that string unless the cell already held a
whitespace-padded variant of it, in which case the cell is left unchanged. -/
theorem c3_rename :
    (∀ (si im : AssocMap) (t : Table) (sc : String) (led : Ledger) (i : Nat),
      TableWF t → i < t.rows.length → isChildRow si t sc i →
      ∀ c ∈ colsNameB0, c ∈ t.cols →
        pyStrip (cellStr (getCell (processBUT000 si im t sc led).1 i c)) =
          pyStrip ("COMMON SUPPLIER " ++
            ((amGet im (pyStrip (cellStr (getCell t i sc)))).getD "0000000000"))) ∧
    (∀ (si im : AssocMap) (t : Table) (sc nc : String) (led : Ledger) (i : Nat),
      TableWF t → i < t.rows.length → isChildRow si t sc i → nc ∈ t.cols →
        pyStrip (cellStr (getCell (processADRC si im t sc nc led).1 i nc)) =
          pyStrip ("COMMON SUPPLIER " ++
            ((amGet im (pyStrip (cellStr (getCell t i sc)))).getD "0000000000"))) ∧
    (∀ (si im : AssocMap) (t : Table) (sc : String) (led : Ledger) (i : Nat),
      TableWF t → i < t.rows.length → isChildRow si t sc i →
      ∀ c ∈ colsReplaceLFA1, c ∈ t.cols →
        pyStrip (cellStr (getCell (processLFA1 si im t sc led).1 i c)) =
          pyStrip ("COMMON SUPPLIER " ++
            ((amGet im (pyStrip (cellStr (getCell t i sc)))).getD "0000000000"))) := by
  refine ⟨?_, ?_, ?_⟩
  · intro si im t sc led i hwf hi hch c hcn hc
    exact processBUT000_child_name si im led hwf hi hch hcn hc
  · intro si im t sc nc led i hwf hi hch hnc
    exact processADRC_child_name si im nc led hwf hi hch hnc
  · intro si im t sc led i hwf hi hch c hcn hc
    exact processLFA1_child_name si im led hwf hi hch hcn hc

/-- Witness for C3's amended theorem on a clean Address table. -/
theorem c3_witness :
    pyStrip (cellStr (getCell (processADRC (buildSrcInfo pairs0) (buildIdMap pairs0)
        wbAD "Source_ID" "Name1" []).1 1 "Name1")) =
      pyStrip ("COMMON SUPPLIER " ++
        ((amGet (buildIdMap pairs0)
          (pyStrip (cellStr (getCell wbAD 1 "Source_ID")))).getD "0000000000")) :=
  c3_rename.2.1 (buildSrcInfo pairs0) (buildIdMap pairs0) wbAD "Source_ID" "Name1" [] 1
    (by decide) (by decide) (by decide) (by decide)

/-! ### Claim C7 -/

/-- C7, counterexample to the claim as stated: on a WYT3 row whose PARVW
value upper-strips to "LF" but whose DEFPA cell already holds the
whitespace-padded " X ", `update_cell` skips the write, so the final DEFPA
value is NOT the string "X" and no ledger entry is recorded. -/
theorem c7_counterexample :
    findParvw (ensure_column
      ⟨["Source_ID", "EKORG", "PARVW", "DEFPA"],
       [[some "1000000003", some "E1", some "lf", some " X "]]⟩
      "_ACTION_CODE") = some "PARVW" ∧
    pyUpper (pyStrip (cellStr (getCell
      ⟨["Source_ID", "EKORG", "PARVW", "DEFPA"],
       [[some "1000000003", some "E1", some "lf", some " X "]]⟩ 0 "PARVW"))) = "LF" ∧
    getCell (processWYT3 (buildSrcInfo pairs0) (buildIdMap pairs0)
      ⟨["Source_ID", "EKORG", "PARVW", "DEFPA"],
       [[some "1000000003", some "E1", some "lf", some " X "]]⟩
      "Source_ID" "EKORG" []).1 0 "DEFPA" ≠ some "X" ∧
    (nameWYT3, 0, "DEFPA") ∉ (processWYT3 (buildSrcInfo pairs0) (buildIdMap pairs0)
      ⟨["Source_ID", "EKORG", "PARVW", "DEFPA"],
       [[some "1000000003", some "E1", some "lf", some " X "]]⟩
      "Source_ID" "EKORG" []).2 := by decide

/-- C7, amended: in the WYT3 pass, on every row whose resolved PARVW value
strips and upper-cases to "LF", the final DEFPA value STRIPS to "X"; the
write is recorded in the ledger exactly when the pre-pass DEFPA cell (after
the `_ACTION_CODE` and DEFPA columns are ensured) does not already strip
to "X". -/
theorem c7_defpa :
    ∀ (si im : AssocMap) (t : Table) (sc cc : String) (led : Ledger) (i : Nat)
      (pc : String), TableWF t → i < t.rows.length → sc ≠ "DEFPA" →
      findParvw (ensure_column t "_ACTION_CODE") = some pc →
      pyUpper (pyStrip (cellStr (getCell t i pc))) = "LF" →
        pyStrip (cellStr (getCell (processWYT3 si im t sc cc led).1 i "DEFPA")) = "X" ∧
        (pyStrip (cellStr (getCell
            (ensure_column (ensure_column t "_ACTION_CODE") "DEFPA") i "DEFPA")) ≠ "X" →
          (nameWYT3, i, "DEFPA") ∈ (processWYT3 si im t sc cc led).2) ∧
        (pyStrip (cellStr (getCell
            (ensure_column (ensure_column t "_ACTION_CODE") "DEFPA") i "DEFPA")) = "X" →
          (nameWYT3, i, "DEFPA") ∉ led →
          (nameWYT3, i, "DEFPA") ∉ (processWYT3 si im t sc cc led).2) := by
  intro si im t sc cc led i pc hwf hi hscd hpc hhit
  refine ⟨processWYT3_defpa_value si im cc led hwf hi hpc hhit, ?_, ?_⟩
  · intro hdiffer
    exact processWYT3_defpa_recorded si im cc led hwf hi hscd hpc hhit hdiffer
  · intro hkeep hled
    exact processWYT3_defpa_not_recorded si im cc led hscd hkeep hled

/-- Witness for C7's amended theorem: a WYT3 row with PARVW "LF" and no
pre-existing DEFPA column gets DEFPA "X" and the write is recorded. -/
theorem c7_witness :
    pyStrip (cellStr (getCell (processWYT3 (buildSrcInfo pairs0) (buildIdMap pairs0)
        ⟨["Source_ID", "EKORG", "PARVW"],
         [[some "1000000003", some "E1", some "LF"]]⟩
        "Source_ID" "EKORG" []).1 0 "DEFPA")) = "X" ∧
    (nameWYT3, 0, "DEFPA") ∈ (processWYT3 (buildSrcInfo pairs0) (buildIdMap pairs0)
        ⟨["Source_ID", "EKORG", "PARVW"],
         [[some "1000000003", some "E1", some "LF"]]⟩
        "Source_ID" "EKORG" []).2 := by
  have h := c7_defpa (buildSrcInfo pairs0) (buildIdMap pairs0)
    ⟨["Source_ID", "EKORG", "PARVW"],
     [[some "1000000003", some "E1", some "LF"]]⟩
    "Source_ID" "EKORG" [] 0 "PARVW" (by decide) (by decide) (by decide)
    (by decide) (by decide)
  exact ⟨h.1, h.2.1 (by decide)⟩

/-! ### Claim C6 -/

/-- Ledger provenance across the whole core pipeline: every final ledger
entry comes from one of the six passes, and the ADRC and LFA1 entries only
from child rows of their sheets. -/
theorem coreStages_led_new (b0 b100 ad la lb : Table) (lm wy : Option Table)
    (pairs : List (String × String)) (roleCol b0src adSrc adName laSrc lbSrc lbB : String)
    (e : Entry)
    (h : e ∈ (coreStages b0 b100 ad la lb lm wy pairs roleCol b0src adSrc adName laSrc
      lbSrc lbB).ledger) :
    (∃ i c, e = (nameBUT000, i, c)) ∨
    (∃ i, isChildRow (buildSrcInfo pairs) (clean_headers ad) adSrc i ∧
      ∃ c, e = (nameADRC, i, c)) ∨
    (∃ i, isChildRow (buildSrcInfo pairs) (clean_headers la) laSrc i ∧
      ∃ c, e = (nameLFA1, i, c)) ∨
    (∃ i c, e = (nameLFB1, i, c)) ∨
    (∃ i c, e = (nameLFM1, i, c)) ∨
    (∃ i c, e = (nameWYT3, i, c)) := by
  have h0 : (coreStages b0 b100 ad la lb lm wy pairs roleCol b0src adSrc adName laSrc
      lbSrc lbB).ledger =
      (processWYT3opt (buildSrcInfo pairs) (buildIdMap pairs) wy
        (processLFM1opt (buildSrcInfo pairs) (buildIdMap pairs) lm
          (processAssoc (buildSrcInfo pairs) (buildIdMap pairs) (clean_headers lb)
            lbSrc lbB nameLFB1
            (processLFA1 (buildSrcInfo pairs) (buildIdMap pairs) (clean_headers la) laSrc
              (processADRC (buildSrcInfo pairs) (buildIdMap pairs) (clean_headers ad)
                adSrc adName
                (processBUT000 (buildSrcInfo pairs) (buildIdMap pairs) (clean_headers b0)
                  b0src []).2).2).2).2).2).2 := rfl
  rw [h0] at h
  rcases processWYT3opt_led_new _ _ _ _ _ h with h | hW
  · rcases processLFM1opt_led_new _ _ _ _ _ h with h | hM
    · rcases processAssoc_led_new _ _ _ _ _ _ _ _ h with h | hB1
      · rcases processLFA1_led_new _ _ _ _ _ _ h with h | hL
        · rcases processADRC_led_new _ _ _ _ _ _ _ h with h | hA
          · rcases processBUT000_led_new _ _ _ _ _ _ h with h | hB0
            · exact absurd h (by simp)
            · exact Or.inl hB0
          · exact Or.inr (Or.inl hA)
        · exact Or.inr (Or.inr (Or.inl hL))
      · exact Or.inr (Or.inr (Or.inr (Or.inl hB1)))
    · exact Or.inr (Or.inr (Or.inr (Or.inr (Or.inl hM))))
  · exact Or.inr (Or.inr (Or.inr (Or.inr (Or.inr hW))))

/-- C6: in a successful run of the explicit-pairs entry point, a row of the
Address (ADRC) or Supplier-General (LFA1) sheet whose resolved `Source_ID`
value is classified `parent_id` is carried through to the output unchanged,
and no mutation-ledger entry names that sheet and row. -/
theorem c6_parent_untouched :
    ∀ (wb : List (String × Table)) (pairs : List (String × String)) (out : ProcResult),
      process_excel wb pairs = .ok out →
      (∀ (tAd : Table) (aSrc : String) (j : Nat),
        sheetLookup wb nameADRC = some tAd → TableWF tAd →
        find_column (clean_headers tAd) "Source_ID" = some aSrc →
        j < tAd.rows.length →
        amGet (buildSrcInfo pairs)
          (pyStrip (cellStr (getCell (clean_headers tAd) j aSrc))) = some "parent_id" →
          out.adrc.rows[j]? = tAd.rows[j]? ∧
          ∀ c, (nameADRC, j, c) ∉ out.ledger) ∧
      (∀ (tLa : Table) (lSrc : String) (j : Nat),
        sheetLookup wb nameLFA1 = some tLa → TableWF tLa →
        find_column (clean_headers tLa) "Source_ID" = some lSrc →
        j < tLa.rows.length →
        amGet (buildSrcInfo pairs)
          (pyStrip (cellStr (getCell (clean_headers tLa) j lSrc))) = some "parent_id" →
          out.lfa1.rows[j]? = tLa.rows[j]? ∧
          ∀ c, (nameLFA1, j, c) ∉ out.ledger) := by
  intro wb pairs out hok
  obtain ⟨b0, b100, ad, la, lb, hs1, hs2, hs3, hs4, hs5, hcore⟩ := process_excel_ok hok
  obtain ⟨roleCol, b0src, adSrc, adName, laSrc, lbSrc, lbB,
    hf1, hf2, hf3, hf4, hf5, hf6, hf7, hout⟩ := processCore_ok hcore
  constructor
  · intro tAd aSrc j hsAd hwf hfc hj hpar
    have had : ad = tAd := by
      rw [hs3] at hsAd
      exact Option.some.inj hsAd
    subst had
    have hsrc : adSrc = aSrc := by
      rw [hf3] at hfc
      exact Option.some.inj hfc
    subst hsrc
    have hp : ¬ isChildRow (buildSrcInfo pairs) (clean_headers ad) adSrc j := by
      intro hch
      unfold isChildRow at hch
      rw [hpar] at hch
      exact absurd (Option.some.inj hch) (by decide)
    constructor
    · have hproj : out.adrc = (processADRC (buildSrcInfo pairs) (buildIdMap pairs)
          (clean_headers ad) adSrc adName
          (processBUT000 (buildSrcInfo pairs) (buildIdMap pairs) (clean_headers b0)
            b0src []).2).1 := by
        rw [hout]
        rfl
      have hcwf : TableWF (clean_headers ad) := clean_headers_wf hwf
      have hjc : j < (clean_headers ad).rows.length := by
        rw [clean_headers_rows]
        exact hj
      rw [hproj, processADRC_parent_row _ _ _ _ _ hcwf hjc hp, clean_headers_rows]
    · intro c hmem
      rw [hout] at hmem
      rcases coreStages_led_new _ _ _ _ _ _ _ _ _ _ _ _ _ _ _ _ hmem with
        ⟨i, c2, he⟩ | ⟨i, hch, c2, he⟩ | ⟨i, hch, c2, he⟩ | ⟨i, c2, he⟩ |
        ⟨i, c2, he⟩ | ⟨i, c2, he⟩
      · exact absurd (show nameADRC = nameBUT000 from congrArg Prod.fst he) (by decide)
      · have hji : j = i := congrArg (fun p => p.2.1) he
        rw [← hji] at hch
        exact hp hch
      · exact absurd (show nameADRC = nameLFA1 from congrArg Prod.fst he) (by decide)
      · exact absurd (show nameADRC = nameLFB1 from congrArg Prod.fst he) (by decide)
      · exact absurd (show nameADRC = nameLFM1 from congrArg Prod.fst he) (by decide)
      · exact absurd (show nameADRC = nameWYT3 from congrArg Prod.fst he) (by decide)
  · intro tLa lSrc j hsLa hwf hfc hj hpar
    have hla : la = tLa := by
      rw [hs4] at hsLa
      exact Option.some.inj hsLa
    subst hla
    have hsrc : laSrc = lSrc := by
      rw [hf5] at hfc
      exact Option.some.inj hfc
    subst hsrc
    have hp : ¬ isChildRow (buildSrcInfo pairs) (clean_headers la) laSrc j := by
      intro hch
      unfold isChildRow at hch
      rw [hpar] at hch
      exact absurd (Option.some.inj hch) (by decide)
    constructor
    · have hproj : out.lfa1 = (processLFA1 (buildSrcInfo pairs) (buildIdMap pairs)
          (clean_headers la) laSrc
          (processADRC (buildSrcInfo pairs) (buildIdMap pairs) (clean_headers ad)
            adSrc adName
            (processBUT000 (buildSrcInfo pairs) (buildIdMap pairs) (clean_headers b0)
              b0src []).2).2).1 := by
        rw [hout]
        rfl
      have hcwf : TableWF (clean_headers la) := clean_headers_wf hwf
      have hjc : j < (clean_headers la).rows.length := by
        rw [clean_headers_rows]
        exact hj
      rw [hproj, processLFA1_parent_row _ _ _ _ hcwf hjc hp, clean_headers_rows]
    · intro c hmem
      rw [hout] at hmem
      rcases coreStages_led_new _ _ _ _ _ _ _ _ _ _ _ _ _ _ _ _ hmem with
        ⟨i, c2, he⟩ | ⟨i, hch, c2, he⟩ | ⟨i, hch, c2, he⟩ | ⟨i, c2, he⟩ |
        ⟨i, c2, he⟩ | ⟨i, c2, he⟩
      · exact absurd (show nameLFA1 = nameBUT000 from congrArg Prod.fst he) (by decide)
      · exact absurd (show nameLFA1 = nameADRC from congrArg Prod.fst he) (by decide)
      · have hji : j = i := congrArg (fun p => p.2.1) he
        rw [← hji] at hch
        exact hp hch
      · exact absurd (show nameLFA1 = nameLFB1 from congrArg Prod.fst he) (by decide)
      · exact absurd (show nameLFA1 = nameLFM1 from congrArg Prod.fst he) (by decide)
      · exact absurd (show nameLFA1 = nameWYT3 from congrArg Prod.fst he) (by decide)

/-- Witness for C6 on the concrete workbook: the parent row of the Address
sheet survives a full run unchanged and its Name1 cell is never recorded. -/
theorem c6_witness :
    out0.adrc.rows[0]? = wbAD.rows[0]? ∧ (nameADRC, 0, "Name1") ∉ out0.ledger := by
  have h := (c6_parent_untouched wb0 pairs0 out0 out0_spec).1 wbAD "Source_ID" 0
    (by decide) (by decide) (by decide) (by decide) (by decide)
  exact ⟨h.1, h.2 "Name1"⟩

/-! ### Claim C8 -/

/-- Every ledger entry of the first four (required-sheet) passes names one
of the four required mutated sheets. -/
theorem stagesLFB1_led_sheets (pairs : List (String × String)) (b0 ad la lb : Table)
    (b0src adSrc adName laSrc lbSrc lbB : String) (e : Entry)
    (h : e ∈ (processAssoc (buildSrcInfo pairs) (buildIdMap pairs) (clean_headers lb)
      lbSrc lbB nameLFB1
      (processLFA1 (buildSrcInfo pairs) (buildIdMap pairs) (clean_headers la) laSrc
        (processADRC (buildSrcInfo pairs) (buildIdMap pairs) (clean_headers ad)
          adSrc adName
          (processBUT000 (buildSrcInfo pairs) (buildIdMap pairs) (clean_headers b0)
            b0src []).2).2).2).2) :
    (∃ i c, e = (nameBUT000, i, c)) ∨ (∃ i c, e = (nameADRC, i, c)) ∨
    (∃ i c, e = (nameLFA1, i, c)) ∨ (∃ i c, e = (nameLFB1, i, c)) := by
  rcases processAssoc_led_new _ _ _ _ _ _ _ _ h with h | hB1
  · rcases processLFA1_led_new _ _ _ _ _ _ h with h | ⟨i, _, c, he⟩
    · rcases processADRC_led_new _ _ _ _ _ _ _ h with h | ⟨i, _, c, he⟩
      · rcases processBUT000_led_new _ _ _ _ _ _ h with h | hB0
        · exact absurd h (by simp)
        · exact Or.inl hB0
      · exact Or.inr (Or.inl ⟨i, c, he⟩)
    · exact Or.inr (Or.inr (Or.inl ⟨i, c, he⟩))
  · exact Or.inr (Or.inr (Or.inr hB1))

/-- C8: graceful degradation. (a) The first missing required sheet aborts
the run with the `ValueError` naming it. (b) If the optional LFM1 sheet is
present but its `Source_ID` or `EKORG` column cannot be resolved, the run
still succeeds, the sheet is carried through with only its headers cleaned,
and no ledger entry names it. (c) Likewise for the optional WYT3 sheet. -/
theorem c8_graceful :
    (∀ (wb : List (String × Table)) (pairs : List (String × String)) (s : String),
      requiredSheets.find? (fun n => (sheetLookup wb n).isNone) = some s →
      process_excel wb pairs = .error (missingSheetMsg s)) ∧
    (∀ (wb : List (String × Table)) (pairs : List (String × String)) (out : ProcResult)
      (t : Table), process_excel wb pairs = .ok out →
      sheetLookup wb nameLFM1 = some t →
      (find_column (clean_headers t) "Source_ID" = none ∨
        find_column (clean_headers t) "EKORG" = none) →
      out.lfm1 = some (clean_headers t) ∧ ∀ (i : Nat) (c : String),
        (nameLFM1, i, c) ∉ out.ledger) ∧
    (∀ (wb : List (String × Table)) (pairs : List (String × String)) (out : ProcResult)
      (t : Table), process_excel wb pairs = .ok out →
      sheetLookup wb nameWYT3 = some t →
      (find_column (clean_headers t) "Source_ID" = none ∨
        find_column (clean_headers t) "EKORG" = none) →
      out.wyt3 = some (clean_headers t) ∧ ∀ (i : Nat) (c : String),
        (nameWYT3, i, c) ∉ out.ledger) := by
  refine ⟨?_, ?_, ?_⟩
  · intro wb pairs s h
    exact process_excel_missing wb pairs h
  · intro wb pairs out t hok hlm hmiss
    obtain ⟨b0, b100, ad, la, lb, hs1, hs2, hs3, hs4, hs5, hcore⟩ := process_excel_ok hok
    obtain ⟨roleCol, b0src, adSrc, adName, laSrc, lbSrc, lbB,
      hf1, hf2, hf3, hf4, hf5, hf6, hf7, hout⟩ := processCore_ok hcore
    rw [hlm] at hout
    constructor
    · have hproj : out.lfm1 = (processLFM1opt (buildSrcInfo pairs) (buildIdMap pairs)
          (some t)
          (processAssoc (buildSrcInfo pairs) (buildIdMap pairs) (clean_headers lb)
            lbSrc lbB nameLFB1
            (processLFA1 (buildSrcInfo pairs) (buildIdMap pairs) (clean_headers la) laSrc
              (processADRC (buildSrcInfo pairs) (buildIdMap pairs) (clean_headers ad)
                adSrc adName
                (processBUT000 (buildSrcInfo pairs) (buildIdMap pairs) (clean_headers b0)
                  b0src []).2).2).2).2).1 := by
        rw [hout]
        rfl
      rw [hproj, processLFM1opt_skip _ _ _ hmiss]
    · intro i c hmem
      have hled : out.ledger = (processWYT3opt (buildSrcInfo pairs) (buildIdMap pairs)
          (sheetLookup wb nameWYT3)
          (processLFM1opt (buildSrcInfo pairs) (buildIdMap pairs) (some t)
            (processAssoc (buildSrcInfo pairs) (buildIdMap pairs) (clean_headers lb)
              lbSrc lbB nameLFB1
              (processLFA1 (buildSrcInfo pairs) (buildIdMap pairs) (clean_headers la)
                laSrc
                (processADRC (buildSrcInfo pairs) (buildIdMap pairs) (clean_headers ad)
                  adSrc adName
                  (processBUT000 (buildSrcInfo pairs) (buildIdMap pairs)
                    (clean_headers b0) b0src []).2).2).2).2).2).2 := by
        rw [hout]
        rfl
      rw [processLFM1opt_skip _ _ _ hmiss] at hled
      rw [hled] at hmem
      rcases processWYT3opt_led_new _ _ _ _ _ hmem with h | ⟨i2, c2, he⟩
      · rcases stagesLFB1_led_sheets _ _ _ _ _ _ _ _ _ _ _ _ h with
          ⟨i2, c2, he⟩ | ⟨i2, c2, he⟩ | ⟨i2, c2, he⟩ | ⟨i2, c2, he⟩
        · exact absurd (show nameLFM1 = nameBUT000 from congrArg Prod.fst he) (by decide)
        · exact absurd (show nameLFM1 = nameADRC from congrArg Prod.fst he) (by decide)
        · exact absurd (show nameLFM1 = nameLFA1 from congrArg Prod.fst he) (by decide)
        · exact absurd (show nameLFM1 = nameLFB1 from congrArg Prod.fst he) (by decide)
      · exact absurd (show nameLFM1 = nameWYT3 from congrArg Prod.fst he) (by decide)
  · intro wb pairs out t hok hwy hmiss
    obtain ⟨b0, b100, ad, la, lb, hs1, hs2, hs3, hs4, hs5, hcore⟩ := process_excel_ok hok
    obtain ⟨roleCol, b0src, adSrc, adName, laSrc, lbSrc, lbB,
      hf1, hf2, hf3, hf4, hf5, hf6, hf7, hout⟩ := processCore_ok hcore
    rw [hwy] at hout
    constructor
    · have hproj : out.wyt3 = (processWYT3opt (buildSrcInfo pairs) (buildIdMap pairs)
          (some t)
          (processLFM1opt (buildSrcInfo pairs) (buildIdMap pairs)
            (sheetLookup wb nameLFM1)
            (processAssoc (buildSrcInfo pairs) (buildIdMap pairs) (clean_headers lb)
              lbSrc lbB nameLFB1
              (processLFA1 (buildSrcInfo pairs) (buildIdMap pairs) (clean_headers la)
                laSrc
                (processADRC (buildSrcInfo pairs) (buildIdMap pairs) (clean_headers ad)
                  adSrc adName
                  (processBUT000 (buildSrcInfo pairs) (buildIdMap pairs)
                    (clean_headers b0) b0src []).2).2).2).2).2).1 := by
        rw [hout]
        rfl
      rw [hproj, processWYT3opt_skip _ _ _ hmiss]
    · intro i c hmem
      have hled : out.ledger = (processWYT3opt (buildSrcInfo pairs) (buildIdMap pairs)
          (some t)
          (processLFM1opt (buildSrcInfo pairs) (buildIdMap pairs)
            (sheetLookup wb nameLFM1)
            (processAssoc (buildSrcInfo pairs) (buildIdMap pairs) (clean_headers lb)
              lbSrc lbB nameLFB1
              (processLFA1 (buildSrcInfo pairs) (buildIdMap pairs) (clean_headers la)
                laSrc
                (processADRC (buildSrcInfo pairs) (buildIdMap pairs) (clean_headers ad)
                  adSrc adName
                  (processBUT000 (buildSrcInfo pairs) (buildIdMap pairs)
                    (clean_headers b0) b0src []).2).2).2).2).2).2 := by
        rw [hout]
        rfl
      rw [processWYT3opt_skip _ _ _ hmiss] at hled
      rw [hled] at hmem
      rcases processLFM1opt_led_new _ _ _ _ _ hmem with h | ⟨i2, c2, he⟩
      · rcases stagesLFB1_led_sheets _ _ _ _ _ _ _ _ _ _ _ _ h with
          ⟨i2, c2, he⟩ | ⟨i2, c2, he⟩ | ⟨i2, c2, he⟩ | ⟨i2, c2, he⟩
        · exact absurd (show nameWYT3 = nameBUT000 from congrArg Prod.fst he) (by decide)
        · exact absurd (show nameWYT3 = nameADRC from congrArg Prod.fst he) (by decide)
        · exact absurd (show nameWYT3 = nameLFA1 from congrArg Prod.fst he) (by decide)
        · exact absurd (show nameWYT3 = nameLFB1 from congrArg Prod.fst he) (by decide)
      · exact absurd (show nameWYT3 = nameLFM1 from congrArg Prod.fst he) (by decide)

/-- Witness for C8: the empty workbook aborts naming the first required
sheet, and in the concrete run the LFM1 sheet (which lacks EKORG) comes out
with cleaned headers only and no ledger entry. -/
theorem c8_witness :
    process_excel [] pairs0 = .error (missingSheetMsg nameBUT000) ∧
    out0.lfm1 = some (clean_headers wbLM) ∧ (nameLFM1, 0, "EKORG") ∉ out0.ledger := by
  have ha := c8_graceful.1 [] pairs0 nameBUT000 (by decide)
  have hb := c8_graceful.2.1 wb0 pairs0 out0 wbLM out0_spec (by decide) (Or.inr (by decide))
  exact ⟨ha, hb.1, hb.2 0 "EKORG"⟩

/-! ### Claim C9 -/

/-- C9: the role attribute is "PO" exactly for identifiers occurring more
than once in the role table's Source_ID column ("NPO" otherwise), and it
gates no mutation rule: two runs whose inputs differ only in the role table
produce identical mutated tables and an identical mutation ledger. -/
theorem c9_role_independent :
    (∀ (info : AssocMap) (t : Table) (c : String) (kv : String × String),
      kv ∈ assignRoles info t c ↔
        ∃ v0, (kv.1, v0) ∈ info ∧
          kv.2 = if 1 < srcCount t c kv.1 then "PO" else "NPO") ∧
    (∀ (b0 b100a b100b ad la lb : Table) (lm wy : Option Table)
      (pairs : List (String × String)) (ca cb : String),
      find_column (clean_headers b100a) "Source_ID" = some ca →
      find_column (clean_headers b100b) "Source_ID" = some cb →
      (processCore b0 b100a ad la lb lm wy pairs).map mutatedView =
        (processCore b0 b100b ad la lb lm wy pairs).map mutatedView) := by
  constructor
  · intro info t c kv
    constructor
    · intro h
      simp only [assignRoles, List.mem_map] at h
      obtain ⟨a, ha, hfa⟩ := h
      subst hfa
      exact ⟨a.2, ha, rfl⟩
    · rintro ⟨v0, hmem, hv⟩
      simp only [assignRoles, List.mem_map]
      refine ⟨(kv.1, v0), hmem, ?_⟩
      exact Prod.ext_iff.mpr ⟨rfl, hv.symm⟩
  · intro b0 b100a b100b ad la lb lm wy pairs ca cb ha hb
    exact processCore_role_independent b0 b100a b100b ad la lb lm wy pairs ha hb

/-- Witness for C9: replacing the one-row role table (count 1, role "NPO")
by a two-row one (count 2, role "PO") leaves every mutated table and the
ledger unchanged. -/
theorem c9_witness :
    (processCore wbB0 wbB100 wbAD wbLA wbLB (some wbLM) (some wbWY) pairs0).map
        mutatedView =
      (processCore wbB0 ⟨["Source_ID"], [[some "1000000003"], [some "1000000003"]]⟩
        wbAD wbLA wbLB (some wbLM) (some wbWY) pairs0).map mutatedView :=
  c9_role_independent.2 wbB0 wbB100
    ⟨["Source_ID"], [[some "1000000003"], [some "1000000003"]]⟩
    wbAD wbLA wbLB (some wbLM) (some wbWY) pairs0 "Source_ID" "Source_ID"
    (by decide) (by decide)

/-! ### Claim C10 -/

/-- C10: `ensure_column` leaves a table with the column untouched and
otherwise appends the column with the empty string in every row; hence in a
successful run the LFB1 output always carries `_ACTION_CODE`, and whenever
the optional LFM1 (resp. WYT3) sheet's columns resolve, its output carries
`_ACTION_CODE` (resp. `_ACTION_CODE` and `DEFPA`), even if no row was
rewritten. -/
theorem c10_schema :
    (∀ (t : Table) (c : String), TableWF t →
      (c ∈ t.cols → ensure_column t c = t) ∧
      (c ∉ t.cols → (ensure_column t c).cols = t.cols ++ [c] ∧
        ∀ i, i < t.rows.length → getCell (ensure_column t c) i c = some "")) ∧
    (∀ (wb : List (String × Table)) (pairs : List (String × String)) (out : ProcResult),
      process_excel wb pairs = .ok out →
        "_ACTION_CODE" ∈ out.lfb1.cols ∧
        (∀ t, sheetLookup wb nameLFM1 = some t →
          (∃ sC, find_column (clean_headers t) "Source_ID" = some sC) →
          (∃ eC, find_column (clean_headers t) "EKORG" = some eC) →
          ∃ t2, out.lfm1 = some t2 ∧ "_ACTION_CODE" ∈ t2.cols) ∧
        (∀ t, sheetLookup wb nameWYT3 = some t →
          (∃ sC, find_column (clean_headers t) "Source_ID" = some sC) →
          (∃ eC, find_column (clean_headers t) "EKORG" = some eC) →
          ∃ t2, out.wyt3 = some t2 ∧ "_ACTION_CODE" ∈ t2.cols ∧ "DEFPA" ∈ t2.cols)) := by
  constructor
  · intro t c hwf
    refine ⟨fun h => ensure_column_of_mem h, fun h => ⟨ensure_column_cols_new h, ?_⟩⟩
    intro i hi
    exact getCell_ensure_column_new hwf h hi
  · intro wb pairs out hok
    obtain ⟨b0, b100, ad, la, lb, hs1, hs2, hs3, hs4, hs5, hcore⟩ := process_excel_ok hok
    obtain ⟨roleCol, b0src, adSrc, adName, laSrc, lbSrc, lbB,
      hf1, hf2, hf3, hf4, hf5, hf6, hf7, hout⟩ := processCore_ok hcore
    refine ⟨?_, ?_, ?_⟩
    · have hproj : out.lfb1 = (processAssoc (buildSrcInfo pairs) (buildIdMap pairs)
          (clean_headers lb) lbSrc lbB nameLFB1
          (processLFA1 (buildSrcInfo pairs) (buildIdMap pairs) (clean_headers la) laSrc
            (processADRC (buildSrcInfo pairs) (buildIdMap pairs) (clean_headers ad)
              adSrc adName
              (processBUT000 (buildSrcInfo pairs) (buildIdMap pairs) (clean_headers b0)
                b0src []).2).2).2).1 := by
        rw [hout]
        rfl
      rw [hproj, processAssoc_cols]
      exact mem_ensure_column_cols _ _
    · rintro t hlm ⟨sC, hsC⟩ ⟨eC, heC⟩
      rw [hlm] at hout
      have hproj : out.lfm1 = (processLFM1opt (buildSrcInfo pairs) (buildIdMap pairs)
          (some t)
          (processAssoc (buildSrcInfo pairs) (buildIdMap pairs) (clean_headers lb)
            lbSrc lbB nameLFB1
            (processLFA1 (buildSrcInfo pairs) (buildIdMap pairs) (clean_headers la) laSrc
              (processADRC (buildSrcInfo pairs) (buildIdMap pairs) (clean_headers ad)
                adSrc adName
                (processBUT000 (buildSrcInfo pairs) (buildIdMap pairs) (clean_headers b0)
                  b0src []).2).2).2).2).1 := by
        rw [hout]
        rfl
      rw [processLFM1opt_run _ _ _ hsC heC] at hproj
      refine ⟨_, hproj, ?_⟩
      rw [processAssoc_cols]
      exact mem_ensure_column_cols _ _
    · rintro t hwy ⟨sC, hsC⟩ ⟨eC, heC⟩
      rw [hwy] at hout
      have hproj : out.wyt3 = (processWYT3opt (buildSrcInfo pairs) (buildIdMap pairs)
          (some t)
          (processLFM1opt (buildSrcInfo pairs) (buildIdMap pairs)
            (sheetLookup wb nameLFM1)
            (processAssoc (buildSrcInfo pairs) (buildIdMap pairs) (clean_headers lb)
              lbSrc lbB nameLFB1
              (processLFA1 (buildSrcInfo pairs) (buildIdMap pairs) (clean_headers la)
                laSrc
                (processADRC (buildSrcInfo pairs) (buildIdMap pairs) (clean_headers ad)
                  adSrc adName
                  (processBUT000 (buildSrcInfo pairs) (buildIdMap pairs)
                    (clean_headers b0) b0src []).2).2).2).2).2).1 := by
        rw [hout]
        rfl
      rw [processWYT3opt_run _ _ _ hsC heC] at hproj
      refine ⟨_, hproj, ?_, ?_⟩
      · rw [processWYT3_cols]
        exact mem_ensure_cols_of_mem _ (mem_ensure_column_cols _ _)
      · rw [processWYT3_cols]
        exact mem_ensure_column_cols _ _

/-- Witness for C10 on the concrete run: the LFB1 output carries
`_ACTION_CODE`, and the WYT3 output (whose columns resolve) carries both
`_ACTION_CODE` and `DEFPA`, although no row of it was inserted. -/
theorem c10_witness :
    "_ACTION_CODE" ∈ out0.lfb1.cols ∧ out0.wyt3.isSome = true ∧
    "_ACTION_CODE" ∈ (out0.wyt3.getD default).cols ∧
    "DEFPA" ∈ (out0.wyt3.getD default).cols := by
  have h := c10_schema.2 wb0 pairs0 out0 out0_spec
  obtain ⟨t2, he, h1, h2⟩ :=
    h.2.2 wbWY (by decide) ⟨"Source_ID", by decide⟩ ⟨"EKORG", by decide⟩
  rw [he]
  exact ⟨h.1, rfl, h1, h2⟩
